import Mathlib

/-!
The connection engine and routing pipeline of nex.

A shallow embedding of the HTTP connection engine (`HttpConnection.cc`), the request and
response models (`request.cc`, `response.cc`), the method table (`helpers/methods.h`) and the
routing pipeline (`router.cc`, `pathRegexp.cc`).

Conventions of the embedding:

* `std::string` buffers that are sliced (socket reads, the header buffer, body chunks) are
  `List Char`; strings that are only compared, measured or concatenated are `String`.
* `uint32_t` arithmetic is arithmetic on `Nat` reduced modulo `2 ^ 32` (`u32`, `toU32`, `subU32`).
* Calls into the event loop, the socket and the injected request processor are recorded, in
  order, in the ghost field `effects`; registered callbacks are a flag plus a ghost log of their
  invocations.
* The header parser (picohttpparser), the regular expression engine (`std::regex`), the status
  text table and the clock are supplied primitives and are parameters of the embedding.
-/

namespace Nex

/-! ## Machine integers -/

/-- Reduction of a natural number to `uint32_t`. -/
def u32 (n : Nat) : Nat := n % 4294967296

/-- Conversion of a signed (or wider) integer to `uint32_t`. -/
def toU32 (z : Int) : Nat := (z % 4294967296).toNat

/-- Subtraction of two `uint32_t` values, wrapping around. -/
def subU32 (a b : Nat) : Nat := toU32 ((a : Int) - (b : Int))

/-! ## helpers/methods.h -/

/-- The hash `str2int` of a NUL-terminated string: `5381` at the terminator, otherwise
`(str2int(rest) * 33) ^ byte` in `unsigned int` arithmetic. -/
def str2int : List Char → Nat
  | [] => 5381
  | c :: cs => if c.toNat = 0 then 5381 else u32 (str2int cs * 33) ^^^ (c.toNat % 256)

/-- The view `c_str()` gives of a string: the bytes before the first NUL. -/
def cstr (s : List Char) : List Char := s.takeWhile (fun c => c.toNat != 0)

inductive HttpMethod
  | ALL | ACL | BIND | CHECKOUT | CONNECT | COPY | DELETE | GET | HEAD | LINK | LOCK
  | M_SEARCH | MERGE | MKACTIVITY | MKCALENDAR | MKCOL | MOVE | NOTIFY | OPTIONS | PATCH
  | POST | PROPFIND | PROPPATCH | PURGE | PUT | REBIND | REPORT | SEARCH | SOURCE
  | SUBSCRIBE | TRACE | UNBIND | UNLINK | UNLOCK | UNSUBSCRIBE
  deriving DecidableEq, Repr, Inhabited

def ALL_HTTP_METHODS : List HttpMethod :=
  [.ACL, .BIND, .CHECKOUT, .CONNECT, .COPY, .DELETE, .GET, .HEAD, .LINK, .LOCK, .M_SEARCH,
   .MERGE, .MKACTIVITY, .MKCALENDAR, .MKCOL, .MOVE, .NOTIFY, .OPTIONS, .PATCH, .POST,
   .PROPFIND, .PROPPATCH, .PURGE, .PUT, .REBIND, .REPORT, .SEARCH, .SOURCE, .SUBSCRIBE,
   .TRACE, .UNBIND, .UNLINK, .UNLOCK, .UNSUBSCRIBE]

def methodToString : HttpMethod → String
  | .ACL => "ACL" | .BIND => "BIND" | .CHECKOUT => "CHECKOUT" | .CONNECT => "CONNECT"
  | .COPY => "COPY" | .DELETE => "DELETE" | .GET => "GET" | .HEAD => "HEAD"
  | .LINK => "LINK" | .LOCK => "LOCK" | .M_SEARCH => "M-SEARCH" | .MERGE => "MERGE"
  | .MKACTIVITY => "MKACTIVITY" | .MKCALENDAR => "MKCALENDAR" | .MKCOL => "MKCOL"
  | .MOVE => "MOVE" | .NOTIFY => "NOTIFY" | .OPTIONS => "OPTIONS" | .PATCH => "PATCH"
  | .POST => "POST" | .PROPFIND => "PROPFIND" | .PROPPATCH => "PROPPATCH"
  | .PURGE => "PURGE" | .PUT => "PUT" | .REBIND => "REBIND" | .REPORT => "REPORT"
  | .SEARCH => "SEARCH" | .SOURCE => "SOURCE" | .SUBSCRIBE => "SUBSCRIBE"
  | .TRACE => "TRACE" | .UNBIND => "UNBIND" | .UNLINK => "UNLINK" | .UNLOCK => "UNLOCK"
  | .UNSUBSCRIBE => "UNSUBSCRIBE"
  | .ALL => ""

/-- The numeric value of an enumerator: `0` for `ALL`, the hash of its name otherwise. -/
def HttpMethod.value : HttpMethod → Nat
  | .ALL => 0
  | m => str2int (methodToString m).toList

/-- The function `parseMethod`: the `switch` selects the enumerator whose value is the hash of
the argument, and the `strcmp` that follows rejects a colliding string. `none` stands for the
thrown `std::runtime_error`. -/
def parseMethod (method : String) : Option HttpMethod :=
  match ALL_HTTP_METHODS.find? (fun m => m.value == str2int (cstr method.toList)) with
  | some m => if (methodToString m).toList = cstr method.toList then some m else none
  | none => none

/-! ## helpers/miscellaneous.h, commonHeaders.h -/

/-- The function `tolower` on one byte (C locale). -/
def toLowerByte (c : Char) : Nat :=
  if 65 ≤ c.toNat ∧ c.toNat ≤ 90 then c.toNat + 32 else c.toNat

/-- The comparator `caseInsensitiveCompare`: `std::lexicographical_compare` on lowered bytes. -/
def caseInsensitiveCompare : List Char → List Char → Bool
  | _, [] => false
  | [], _ :: _ => true
  | a :: as, b :: bs =>
    if toLowerByte a < toLowerByte b then true
    else if toLowerByte b < toLowerByte a then false
    else caseInsensitiveCompare as bs

/-- The variant `std::variant<std::monostate, std::string, std::vector<std::string>>`. -/
inductive MaybeStringArrayValue
  | monostate
  | str (s : String)
  | arr (l : List String)
  deriving DecidableEq, Repr, Inhabited

abbrev HeaderValue := MaybeStringArrayValue

/-- A `std::map` ordered by `caseInsensitiveCompare`, kept as its sorted list of entries. -/
abbrev CiMap (α : Type) := List (String × α)

/-- Lookup of a key; keys that the comparator cannot tell apart are the same key. -/
def CiMap.get? {α : Type} : CiMap α → String → Option α
  | [], _ => none
  | (k, v) :: rest, key =>
    if caseInsensitiveCompare key.toList k.toList then none
    else if caseInsensitiveCompare k.toList key.toList then CiMap.get? rest key
    else some v

/-- Assignment `m[key] = v`: an existing entry keeps its key and takes the new value, a new
entry is inserted at its place in the order. -/
def CiMap.set {α : Type} : CiMap α → String → α → CiMap α
  | [], key, v => [(key, v)]
  | (k, w) :: rest, key, v =>
    if caseInsensitiveCompare key.toList k.toList then (key, v) :: (k, w) :: rest
    else if caseInsensitiveCompare k.toList key.toList then (k, w) :: CiMap.set rest key v
    else (k, v) :: rest

abbrev HeaderMapping := CiMap HeaderValue
abbrev RouteParamMapping := CiMap String

/-- The value `headers[name]` reads: a missing entry is default-constructed (monostate). -/
def HeaderMapping.index (m : HeaderMapping) (name : String) : HeaderValue :=
  (CiMap.get? m name).getD .monostate

/-- The shared body of `Request::appendHeader` and `Response::appendHeader`. -/
def HeaderMapping.appendHeader (m : HeaderMapping) (name value : String) : HeaderMapping :=
  match HeaderMapping.index m name with
  | .arr l => CiMap.set m name (.arr (l ++ [value]))
  | .str s => CiMap.set m name (.arr [s, value])
  | .monostate => CiMap.set m name (.str value)

/-! ## The C++ library function `std::stoll` -/

/-- The predicate `isspace` (C locale). -/
def isSpace (c : Char) : Bool :=
  c.toNat = 32 || (9 ≤ c.toNat && c.toNat ≤ 13)

/-- The value of a run of decimal digits. -/
def digitsValue (ds : List Char) : Nat :=
  ds.foldl (fun acc c => 10 * acc + (c.toNat - 48)) 0

/-- The library function `std::stoll(str)` with base 10, as the standard defines it through
`strtoll`: leading white space is skipped, one optional sign is read, then the longest run of
decimal digits; characters after the digits are ignored. `none` stands for a thrown
`std::invalid_argument` (no digit) or `std::out_of_range` (value outside `long long`). -/
def stoll (s : String) : Option Int :=
  let l := s.toList.dropWhile isSpace
  let signed : Bool × List Char :=
    match l with
    | '-' :: t => (true, t)
    | '+' :: t => (false, t)
    | _ => (false, l)
  let ds := signed.2.takeWhile Char.isDigit
  if ds = [] then none
  else
    let v : Int := if signed.1 then -(digitsValue ds : Int) else (digitsValue ds : Int)
    if v < -9223372036854775808 ∨ 9223372036854775807 < v then none else some v

/-! ## Supplied primitives and configuration -/

/-- One entry of the header list the header parser fills (`phr_header`): a continuation line
has no name. -/
structure phr_header where
  name : Option String
  value : Option String
  deriving DecidableEq, Repr

/-- What `phr_parse_request` reports for the bytes it is given: a complete header block
(return value `> 0`, the number of bytes consumed) with the method token, the path, the minor
version and the header list; a malformed request (`-1`); an incomplete request (`-2`). -/
inductive PhrResult
  | complete (consumed : Nat) (method : String) (path : String) (minorVersion : Nat)
      (headers : List phr_header)
  | malformed
  | incomplete
  deriving DecidableEq, Repr

/-- The primitives the engine is built on: the header parser, the table of status texts
(`helpers/statusCodes.h`) and the clock, already formatted (`getStandardizedTime`). -/
structure Env where
  phr_parse_request : List Char → PhrResult
  getStatusTextByCode : Nat → String
  getStandardizedTime : String
  formatTime : Nat → String

/-- The class `HttpServerConfig` with its default member initialisers. -/
structure HttpServerConfig where
  responseTimeout : Nat := 15000
  requestTimeout : Nat := 5000
  keepAliveTimeout : Nat := 5000
  maxRequestBodyLength : Nat := 1024 * 1024 * 10
  maxRequestsPerConnection : Nat := 1000
  maxPathLength : Nat := 8 * 1024
  persistentConnections : Bool := true
  protocol : String := "http"
  deriving DecidableEq, Repr

/-! ## request.cc -/

/-- One invocation of a callback registered on a request. -/
inductive BodyEvent
  | data (chunk : List Char)
  | dataEnd
  deriving DecidableEq, Repr

/-- The class `Request`. A registered callback is the flag that it is non-null; `callbackLog`
(ghost) lists the invocations of the two callbacks in order, and `id` (ghost) is the identity
of the heap object. -/
structure Request where
  onDataCallback : Bool := false
  onDataEndCallback : Bool := false
  isAlive : Bool := true
  method : HttpMethod := .GET
  headers : HeaderMapping := []
  routeParams : RouteParamMapping := []
  path : String := ""
  relativePath : String := ""
  basePath : String := ""
  pathWithoutQueryString : String := ""
  queryString : String := ""
  anchor : String := ""
  error : String := ""
  bodyBuffer : List Char := []
  isFullData : Bool := false
  bodyOctetsReceived : Nat := 0
  contentLength : Nat := 0
  requestError : Nat := 0
  minorVersion : Nat := 1
  callbackLog : List BodyEvent := []
  id : Nat := 0
  deriving DecidableEq, Repr

/-- The string `std::string(s.begin() + first, s.begin() + last)` for `first ≤ last`. An
inverted range is undefined behaviour in C++: `Request.prepare` tests for it before it builds
the string, and `slice` itself yields the empty string there. -/
def slice (s : List Char) (first last : Nat) : List Char :=
  (s.drop first).take (last - first)

/-- The first loop of `Request::prepare`, started at index `i` with the bytes from `i` on:
it stops at a `'?'`, or at once when `path[anchorStart]`, which is `path[0]`, is `'#'`. -/
def prepareQueryStart (path : List Char) : List Char → Nat → Nat × Bool
  | [], i => (i, false)
  | c :: rest, i =>
    if c = '?' then (i, false)
    else if path.head? = some '#' then (i, true)
    else prepareQueryStart path rest (i + 1)

/-- The second loop of `Request::prepare`: the index of the first `'#'`, or the length. -/
def prepareAnchorStart : List Char → Nat → Nat
  | [], i => i
  | c :: rest, i => if c = '#' then i else prepareAnchorStart rest (i + 1)

/-- The function `Request::prepare`. With a `'#'` before the first `'?'` that is not the first
byte, the last branch builds `queryString` from the inverted range
`[queryStringStart, anchorStart)`, which is undefined behaviour. The argument `inverted` is what
that construction does: `none` when it throws, which is the `std::length_error` of the common
standard libraries, and `some s` when it yields a string `s`. The result is `none` when the
function is left by the exception. -/
def Request.prepare (inverted : Option String) (r : Request) : Option Request :=
  let path := r.path.toList
  let q := prepareQueryStart path path 0
  let queryStringStart := q.1
  if queryStringStart ≥ path.length then
    some { r with pathWithoutQueryString := r.path }
  else
    let r := { r with pathWithoutQueryString := String.mk (slice path 0 queryStringStart) }
    if q.2 then
      some { r with anchor := String.mk (slice path 0 path.length) }
    else
      let anchorStart := prepareAnchorStart path 0
      if anchorStart ≥ path.length then
        some { r with queryString := String.mk (slice path queryStringStart path.length) }
      else if anchorStart < queryStringStart then
        inverted.map (fun s =>
          { r with
            queryString := s
            anchor := String.mk (slice path anchorStart path.length) })
      else
        some { r with
          queryString := String.mk (slice path queryStringStart anchorStart)
          anchor := String.mk (slice path anchorStart path.length) }

/-- The constructor `Request(httpConnection, isolate, method, path, minorVersion)`, which runs
`prepare()`; `none` when it is left by the exception of an inverted range. -/
def Request.new (method : HttpMethod) (path : String) (minorVersion : Nat) : Option Request :=
  Request.prepare none { method := method, path := path, minorVersion := minorVersion }

/-- The constructor `Request(errorStatusCode)`. -/
def Request.newError (errorStatusCode : Nat) : Request :=
  { requestError := errorStatusCode }

def Request.appendHeader (r : Request) (name value : String) : Request :=
  { r with headers := HeaderMapping.appendHeader r.headers name value }

def Request.onData (r : Request) : Request :=
  let r := { r with onDataCallback := true }
  if !r.bodyBuffer.isEmpty then
    let r := { r with callbackLog := r.callbackLog ++ [BodyEvent.data r.bodyBuffer] }
    let r := { r with bodyBuffer := [] }
    if r.isFullData && r.onDataEndCallback then
      { r with callbackLog := r.callbackLog ++ [BodyEvent.dataEnd] }
    else r
  else r

def Request.onDataEnd (r : Request) : Request :=
  let r := { r with onDataEndCallback := true }
  if r.isFullData && r.bodyBuffer.isEmpty then
    { r with callbackLog := r.callbackLog ++ [BodyEvent.dataEnd] }
  else r

def Request.handleData (r : Request) (data : List Char) : Request :=
  if !r.isAlive then r
  else
    let r := { r with bodyOctetsReceived := u32 (r.bodyOctetsReceived + data.length) }
    let r := if r.bodyOctetsReceived ≥ r.contentLength then { r with isFullData := true } else r
    if r.onDataCallback then
      let r := { r with callbackLog := r.callbackLog ++ [BodyEvent.data data] }
      if r.isFullData && r.onDataEndCallback then
        { r with callbackLog := r.callbackLog ++ [BodyEvent.dataEnd] }
      else r
    else
      { r with bodyBuffer := r.bodyBuffer ++ data }

def Request.invalidate (r : Request) : Request :=
  let r := { r with isAlive := false }
  let r := if r.onDataEndCallback then { r with callbackLog := r.callbackLog ++ [BodyEvent.dataEnd] } else r
  { r with onDataCallback := false, onDataEndCallback := false }

def Request.handleDataEnd (r : Request) : Request :=
  if !r.isAlive then r
  else
    let r := if r.onDataEndCallback then { r with callbackLog := r.callbackLog ++ [BodyEvent.dataEnd] } else r
    { r with onDataEndCallback := false, onDataCallback := false }

/-! ## response.cc -/

inductive SameSiteAttribute
  | None | Lax | Strict
  deriving DecidableEq, Repr

/-- The struct `ResponseCookieValue` of `helpers/miscellaneous.h`. -/
structure ResponseCookieValue where
  domain : String := ""
  path : String := ""
  value : Option String := none
  expires : Option Nat := none
  maxAge : Option Nat := none
  secure : Bool := false
  httpOnly : Bool := false
  sameSite : Option SameSiteAttribute := none
  deriving DecidableEq, Repr

def ResponseCookieValue.serialize (env : Env) (name : String) (value : ResponseCookieValue) :
    String :=
  match value.value with
  | none => name ++ "=; Expires=" ++ env.formatTime 0 ++ "; Max-Age=0"
  | some val =>
    name ++ "=" ++ val
      ++ (match value.expires with
          | some e => "; Expires=" ++ env.formatTime e
          | none => "")
      ++ (match value.maxAge with
          | some a => "; Max-Age=" ++ toString a
          | none => "")
      ++ (if value.domain.length ≠ 0 then "; Domain=" ++ value.domain else "")
      ++ (if value.path.length ≠ 0 then "; Path=" ++ value.path else "")
      ++ (match value.sameSite with
          | some .None => "; SameSite=None"
          | some .Lax => "; SameSite=Lax"
          | some .Strict => "; SameSite=Strict"
          | none => "")
      ++ (if value.secure then "; Secure" else "")
      ++ (if value.httpOnly then "; HttpOnly" else "")

/-- A `std::map<std::string, T>` (ordered by `operator<` of strings) as its sorted entries. -/
def StrMap.set {α : Type} : List (String × α) → String → α → List (String × α)
  | [], key, v => [(key, v)]
  | (k, w) :: rest, key, v =>
    if key < k then (key, v) :: (k, w) :: rest
    else if k < key then (k, w) :: StrMap.set rest key v
    else (k, v) :: rest

def CRLF : String := "\r\n"

/-- The class `Response`. The pointer `httpConnection` is used for its configuration, for
`client->write` and for `end()`; the functions below take the configuration as an argument and
return the data written and whether `httpConnection->end()` is called. The hook
`pipelineEndCallback`, which only releases Pipeline objects, is not part of the embedding. -/
structure Response where
  cookies : List (String × ResponseCookieValue) := []
  headers : HeaderMapping := []
  statusCode : Nat := 500
  minorVersion : Nat := 1
  contentLength : Option Nat := none
  isAlive : Bool := true
  headersSent : Bool := false
  isChunkedTransfer : Bool := false
  deriving DecidableEq, Repr

def Response.setBasicHeaders (env : Env) (cfg : HttpServerConfig) (r : Response) : Response :=
  if !r.isAlive then r
  else
    let h := CiMap.set r.headers "Date" (.str env.getStandardizedTime)
    let h := CiMap.set h "Content-Type" (.str "text/plain; charset=utf-8")
    if cfg.persistentConnections then
      let h := CiMap.set h "Connection" (.str "keep-alive")
      let h := CiMap.set h "Keep-Alive"
        (.str ("timeout=" ++ toString (cfg.keepAliveTimeout / 1000)
          ++ ", max=" ++ toString cfg.maxRequestsPerConnection))
      { r with headers := h }
    else
      { r with headers := CiMap.set h "Connection" (.str "close") }

/-- The constructor `Response(httpConnection, isolate, minorVersion)`. -/
def Response.new (env : Env) (cfg : HttpServerConfig) (httpMinorVersion : Nat) : Response :=
  Response.setBasicHeaders env cfg { minorVersion := httpMinorVersion }

def Response.invalidate (r : Response) : Response :=
  { r with isAlive := false }

/-- Whether `needle` occurs in `s` (`std::string::find` differs from `npos`). -/
def containsSubstr (s needle : List Char) : Bool :=
  s.tails.any (fun t => needle.isPrefixOf t)

def Response.updateHeadersBeforeSending (env : Env) (r : Response) : Response :=
  if !r.isAlive then r
  else
    let h := r.headers
    let h :=
      if r.isChunkedTransfer then CiMap.set h "Transfer-Encoding" (.str "chunked")
      else match r.contentLength with
        | some length => CiMap.set h "Content-Length" (.str (toString length))
        | none => CiMap.set h "Transfer-Encoding" (.str "identity")
    let h :=
      match HeaderMapping.index h "Content-Type" with
      | .str contentType =>
        if !containsSubstr contentType.toList "charset".toList then
          CiMap.set h "Content-Type" (.str (contentType ++ "; charset=utf-8"))
        else h
      | _ => h
    let h :=
      if !r.cookies.isEmpty then
        CiMap.set h "Set-Cookie"
          (.arr (r.cookies.map (fun c => ResponseCookieValue.serialize env c.1 c.2)))
      else h
    { r with headers := h }

/-- The status line `HTTP/1.<minor> <code> <text>` with its line end. -/
def statusLine (env : Env) (minorVersion statusCode : Nat) : String :=
  "HTTP/1." ++ toString minorVersion ++ " " ++ toString statusCode ++ " "
    ++ env.getStatusTextByCode statusCode ++ CRLF

/-- The header lines `sendHeaders` writes for one map entry. -/
def headerLines (key : String) : HeaderValue → String
  | .str v => key ++ ": " ++ v ++ CRLF
  | .arr vs => String.join (vs.map (fun v => key ++ ": " ++ v ++ CRLF))
  | .monostate => ""

/-- The text `sendHeaders` assembles: status line, header lines, blank line. -/
def headerBlock (env : Env) (r : Response) : String :=
  statusLine env r.minorVersion r.statusCode
    ++ String.join (r.headers.map (fun e => headerLines e.1 e.2)) ++ CRLF

def Response.sendHeaders (env : Env) (r : Response) : Response × List String :=
  if !r.isAlive || r.headersSent then (r, [])
  else
    let r := Response.updateHeadersBeforeSending env r
    ({ r with headersSent := true }, [headerBlock env r])

def Response.setStatus (r : Response) (code : Nat) : Response :=
  { r with statusCode := code }

def Response.setHeader (r : Response) (name : String) (value : HeaderValue) : Response :=
  { r with headers := CiMap.set r.headers name value }

def Response.areHeadersSent (r : Response) : Bool := r.headersSent

/-- The lowercase hexadecimal digits of a number (`std::hex`). -/
def toHex (n : Nat) : String := String.mk (Nat.toDigits 16 n)

/-- The data `writeInternal` hands to `writeRaw`. -/
def Response.writeInternal (r : Response) (data : String) : List String :=
  if !r.isChunkedTransfer then [data]
  else [toHex data.length ++ CRLF ++ data ++ CRLF]

/-- The function `Response::end`: the response after the call, the data written, and whether
`httpConnection->end()` is called. -/
def Response.endResponse (env : Env) (r : Response) : Response × List String × Bool :=
  if !r.isAlive then (r, [], false)
  else
    let s := if !r.headersSent then Response.sendHeaders env { r with contentLength := some 0 }
             else (r, [])
    let w := if s.1.headersSent && s.1.isChunkedTransfer then Response.writeInternal s.1 "" else []
    (Response.invalidate s.1, s.2 ++ w, true)

def Response.send (env : Env) (r : Response) (data : String) : Response × List String × Bool :=
  if !r.isAlive then (r, [], false)
  else
    let s := if !r.headersSent then
               Response.sendHeaders env { r with contentLength := some (u32 data.length) }
             else (r, [])
    let w := Response.writeInternal s.1 data
    let e := Response.endResponse env s.1
    (e.1, s.2 ++ w ++ e.2.1, e.2.2)

def Response.write (env : Env) (cfg : HttpServerConfig) (r : Response) (data : String) :
    Response × List String :=
  if !r.isAlive then (r, [])
  else
    let s := if !r.headersSent then
               Response.sendHeaders env
                 (if cfg.persistentConnections then { r with isChunkedTransfer := true } else r)
             else (r, [])
    (s.1, s.2 ++ Response.writeInternal s.1 data)

def Response.sendStatus (env : Env) (r : Response) (_code : Nat) : Response × List String :=
  if !r.isAlive then (r, [])
  else if !r.headersSent then Response.sendHeaders env r
  else (r, [])

/-! ## pathRegexp.cc -/

/-- The primitive `std::regex_match` for a pattern compiled with `ECMAScript | optimize |
icase`: for a pattern text and a subject, `none` when the subject does not match, otherwise the
sub-matches `matchResult[0]`, `matchResult[1]`, ... as strings. -/
abbrev RegexEngine := String → String → Option (List String)

/-- The primitive behind `getRegex`: whether the constructor of `std::regex` accepts a pattern
text with the flags `ECMAScript | optimize | icase`; it throws `std::regex_error` when it does
not. -/
abbrev RegexCompiler := String → Bool

/-- The class `PathRegExp`; the two compiled regular expressions are kept as their pattern
texts. -/
structure PathRegExp where
  regexString : String
  parameterNames : List String
  canHandlePartial : Bool
  deriving DecidableEq, Repr

/-- The pattern `setWholeCheckRegex` compiles. -/
def PathRegExp.wholeCheckRegex (re : PathRegExp) : String :=
  "^(" ++ re.regexString ++ ")(?:\\/?)$"

/-- The pattern `setPartialCheckRegex` compiles, for a pattern that is not empty. -/
def PathRegExp.partialCheckRegex (re : PathRegExp) : String :=
  if re.regexString.toList.getLast? ≠ some '/' then
    "^(" ++ re.regexString ++ ")(\\/[^/\\?#]*)*$"
  else
    "^(" ++ re.regexString ++ ")([^/\\?#]*\\/?)*$"

/-- The constructor `PathRegExp(regex, paramKeys, canHandlePartial)`, which compiles the one
pattern it needs. `none` when the constructor of `std::regex` throws, and for an empty prefix
pattern, where `setPartialCheckRegex` reads `strippedRegex[strippedRegex.length() - 1]` out of
bounds, which is undefined behaviour. -/
def PathRegExp.new (compiles : RegexCompiler) (regex : String) (paramKeys : List String)
    (canHandlePartial : Bool) : Option PathRegExp :=
  let re : PathRegExp :=
    { regexString := regex, parameterNames := paramKeys, canHandlePartial := canHandlePartial }
  if canHandlePartial then
    if regex.length = 0 then none
    else if compiles re.partialCheckRegex then some re else none
  else if compiles re.wholeCheckRegex then some re else none

/-- The loop `for (i = 2, p = 0; i < matchResult.size() && p < parameterNames.size(); ...)`,
given the sub-matches from index 2 on. -/
def fillMapping : List String → List String → RouteParamMapping → RouteParamMapping
  | name :: names, sub :: subs, mapping => fillMapping names subs (CiMap.set mapping name sub)
  | _, _, mapping => mapping

/-- The function `matchWhole` applied to the fields of the request it is given by reference:
`none` when the path does not match. -/
def PathRegExp.matchWhole (engine : RegexEngine) (re : PathRegExp) (path : String)
    (req : Request) : Option Request :=
  match engine re.wholeCheckRegex path with
  | some matchResult =>
    let req := { req with routeParams := [] }
    let req := if matchResult.length > 1 then { req with basePath := matchResult.getD 1 "" }
               else req
    some { req with routeParams := fillMapping re.parameterNames (matchResult.drop 2) req.routeParams }
  | none => none

def PathRegExp.matchPartial (engine : RegexEngine) (re : PathRegExp) (path : String)
    (req : Request) : Option Request :=
  match engine re.partialCheckRegex path with
  | some matchResult =>
    let req := { req with routeParams := [] }
    let req := if matchResult.length > 1 then { req with basePath := matchResult.getD 1 "" }
               else req
    let req := { req with
      routeParams := fillMapping re.parameterNames (matchResult.drop 2) req.routeParams }
    some { req with relativePath := matchResult.getD (matchResult.length - 1) "" }
  | none => none

/-- The function `PathRegExp::match` called as
`re.match(path, req->routeParams, req->basePath, req->relativePath)`. -/
def PathRegExp.matchPath (engine : RegexEngine) (re : PathRegExp) (path : String)
    (req : Request) : Option Request :=
  if re.canHandlePartial then PathRegExp.matchPartial engine re path req
  else PathRegExp.matchWhole engine re path req

/-! ## router.cc: Pipeline -/

/-- The pair `MiddlewareConfig`; `μ` is the type of middleware handles. -/
abbrev MiddlewareConfig (μ : Type) := PathRegExp × μ

/-- The fields of a `Pipeline` that its search uses. The request and the response it shares
with the connection are passed to its functions. -/
structure Pipeline (μ : Type) where
  middlewareList : List (MiddlewareConfig μ)
  current : Nat := 0
  isBase : Bool
  isHandled : Bool := false

/-- The string an entry is matched against:
`isBase ? req->pathWithoutQueryString : req->relativePath`. -/
def Pipeline.matchSubject (isBase : Bool) (req : Request) : String :=
  if isBase then req.pathWithoutQueryString else req.relativePath

/-- The `for` loop of `Pipeline::getNext`, with the local `changed` and the field `current` as
arguments. It ends with `current` at the matching entry, or at the list size. `fuel` bounds the
number of iterations; `getNext` passes the number of entries left. -/
def Pipeline.getNextLoop {μ : Type} (engine : RegexEngine) (middlewareList : List (MiddlewareConfig μ))
    (isBase passCurrentMiddlewares : Bool) : Nat → Nat → Bool → Request → Nat × Request
  | 0, current, _, req => (current, req)
  | fuel + 1, current, changed, req =>
    match middlewareList[current]? with
    | none => (current, req)
    | some entry =>
      if !changed && passCurrentMiddlewares && decide (current > 0)
          && (middlewareList[current - 1]?.map (fun previous => previous.1.regexString)
                == some entry.1.regexString) then
        Pipeline.getNextLoop engine middlewareList isBase passCurrentMiddlewares fuel
          (current + 1) changed req
      else
        let path := Pipeline.matchSubject isBase req
        match PathRegExp.matchPath engine entry.1 path req with
        | some req => (current, req)
        | none =>
          Pipeline.getNextLoop engine middlewareList isBase passCurrentMiddlewares fuel
            (current + 1) true req

/-- The function `Pipeline::getNext`: the middleware found (`none` for the null pointer), the
pipeline with its cursor moved, and the request as the match left it. -/
def Pipeline.getNext {μ : Type} (engine : RegexEngine) (p : Pipeline μ) (req : Request)
    (passCurrentMiddlewares : Bool) : Option μ × Pipeline μ × Request :=
  let r := Pipeline.getNextLoop engine p.middlewareList p.isBase passCurrentMiddlewares
    (p.middlewareList.length - p.current) p.current false req
  match p.middlewareList[r.1]? with
  | none => (none, { p with current := r.1 }, r.2)
  | some entry => (some entry.2, { p with current := r.1 + 1 }, r.2)

/-- What a continuation of the pipeline does last: nothing more, a call of a middleware
(`nextMiddleware->emit(req, res, next)`), or a call into the enclosing pipeline
(`baseNext->next()`, `baseNext->nextRoute()`). -/
inductive Transfer (μ : Type)
  | done
  | emit (middleware : μ)
  | baseNext
  | baseNextRoute

/-- The state a continuation of the pipeline works on: the pipeline, the request and the
response, the data written to the socket, and the number of calls of `httpConnection->end()`. -/
structure PipelineState (μ : Type) where
  pipeline : Pipeline μ
  req : Request
  res : Response
  written : List String := []
  connectionEnds : Nat := 0

def Pipeline.isValid {μ : Type} (s : PipelineState μ) : Bool :=
  s.req.isAlive && s.res.isAlive

/-- The call `res->end()` made by a continuation. -/
def PipelineState.resEnd {μ : Type} (env : Env) (s : PipelineState μ) : PipelineState μ :=
  let e := Response.endResponse env s.res
  { s with
    res := e.1
    written := s.written ++ e.2.1
    connectionEnds := if e.2.2 then s.connectionEnds + 1 else s.connectionEnds }

/-- The lambda `nextFunc` of `Pipeline::setNextObject`, the body of `next()`. -/
def Pipeline.nextFunc {μ : Type} (env : Env) (engine : RegexEngine) (s : PipelineState μ) :
    PipelineState μ × Transfer μ :=
  if !Pipeline.isValid s then (PipelineState.resEnd env s, .done)
  else
    let g := Pipeline.getNext engine s.pipeline s.req false
    let s := { s with pipeline := g.2.1, req := g.2.2 }
    match g.1 with
    | none =>
      if !s.pipeline.isBase then (s, .baseNext)
      else if s.res.areHeadersSent then (PipelineState.resEnd env s, .done)
      else (PipelineState.resEnd env { s with res := s.res.setStatus 404 }, .done)
    | some nextMiddleware =>
      let s := if !s.pipeline.isHandled then
                 { s with pipeline := { s.pipeline with isHandled := true }
                          res := s.res.setStatus 200 }
               else s
      ({ s with req := { s.req with error := "" } }, .emit nextMiddleware)

/-! ## HttpConnection.cc -/

inductive Timer
  | request | response | keepAlive
  deriving DecidableEq, Repr

/-- A call the connection makes on the socket, on a timer or on the request processor. -/
inductive Effect
  | write (data : String)
  | stop
  | shutdown
  | close
  | timerStart (timer : Timer) (timeout : Nat)
  | timerStop (timer : Timer)
  | timerClose (timer : Timer)
  | process (request : Request)
  deriving DecidableEq, Repr

/-- The class `HttpConnection`. The handles `client`, `requestTimeout`, `responseTimeout` and
`keepAliveTimeout` are the flags that they are non-null. Ghost fields: `effects` lists the calls
made, `created` counts the requests pushed on the queue (a request takes the count as its
`id`), `dispatched` lists the ids of the requests `processNextRequest` took from the queue,
`completed` counts the runs of `end()`, `deleted` records `delete this`, and `released` lists
the requests `end()` has invalidated and let go of, each as `end()` left it. -/
structure HttpConnection where
  config : HttpServerConfig
  client : Bool := true
  requestTimeout : Bool := false
  responseTimeout : Bool := false
  keepAliveTimeout : Bool := false
  request : Option Request := none
  requestQueue : List Request := []
  response : Option Response := none
  requestsAccepted : Nat := 0
  lastContentLeft : Nat := 0
  headerBuffer : List Char := []
  active : Bool := true
  needMoreDataToParseHeaders : Bool := false
  needMoreDataToGetBody : Bool := false
  hasActiveRequest : Bool := false
  shuttingDown : Bool := false
  closing : Bool := false
  requestTimeoutClosing : Bool := false
  responseTimeoutClosing : Bool := false
  keepAliveTimeoutClosing : Bool := false
  effects : List Effect := []
  created : Nat := 0
  dispatched : List Nat := []
  completed : Nat := 0
  deleted : Bool := false
  released : List Request := []
  deriving DecidableEq, Repr

namespace HttpConnection

def emit (c : HttpConnection) (e : Effect) : HttpConnection :=
  { c with effects := c.effects ++ [e] }

def startRequestTimer (c : HttpConnection) : HttpConnection :=
  if c.config.requestTimeout = 0 then c
  else emit { c with requestTimeout := true } (.timerStart .request c.config.requestTimeout)

def startResponseTimer (c : HttpConnection) : HttpConnection :=
  if c.config.responseTimeout = 0 then c
  else emit { c with responseTimeout := true } (.timerStart .response c.config.responseTimeout)

def startKeepAliveTimer (c : HttpConnection) : HttpConnection :=
  if c.config.keepAliveTimeout = 0 || !c.config.persistentConnections then c
  else emit { c with keepAliveTimeout := true } (.timerStart .keepAlive c.config.keepAliveTimeout)

def stopRequestTimer (c : HttpConnection) : HttpConnection :=
  if c.requestTimeout && !c.requestTimeoutClosing then emit c (.timerStop .request) else c

def stopResponseTimer (c : HttpConnection) : HttpConnection :=
  if c.responseTimeout && !c.responseTimeoutClosing then emit c (.timerStop .response) else c

def stopKeepAliveTimer (c : HttpConnection) : HttpConnection :=
  if c.keepAliveTimeout && !c.keepAliveTimeoutClosing then emit c (.timerStop .keepAlive) else c

def closeTimeouts (c : HttpConnection) : HttpConnection :=
  let c := if c.requestTimeout && !c.requestTimeoutClosing then
      emit { c with requestTimeoutClosing := true } (.timerClose .request) else c
  let c := if c.responseTimeout && !c.responseTimeoutClosing then
      emit { c with responseTimeoutClosing := true } (.timerClose .response) else c
  if c.keepAliveTimeout && !c.keepAliveTimeoutClosing then
    emit { c with keepAliveTimeoutClosing := true } (.timerClose .keepAlive) else c

/-- The constructor: a connection with its keep-alive timer started. -/
def new (config : HttpServerConfig) : HttpConnection :=
  startKeepAliveTimer { config := config }

def close (c : HttpConnection) : HttpConnection :=
  let c := closeTimeouts c
  if c.closing || c.shuttingDown then c
  else
    let c := { c with
      request := c.request.map Request.invalidate
      response := c.response.map Response.invalidate }
    if c.client then
      if c.active then emit { c with active := false, shuttingDown := true } .shutdown
      else emit { c with closing := true } .close
    else c

def eliminate (c : HttpConnection) : HttpConnection :=
  if !c.requestTimeout && !c.responseTimeout && !c.keepAliveTimeout && !c.client then
    { c with deleted := true }
  else c

/-- The statement `requestQueue.push(std::move(req))`. -/
def push (c : HttpConnection) (req : Request) : HttpConnection :=
  { c with requestQueue := c.requestQueue ++ [{ req with id := c.created }]
           created := c.created + 1 }

/-- The loop of `packHeaders`; `name` is the local that keeps the last header name. -/
def packHeaders : List phr_header → String → Request → Request
  | [], _, req => req
  | rawHeader :: rest, name, req =>
    match rawHeader.name, rawHeader.value with
    | some _, none => packHeaders rest name req
    | some n, some v => packHeaders rest n (req.appendHeader n v)
    | none, some v =>
      if !name.isEmpty then packHeaders rest name (req.appendHeader name v)
      else packHeaders rest name req
    | none, none => packHeaders rest name req

/-- The overload `createRequest(headers, path, method, minorVersion)`; `none` when the
constructor of `Request` throws. -/
def createRequest (headers : List phr_header) (path : String) (method : HttpMethod)
    (minorVersion : Nat) : Option Request :=
  (Request.new method path minorVersion).map (packHeaders headers "")

/-- The overload `createRequest(errorCode, minorVersion)`. -/
def createErrorRequest (errorCode : Nat) (minorVersion : Nat) : Request :=
  { Request.newError errorCode with minorVersion := minorVersion }

def createResponse (env : Env) (c : HttpConnection) (req : Request) : Response :=
  let res := Response.new env c.config req.minorVersion
  if req.requestError ≠ 0 then res.setStatus req.requestError else res

def isRequestLimitExceeded (c : HttpConnection) : Bool :=
  if c.config.persistentConnections then decide (c.config.maxRequestsPerConnection < c.requestsAccepted)
  else decide (c.requestsAccepted > 0)

/-- How `parseHeaders` leaves: normally with its output arguments, or by one of the
exceptions it throws. `minorVersion` is assigned before the method is parsed, so an unknown
method leaves it set. -/
inductive HeadersOutcome
  | parsed (headers : List phr_header) (path : String) (method : HttpMethod)
      (minorVersion : Nat) (bodyStart : Nat)
  | ParseError
  | RequestHeadersTooLargeError
  | NeedMoreDataError
  | UnknownHTTPMethodError (minorVersion : Nat)
  | HttpVersionUnsupportedError
  deriving DecidableEq, Repr

/-- The function `parseHeaders(buffer, bufferStart, bufferLength, ...)`: the parser is given
the `bufferLength` bytes from `buffer + bufferStart`. -/
def parseHeaders (env : Env) (buffer : List Char) (bufferStart bufferLength : Nat) :
    HeadersOutcome :=
  match env.phr_parse_request ((buffer.drop bufferStart).take bufferLength) with
  | .complete parseStatus httpMethod uriPath httpVersion headersRaw =>
    match parseMethod httpMethod with
    | none => .UnknownHTTPMethodError (u32 httpVersion)
    | some method =>
      if u32 httpVersion ≠ 0 ∧ u32 httpVersion ≠ 1 then .HttpVersionUnsupportedError
      else .parsed headersRaw uriPath method (u32 httpVersion) (u32 parseStatus)
  | .malformed => .ParseError
  | .incomplete =>
    if subU32 bufferLength bufferStart > 1024 * 16 then .RequestHeadersTooLargeError
    else .NeedMoreDataError

/-- The request `updateRequestBodyBuffer` and `handleDataEnd` pick: the back of the queue, or
the active request when the queue is empty. -/
def bodyTarget (c : HttpConnection) : Option Request :=
  match c.requestQueue.getLast? with
  | some req => some req
  | none => c.request

/-- Writing through the pointer `bodyTarget` picked. -/
def setBodyTarget (c : HttpConnection) (req : Request) : HttpConnection :=
  if c.requestQueue.isEmpty then { c with request := some req }
  else { c with requestQueue := c.requestQueue.dropLast ++ [req] }

/-- The function `updateRequestBodyBuffer`: the connection and `bufferPosition` after it. -/
def updateRequestBodyBuffer (c : HttpConnection) (buffer : List Char) (bufferPosition : Nat) :
    HttpConnection × Nat :=
  match bodyTarget c with
  | none =>
    let bytesReceived := min c.lastContentLeft (toU32 ((buffer.length : Int) - bufferPosition))
    ({ c with lastContentLeft := subU32 c.lastContentLeft bytesReceived },
      u32 (bufferPosition + c.lastContentLeft))
  | some req =>
    let contentLeft := subU32 req.contentLength req.bodyOctetsReceived
    let data := slice buffer bufferPosition
      (min (u32 (bufferPosition + contentLeft)) (u32 buffer.length))
    let bytesReceived := data.length
    let bufferPosition := u32 (bufferPosition + bytesReceived)
    let c := { c with lastContentLeft := subU32 contentLeft bytesReceived }
    let req := req.handleData data
    if bytesReceived = contentLeft then
      (setBodyTarget c req.handleDataEnd, bufferPosition)
    else
      (setBodyTarget { c with needMoreDataToGetBody := true } req, bufferPosition)

/-- The function `parseRequest`: the connection and `bufferPosition` after it, and whether it
is left by an exception: its own `throw std::exception()`, or the exception of the constructor
of `Request`, which `createRequest` lets through and which is thrown outside the `try` block,
so that nothing is enqueued. -/
def parseRequest (env : Env) (c : HttpConnection) (buffer : List Char) (bufferPosition : Nat) :
    HttpConnection × Nat × Bool :=
  let c := { c with requestsAccepted := u32 (c.requestsAccepted + 1) }
  match parseHeaders env buffer bufferPosition
      (toU32 ((buffer.length : Int) - bufferPosition)) with
  | .ParseError => (push c (createErrorRequest 400 1), bufferPosition, true)
  | .RequestHeadersTooLargeError => (push c (createErrorRequest 413 1), bufferPosition, true)
  | .NeedMoreDataError =>
    let c := { c with needMoreDataToParseHeaders := true }
    if bufferPosition < buffer.length then
      ({ c with headerBuffer := buffer.drop bufferPosition }, u32 buffer.length, false)
    else (c, bufferPosition, false)
  | .UnknownHTTPMethodError minorVersion =>
    (push c (createErrorRequest 405 minorVersion), bufferPosition, true)
  | .HttpVersionUnsupportedError => (push c (createErrorRequest 505 1), bufferPosition, true)
  | .parsed rawHeaders path method minorVersion bodyStart =>
    let bufferPosition := u32 (bufferPosition + bodyStart)
    match createRequest rawHeaders path method minorVersion with
    | none => (c, bufferPosition, true)
    | some req =>
      let req := if path.length > c.config.maxPathLength then { req with requestError := 414 }
                 else req
      match HeaderMapping.index req.headers "Content-Length" with
      | .str contentLengthRaw =>
        match stoll contentLengthRaw with
        | none => (push c { req with requestError := 411 }, bufferPosition, true)
        | some parsed =>
          let contentLength := toU32 parsed
          if contentLength > c.config.maxRequestBodyLength then
            (push c { req with requestError := 413 }, bufferPosition, true)
          else
            let u := updateRequestBodyBuffer (push c { req with contentLength := contentLength })
              buffer bufferPosition
            (u.1, u.2, false)
      | _ => (push c { req with isFullData := true }, bufferPosition, false)

/-- The part of `HttpConnection::end` before it closes or goes on to the next request: the
response timer is stopped, the request and the response are invalidated and the two pointers
are reset. The request is kept in `released` as `invalidate()` left it; of the response, whose
`invalidate()` only clears `isAlive`, nothing is kept. -/
def endCore (c : HttpConnection) : HttpConnection :=
  let c := stopResponseTimer c
  { c with hasActiveRequest := false, request := none, response := none
           released := c.released ++ (c.request.map Request.invalidate).toList
           completed := c.completed + 1 }

/-- The function `processNextRequest` once `hasActiveRequest` is known to be false, given the
queue. A request with an error is answered by `response->end()`, which runs
`HttpConnection::end` and with it `processNextRequest` on the rest of the queue. -/
def processQueue (env : Env) : List Request → HttpConnection → HttpConnection
  | [], c => startKeepAliveTimer c
  | request :: rest, c =>
    let response := createResponse env c request
    let c := { c with request := some request, requestQueue := rest, response := some response
                      hasActiveRequest := true, dispatched := c.dispatched ++ [request.id] }
    if request.requestError ≠ 0 then
      let e := Response.endResponse env response
      let c := { c with response := some e.1, effects := c.effects ++ e.2.1.map Effect.write }
      if e.2.2 then
        let c := endCore c
        if !c.config.persistentConnections then close c else processQueue env rest c
      else c
    else
      emit (startResponseTimer c) (.process request)

def processNextRequest (env : Env) (c : HttpConnection) : HttpConnection :=
  if c.hasActiveRequest then c else processQueue env c.requestQueue c

/-- The function `HttpConnection::end`. -/
def endConnection (env : Env) (c : HttpConnection) : HttpConnection :=
  let c := endCore c
  if !c.config.persistentConnections then close c else processNextRequest env c

/-- The call `response->end()` on the response of the connection. -/
def responseEnd (env : Env) (c : HttpConnection) : HttpConnection :=
  match c.response with
  | none => c
  | some response =>
    let e := Response.endResponse env response
    let c := { c with response := some e.1, effects := c.effects ++ e.2.1.map Effect.write }
    if e.2.2 then endConnection env c else c

/-- The `while` loop of `handleData`. Every iteration that goes on has consumed at least one
byte, so the loop runs at most `buffer.length` times; `fuel` is that bound. -/
def parseLoop (env : Env) (buffer : List Char) : Nat → HttpConnection → Nat → HttpConnection
  | 0, c, _ => c
  | fuel + 1, c, bufferPos =>
    if bufferPos < buffer.length then
      let r := parseRequest env c buffer bufferPos
      if r.2.2 then emit r.1 .stop
      else if isRequestLimitExceeded r.1 then r.1
      else parseLoop env buffer fuel r.1 r.2.1
    else c

def handleData (env : Env) (c : HttpConnection) (data : List Char) : HttpConnection :=
  let buffer := c.headerBuffer ++ data
  let c := { c with headerBuffer := [], needMoreDataToParseHeaders := false }
  let c := stopRequestTimer (stopKeepAliveTimer c)
  let u := if c.needMoreDataToGetBody then
      updateRequestBodyBuffer { c with needMoreDataToGetBody := false } buffer 0
    else (c, 0)
  let c := parseLoop env buffer buffer.length u.1 u.2
  let c := processNextRequest env c
  let c := if isRequestLimitExceeded c && !c.needMoreDataToGetBody then emit c .stop else c
  if c.needMoreDataToGetBody || c.needMoreDataToParseHeaders then startRequestTimer c else c

def handleClientError (c : HttpConnection) : HttpConnection :=
  let c := if c.hasActiveRequest then
      { c with request := c.request.map Request.handleDataEnd
               response := c.response.map Response.invalidate }
    else c
  close { c with shuttingDown := false }

def handleDataEnd (c : HttpConnection) : HttpConnection :=
  match bodyTarget c with
  | none => c
  | some req => setBodyTarget c req.handleDataEnd

def handleShutdown (c : HttpConnection) : HttpConnection :=
  close { c with shuttingDown := false }

def handleClose (c : HttpConnection) : HttpConnection :=
  eliminate { c with closing := false, client := false }

def handleRequestTimeout (env : Env) (c : HttpConnection) : HttpConnection :=
  let c := emit c .stop
  if c.needMoreDataToParseHeaders then
    processNextRequest env (push c (createErrorRequest 408 1))
  else if c.needMoreDataToGetBody then
    if !c.requestQueue.isEmpty then
      { c with requestQueue := c.requestQueue.dropLast
          ++ (c.requestQueue.getLast?.map (fun req => { req with requestError := 408 })).toList }
    else
      match c.response with
      | none => c
      | some res =>
        let c := { c with response := some (res.setStatus 408)
                          request := c.request.map Request.handleDataEnd }
        if res.isAlive then responseEnd env c else c
  else c

def handleResponseTimeout (env : Env) (c : HttpConnection) : HttpConnection :=
  match c.response with
  | none => c
  | some res => responseEnd env { c with response := some (res.setStatus 500) }

def handleKeepAliveTimeout (c : HttpConnection) : HttpConnection :=
  let c := emit c .stop
  if c.hasActiveRequest || !c.requestQueue.isEmpty then c else close c

def handleRequestTimeoutClose (c : HttpConnection) : HttpConnection :=
  eliminate { c with requestTimeoutClosing := false, requestTimeout := false }

def handleResponseTimeoutClose (c : HttpConnection) : HttpConnection :=
  eliminate { c with responseTimeoutClosing := false, responseTimeout := false }

def handleKeepAliveTimeoutClose (c : HttpConnection) : HttpConnection :=
  eliminate { c with keepAliveTimeoutClosing := false, keepAliveTimeout := false }

end HttpConnection

/-! ## The connection as a transition system -/

/-- What can happen to a connection: the events of the socket and of the three timers, and the
calls a middleware makes on the request and the response it was handed. -/
inductive Event
  | data (bytes : List Char)
  | dataEnd
  | clientError
  | shutdown
  | close
  | requestTimeout
  | responseTimeout
  | keepAliveTimeout
  | requestTimeoutClose
  | responseTimeoutClose
  | keepAliveTimeoutClose
  | resEnd
  | resSend (data : String)
  | resWrite (data : String)
  | resSendStatus (code : Nat)
  | resSetStatus (code : Nat)
  | resSetHeader (name : String) (value : HeaderValue)
  | reqOnData
  | reqOnDataEnd
  deriving DecidableEq, Repr

namespace HttpConnection

/-- The call `response->send(data)` on the response of the connection. -/
def responseSend (env : Env) (c : HttpConnection) (data : String) : HttpConnection :=
  match c.response with
  | none => c
  | some response =>
    let e := Response.send env response data
    let c := { c with response := some e.1, effects := c.effects ++ e.2.1.map Effect.write }
    if e.2.2 then endConnection env c else c

/-- A call on the response that writes to the socket and does not end the response. -/
def responseDo (c : HttpConnection) (f : Response → Response × List String) : HttpConnection :=
  match c.response with
  | none => c
  | some response =>
    { c with response := some (f response).1
             effects := c.effects ++ (f response).2.map Effect.write }

/-- The connection after one event. -/
def step (env : Env) (c : HttpConnection) : Event → HttpConnection
  | .data bytes => handleData env c bytes
  | .dataEnd => handleDataEnd c
  | .clientError => handleClientError c
  | .shutdown => handleShutdown c
  | .close => handleClose c
  | .requestTimeout => handleRequestTimeout env c
  | .responseTimeout => handleResponseTimeout env c
  | .keepAliveTimeout => handleKeepAliveTimeout c
  | .requestTimeoutClose => handleRequestTimeoutClose c
  | .responseTimeoutClose => handleResponseTimeoutClose c
  | .keepAliveTimeoutClose => handleKeepAliveTimeoutClose c
  | .resEnd => responseEnd env c
  | .resSend data => responseSend env c data
  | .resWrite data => responseDo c (fun r => Response.write env c.config r data)
  | .resSendStatus code => responseDo c (fun r => Response.sendStatus env r code)
  | .resSetStatus code => responseDo c (fun r => (r.setStatus code, []))
  | .resSetHeader name value => responseDo c (fun r => (r.setHeader name value, []))
  | .reqOnData => { c with request := c.request.map Request.onData }
  | .reqOnDataEnd => { c with request := c.request.map Request.onDataEnd }

/-- The connection after a sequence of events. -/
def run (env : Env) (c : HttpConnection) (events : List Event) : HttpConnection :=
  events.foldl (step env) c

end HttpConnection

/-- The states a connection with configuration `config` can be in. -/
def Reachable (env : Env) (config : HttpServerConfig) (c : HttpConnection) : Prop :=
  ∃ events : List Event, c = HttpConnection.run env (HttpConnection.new config) events

/-- The bookkeeping of dispatch: the ids dispatched followed by the ids still queued are the
ids in the order of their enqueueing; the requests dispatched are the requests completed, plus
the active one; the active request and its response exist exactly while
`hasActiveRequest` is set. -/
structure DispatchInv (c : HttpConnection) : Prop where
  order : c.dispatched ++ c.requestQueue.map (fun r => r.id) = List.range c.created
  count : c.dispatched.length = c.completed + (if c.hasActiveRequest then 1 else 0)
  req : c.request.isSome = c.hasActiveRequest
  res : c.response.isSome = c.hasActiveRequest

/-- The connection `c'` has the bookkeeping of `c`: the same dispatched ids, completions and
active exchange, and a queue that still continues the enqueueing order. -/
def Keeps (c c' : HttpConnection) : Prop :=
  c'.dispatched = c.dispatched ∧ c'.completed = c.completed
    ∧ c'.hasActiveRequest = c.hasActiveRequest
    ∧ c'.request.isSome = c.request.isSome ∧ c'.response.isSome = c.response.isSome
    ∧ (c.dispatched ++ c.requestQueue.map (fun r => r.id) = List.range c.created →
        c'.dispatched ++ c'.requestQueue.map (fun r => r.id) = List.range c'.created)

/-- Going from `c` to `c'` keeps the bookkeeping of dispatch sound and only appends to the
ids dispatched. -/
def Moves (c c' : HttpConnection) : Prop :=
  DispatchInv c → DispatchInv c' ∧ c.dispatched <+: c'.dispatched

/-- The bytes the data callback was given before the data-end callback was first invoked. -/
def deliveredBeforeEnd : List BodyEvent → List Char
  | [] => []
  | .data chunk :: rest => chunk ++ deliveredBeforeEnd rest
  | .dataEnd :: _ => []

/-- The state of a request that declared `L` body bytes and has received `body` so far: before
its callbacks are registered the bytes are buffered; once they are registered the bytes were
handed to the data callback, and the data-end callback was invoked exactly if all `L` bytes
have arrived. -/
def BodyPhase (L : Nat) (body : List Char) (registered : Bool) (r : Request) : Prop :=
  r.isAlive = true ∧ r.contentLength = L ∧ L < 4294967296 ∧ body.length ≤ L
    ∧ r.bodyOctetsReceived = body.length
    ∧ (if registered then
        deliveredBeforeEnd r.callbackLog = body
          ∧ (BodyEvent.dataEnd ∈ r.callbackLog ↔ L ≤ body.length)
          ∧ (body.length < L →
              r.onDataCallback = true ∧ r.onDataEndCallback = true ∧ r.isFullData = false)
      else
        r.onDataCallback = false ∧ r.onDataEndCallback = false ∧ r.callbackLog = []
          ∧ r.bodyBuffer = body ∧ r.isFullData = decide (L ≤ body.length))

/-- The connection `d` has the exchange, the queue and the parse flags of `c`. -/
def Agree (c d : HttpConnection) : Prop :=
  d.request = c.request ∧ d.requestQueue = c.requestQueue
    ∧ d.hasActiveRequest = c.hasActiveRequest
    ∧ d.needMoreDataToGetBody = c.needMoreDataToGetBody ∧ d.headerBuffer = c.headerBuffer
    ∧ d.config = c.config

/-- A connection whose active request declared `L` body bytes and has received `body`; while
bytes are missing the connection waits for them with an empty queue. -/
def BodyState (c : HttpConnection) (L : Nat) (body : List Char) (registered : Bool) : Prop :=
  ∃ r, c.request = some r ∧ BodyPhase L body registered r ∧ c.hasActiveRequest = true
    ∧ (body.length < L →
        c.requestQueue = [] ∧ c.headerBuffer = [] ∧ c.needMoreDataToGetBody = true)

/-- A request as `createRequest` makes it, before a body length is set on it. -/
def Plain (r : Request) : Prop :=
  r.isAlive = true ∧ r.onDataCallback = false ∧ r.onDataEndCallback = false
    ∧ r.callbackLog = [] ∧ r.bodyBuffer = [] ∧ r.isFullData = false
    ∧ r.bodyOctetsReceived = 0 ∧ r.requestError = 0

/-- A connection with no exchange in progress and nothing buffered. -/
def Idle (c : HttpConnection) : Prop :=
  c.request = none ∧ c.requestQueue = [] ∧ c.hasActiveRequest = false
    ∧ c.headerBuffer = [] ∧ c.needMoreDataToGetBody = false

/-- The middleware registers its data and data-end callbacks, in either order. -/
def registerCallbacks (dataFirst : Bool) : List Event :=
  if dataFirst then [.reqOnData, .reqOnDataEnd] else [.reqOnDataEnd, .reqOnData]

/-- The bytes `parseRequest` hands to the header parser at `bufferPosition`. -/
def parserInput (buffer : List Char) (bufferPosition : Nat) : List Char :=
  (buffer.drop bufferPosition).take (toU32 ((buffer.length : Int) - bufferPosition))

/-- The connection with the request counted by `++requestsAccepted`. -/
def counted (c : HttpConnection) : HttpConnection :=
  { c with requestsAccepted := u32 (c.requestsAccepted + 1) }

/-- The connection after `processNextRequest` has taken `r` from the queue, written `out` for
its response `res` and run `HttpConnection::end` up to the point where it closes or goes on. -/
def answered (c : HttpConnection) (r : Request) (rest : List Request) (res : Response)
    (out : List String) : HttpConnection :=
  HttpConnection.endCore
    { c with request := some r, requestQueue := rest, response := some res
             hasActiveRequest := true, dispatched := c.dispatched ++ [r.id]
             effects := c.effects ++ out.map Effect.write }

/-- Going from `c` to `c'` hands no request to the request processor. -/
def NoProcess (c c' : HttpConnection) : Prop :=
  ∀ x, Effect.process x ∈ c'.effects → Effect.process x ∈ c.effects

/-- The data the connection wrote to the socket, in order. -/
def HttpConnection.written (c : HttpConnection) : List String :=
  c.effects.filterMap (fun e => match e with
    | .write data => some data
    | _ => none)

/-- The requests the connection handed to the request processor, in order. -/
def HttpConnection.processed (c : HttpConnection) : List Request :=
  c.effects.filterMap (fun e => match e with
    | .process request => some request
    | _ => none)

/-! ## router.cc: the continuations nextRoute and error -/

/-- The lambda `nextRoute` of `Pipeline::setNextObject`, the body of `nextRoute()`. -/
def Pipeline.nextRoute {μ : Type} (env : Env) (engine : RegexEngine) (s : PipelineState μ) :
    PipelineState μ × Transfer μ :=
  if !Pipeline.isValid s then (PipelineState.resEnd env s, .done)
  else
    let g := Pipeline.getNext engine s.pipeline s.req true
    let s := { s with pipeline := g.2.1, req := g.2.2 }
    match g.1 with
    | none =>
      if !s.pipeline.isBase then (s, .baseNextRoute)
      else if s.res.areHeadersSent then (PipelineState.resEnd env s, .done)
      else (PipelineState.resEnd env { s with res := s.res.setStatus 404 }, .done)
    | some nextMiddleware => ({ s with req := { s.req with error := "" } }, .emit nextMiddleware)

/-- The `while` loop of `Pipeline::getNextErrorHandling`; `isErrorHandling` is the virtual
function of the middleware. `fuel` bounds the number of calls of `getNext`. -/
def Pipeline.getNextErrorHandlingLoop {μ : Type} (engine : RegexEngine)
    (isErrorHandling : μ → Bool) : Nat → Pipeline μ → Request → Option μ × Pipeline μ × Request
  | 0, p, req => (none, p, req)
  | fuel + 1, p, req =>
    let g := Pipeline.getNext engine p req false
    match g.1 with
    | none => (none, g.2.1, g.2.2)
    | some nextMiddleware =>
      if isErrorHandling nextMiddleware then (some nextMiddleware, g.2.1, g.2.2)
      else Pipeline.getNextErrorHandlingLoop engine isErrorHandling fuel g.2.1 g.2.2

/-- The function `Pipeline::getNextErrorHandling`. Every call of `getNext` that returns a
middleware moves the cursor on, so one call more than there are entries left is enough. -/
def Pipeline.getNextErrorHandling {μ : Type} (engine : RegexEngine) (isErrorHandling : μ → Bool)
    (p : Pipeline μ) (req : Request) : Option μ × Pipeline μ × Request :=
  Pipeline.getNextErrorHandlingLoop engine isErrorHandling
    (p.middlewareList.length - p.current + 1) p req

/-- The lambda `error` of `Pipeline::setNextObject`, the body of `error(err)`. -/
def Pipeline.error {μ : Type} (env : Env) (engine : RegexEngine) (isErrorHandling : μ → Bool)
    (err : String) (s : PipelineState μ) : PipelineState μ × Transfer μ :=
  if !Pipeline.isValid s then (PipelineState.resEnd env s, .done)
  else
    let req := { s.req with onDataCallback := false, onDataEndCallback := false, error := err }
    let g := Pipeline.getNextErrorHandling engine isErrorHandling s.pipeline req
    let s := { s with pipeline := g.2.1, req := g.2.2 }
    match g.1 with
    | none =>
      if !s.pipeline.isBase then (s, .baseNext)
      else if s.res.areHeadersSent then (PipelineState.resEnd env s, .done)
      else (PipelineState.resEnd env { s with res := s.res.setStatus 500 }, .done)
    | some nextMiddleware => (s, .emit nextMiddleware)

/-! ## router.cc: Router -/

/-- A `std::map` with integer keys as its entries in key order. -/
def NatMap.set {α : Type} : List (Nat × α) → Nat → α → List (Nat × α)
  | [], key, v => [(key, v)]
  | (k, w) :: rest, key, v =>
    if key < k then (key, v) :: (k, w) :: rest
    else if k < key then (k, w) :: NatMap.set rest key v
    else (k, v) :: rest

def NatMap.get? {α : Type} : List (Nat × α) → Nat → Option α
  | [], _ => none
  | (k, w) :: rest, key => if key = k then some w else NatMap.get? rest key

/-- The class `Router`. The map `methodToConfigs` is keyed by the numeric value of the method;
a key that is absent stands for a null list pointer as well. The flag `errorHandling` is the
one `isErrorHandling()` of `ApplicationMiddleware` returns. -/
structure Router (μ : Type) where
  methodToConfigs : List (Nat × List (PathRegExp × μ)) := []
  errorHandling : Bool := false

/-- The list `methodToConfigs[method]`, `none` for the null pointer. -/
def Router.configs {μ : Type} (r : Router μ) (method : HttpMethod) :
    Option (List (MiddlewareConfig μ)) :=
  NatMap.get? r.methodToConfigs method.value

def Router.fillConfig {μ : Type} (r : Router μ) (method : HttpMethod) (re : PathRegExp)
    (middleware : μ) : Router μ :=
  let list := (r.configs method).getD []
  { r with
    methodToConfigs := NatMap.set r.methodToConfigs method.value (list ++ [(re, middleware)]) }

/-- The function `Router::use` from the statement after the construction of `re` on;
`isErrorHandling` is the virtual function of the middleware. -/
def Router.useWith {μ : Type} (isErrorHandling : μ → Bool) (r : Router μ) (method : HttpMethod)
    (re : PathRegExp) (middleware : μ) : Router μ :=
  let r :=
    if method.value = HttpMethod.ALL.value then
      ALL_HTTP_METHODS.foldl (fun r m => Router.fillConfig r m re middleware) r
    else Router.fillConfig r method re middleware
  if isErrorHandling middleware then { r with errorHandling := true } else r

/-- The function `Router::use`. Its first statement constructs the `PathRegExp`; when that
constructor does not return, nothing is registered and the result is `none`. -/
def Router.use {μ : Type} (compiles : RegexCompiler) (isErrorHandling : μ → Bool) (r : Router μ)
    (method : HttpMethod) (canHandlePartial : Bool) (paramKeys : List String) (path : String)
    (middleware : μ) : Option (Router μ) :=
  (PathRegExp.new compiles path paramKeys canHandlePartial).map
    (fun re => Router.useWith isErrorHandling r method re middleware)

/-- The classes derived from `AbstractMiddleware`: a `PlainMiddleware` or
`NativeLoadedMiddleware`, whose callback is outside the embedding and is named by a number, and
a `Router` used as a middleware. A router is held by value: the entries it has when it is
registered. -/
inductive Middleware where
  | callback (name : Nat) (errorHandling : Bool)
  | router (r : Router Middleware)

def Middleware.isErrorHandling : Middleware → Bool
  | .callback _ errorHandling => errorHandling
  | .router r => r.errorHandling

/-- The Pipeline objects alive for one request: the innermost one with the request and the
response they share, and the pipelines enclosing it, innermost first. -/
structure Dispatch (μ : Type) where
  state : PipelineState μ
  enclosing : List (Pipeline μ) := []

/-- The call `baseNext->next()` (`route = false`) or `baseNext->nextRoute()` of a nested
pipeline that found no entry, followed by its `eliminate()`: the continuation of the enclosing
pipeline runs, and so on outwards. The result is the middleware entered, if any. -/
def Pipeline.outward {μ : Type} (env : Env) (engine : RegexEngine) :
    Bool → List (Pipeline μ) → PipelineState μ → Dispatch μ × Option μ
  | _, [], s => ({ state := s }, none)
  | route, outer :: rest, s =>
    let r := if route then Pipeline.nextRoute env engine { s with pipeline := outer }
             else Pipeline.nextFunc env engine { s with pipeline := outer }
    match r.2 with
    | .done => ({ state := r.1, enclosing := rest }, none)
    | .emit middleware => ({ state := r.1, enclosing := rest }, some middleware)
    | .baseNext => Pipeline.outward env engine false rest r.1
    | .baseNextRoute => Pipeline.outward env engine true rest r.1

/-- A continuation result followed into the enclosing pipelines. -/
def Dispatch.follow {μ : Type} (env : Env) (engine : RegexEngine) (d : Dispatch μ)
    (r : PipelineState μ × Transfer μ) : Dispatch μ × Option μ :=
  match r.2 with
  | .done => ({ d with state := r.1 }, none)
  | .emit middleware => ({ d with state := r.1 }, some middleware)
  | .baseNext => Pipeline.outward env engine false d.enclosing r.1
  | .baseNextRoute => Pipeline.outward env engine true d.enclosing r.1

/-- The call `next()` a middleware makes on the `NextObject` it was given. -/
def Dispatch.next {μ : Type} (env : Env) (engine : RegexEngine) (d : Dispatch μ) :
    Dispatch μ × Option μ :=
  Dispatch.follow env engine d (Pipeline.nextFunc env engine d.state)

/-- The call `nextRoute()` a middleware makes on the `NextObject` it was given. -/
def Dispatch.nextRoute {μ : Type} (env : Env) (engine : RegexEngine) (d : Dispatch μ) :
    Dispatch μ × Option μ :=
  Dispatch.follow env engine d (Pipeline.nextRoute env engine d.state)

/-- The call `error(err)` a middleware makes on the `NextObject` it was given. -/
def Dispatch.error {μ : Type} (env : Env) (engine : RegexEngine) (isErrorHandling : μ → Bool)
    (err : String) (d : Dispatch μ) : Dispatch μ × Option μ :=
  Dispatch.follow env engine d (Pipeline.error env engine isErrorHandling err d.state)

/-- The function `Router::emit`: a nested Pipeline over the list of the request's method is
made and executed. `none` when the router has no list for the method and the request and the
response are alive: the Pipeline then holds a null `middlewareList`, which `getNext`
dereferences. When one of them is no longer alive, the continuation ends the response before it
reads the list; the embedding carries an empty list for the null pointer there. -/
def Router.emit {μ : Type} (env : Env) (engine : RegexEngine) (r : Router μ) (d : Dispatch μ) :
    Option (Dispatch μ × Option μ) :=
  match r.configs d.state.req.method with
  | none =>
    if !Pipeline.isValid d.state then
      some (Dispatch.next env engine
        { state := { d.state with pipeline := { middlewareList := [], isBase := false } }
          enclosing := d.state.pipeline :: d.enclosing })
    else none
  | some middlewareList =>
    some (Dispatch.next env engine
      { state := { d.state with pipeline := { middlewareList := middlewareList, isBase := false } }
        enclosing := d.state.pipeline :: d.enclosing })

/-- The function `Router::process`: the top-level Pipeline for a request is made and
executed. -/
def Router.process {μ : Type} (env : Env) (engine : RegexEngine) (r : Router μ) (req : Request)
    (res : Response) : Dispatch μ × Option μ :=
  Dispatch.next env engine
    { state := { pipeline := { middlewareList := (r.configs req.method).getD []
                               isBase := true }
                 req := req, res := res } }

/-- Whether the regular expression an entry was compiled to accepts a subject. -/
def PathRegExp.accepts (engine : RegexEngine) (re : PathRegExp) (path : String) : Bool :=
  if re.canHandlePartial then (engine re.partialCheckRegex path).isSome
  else (engine re.wholeCheckRegex path).isSome

/-! ## Sequences of operations on a response -/

/-- An operation a middleware or the connection performs on a `Response`. -/
inductive ResponseOp
  | setStatus (code : Nat)
  | setHeader (name : String) (value : HeaderValue)
  | write (data : String)
  | send (data : String)
  | sendStatus (code : Nat)
  | endResponse
  deriving DecidableEq, Repr

/-- One operation on a response: the response after it and the data written to the socket. -/
def Response.perform (env : Env) (cfg : HttpServerConfig) (r : Response) :
    ResponseOp → Response × List String
  | .setStatus code => (r.setStatus code, [])
  | .setHeader name value => (r.setHeader name value, [])
  | .write data => Response.write env cfg r data
  | .send data => ((Response.send env r data).1, (Response.send env r data).2.1)
  | .sendStatus code => Response.sendStatus env r code
  | .endResponse => ((Response.endResponse env r).1, (Response.endResponse env r).2.1)

/-- A sequence of operations on a response: the response after them and all data written. -/
def Response.performAll (env : Env) (cfg : HttpServerConfig) :
    Response → List ResponseOp → Response × List String
  | r, [] => (r, [])
  | r, op :: ops =>
    ((Response.performAll env cfg (Response.perform env cfg r op).1 ops).1,
      (Response.perform env cfg r op).2
        ++ (Response.performAll env cfg (Response.perform env cfg r op).1 ops).2)

/-- Whether an operation sends the headers of a live response that has not sent them. -/
def ResponseOp.sendsHeaders : ResponseOp → Bool
  | .setStatus _ => false
  | .setHeader _ _ => false
  | _ => true

/-- The strings the operations hand to `writeInternal`, in order, up to the operation that ends
the response: the data of `write` and `send`, and the empty string of the last chunk when the
transfer is chunked. -/
def bodyData (chunked : Bool) : List ResponseOp → List String
  | [] => []
  | .write data :: ops => data :: bodyData chunked ops
  | .send data :: _ => data :: (if chunked then [""] else [])
  | .endResponse :: _ => if chunked then [""] else []
  | _ :: ops => bodyData chunked ops

/-! ## The queue between enqueueing and dispatch -/

/-- A regular expression engine that decides exact patterns over a literal: the pattern
`setWholeCheckRegex` builds from the text of the subject matches it, with the subject as first
group. -/
def literalEngine : RegexEngine := fun pattern subject =>
  if pattern = "^(" ++ subject ++ ")(?:\\/?)$" then some [subject, subject] else none

/-- The line up to the first CRLF and the bytes after that CRLF, when there is one. -/
def splitLine : List Char → Option (List Char × List Char)
  | [] => none
  | '\r' :: '\n' :: rest => some ([], rest)
  | c :: rest => (splitLine rest).map (fun r => (c :: r.1, r.2))

/-- The header of one header line `Name: value`, when the line has a colon. -/
def headerOfLine (line : List Char) : Option phr_header :=
  if line.contains ':' then
    some { name := some (String.mk (line.takeWhile (fun c => c != ':')))
           value := some (String.mk (((line.dropWhile (fun c => c != ':')).drop 1).dropWhile
             (fun c => c == ' '))) }
  else none

/-- The header lines up to the blank line: the headers and the bytes after the blank line,
`malformed` for a line without a colon, `incomplete` when the blank line is not there. -/
def headerLinesOf : Nat → List Char → List phr_header → PhrResult ⊕ (List phr_header × List Char)
  | 0, _, _ => .inl .incomplete
  | fuel + 1, bytes, acc =>
    match splitLine bytes with
    | none => .inl .incomplete
    | some ([], rest) => .inr (acc, rest)
    | some (line, rest) =>
      match headerOfLine line with
      | none => .inl .malformed
      | some h => headerLinesOf fuel rest (acc ++ [h])

/-- A header parser for worked examples. It reads requests written as
`METHOD SP path SP HTTP/1.<digit> CRLF (Name: value CRLF)* CRLF` and reports them the way
`PhrResult` describes: `incomplete` while the request line or the blank line is missing,
`malformed` when a complete line has another form. -/
def demoParser (bytes : List Char) : PhrResult :=
  match splitLine bytes with
  | none => .incomplete
  | some (requestLine, rest) =>
    match requestLine.splitOn ' ' with
    | [method, path, 'H' :: 'T' :: 'T' :: 'P' :: '/' :: '1' :: '.' :: [digit]] =>
      if digit.isDigit ∧ method ≠ [] ∧ path ≠ [] then
        match headerLinesOf (rest.length + 1) rest [] with
        | .inl r => r
        | .inr (headers, after) =>
          .complete (bytes.length - after.length) (String.mk method) (String.mk path)
            (digit.toNat - 48) headers
      else .malformed
    | _ => .malformed

/-- The primitives used in worked examples. -/
def demoEnv : Env where
  phr_parse_request := demoParser
  getStatusTextByCode := fun _ => "-"
  getStandardizedTime := "Thu, 01 Jan 1970 00:00:00 GMT"
  formatTime := fun _ => "Thu, 01 Jan 1970 00:00:00 GMT"

/-- What is compared of a request: error status, method and path. -/
def Request.summary (r : Request) : Nat × HttpMethod × String :=
  (r.requestError, r.method, r.path)

/-- The requests a connection holds, the active one first. -/
def HttpConnection.held (c : HttpConnection) : List Request :=
  c.request.toList ++ c.requestQueue

/-- A top-level pipeline with one entry, for the path `/a`, at its start, with a request for
`/none` and a fresh response. -/
def demoPipelineState : PipelineState Nat :=
  { pipeline := { middlewareList := [(⟨"/a", [], false⟩, 10)], isBase := true }
    req := { pathWithoutQueryString := "/none" }
    res := Response.new demoEnv {} 1 }

/-- A connection with one synthesized request with error status 413 in its queue. -/
def demoErrorConnection : HttpConnection :=
  HttpConnection.push (HttpConnection.new {}) (HttpConnection.createErrorRequest 413 1)

/-- The middleware a continuation enters, if it enters one. -/
def Transfer.middleware? {μ : Type} : Transfer μ → Option μ
  | .emit middleware => some middleware
  | _ => none

/-- Whether a continuation hands over to the enclosing pipeline: `some false` for
`baseNext->next()`, `some true` for `baseNext->nextRoute()`. -/
def Transfer.outward? {μ : Type} : Transfer μ → Option Bool
  | .baseNext => some false
  | .baseNextRoute => some true
  | _ => none

/-- The number that names a callback middleware. -/
def Middleware.name? : Middleware → Option Nat
  | .callback name _ => some name
  | .router _ => none

/-- The router a middleware is, if it is one. -/
def Middleware.router? : Middleware → Option (Router Middleware)
  | .callback _ _ => none
  | .router r => some r

/-- A regular expression engine given by a table: for a pattern text and a subject, the
sub-matches `std::regex_match` reports; a pair that is not listed does not match. -/
def tableEngine (table : List ((String × String) × List String)) : RegexEngine :=
  fun pattern subject => (table.find? (fun row => row.1 = (pattern, subject))).map (fun row => row.2)

/-- A request is handed to `app` by `Router::process`; the first middleware entered is a
router, and the callback which that router enters calls `error(message)`. The result is where
that call leaves the request; `none` when the request does not get that far. -/
def errorInMountedRouter (env : Env) (engine : RegexEngine) (app : Router Middleware)
    (req : Request) (res : Response) (message : String) :
    Option (Dispatch Middleware × Option Middleware) :=
  match Router.process env engine app req res with
  | (d, some (.router r)) =>
    match Router.emit env engine r d with
    | some (d', some (.callback _ _)) =>
      some (Dispatch.error env engine Middleware.isErrorHandling message d')
    | _ => none
  | _ => none

/-- What `std::regex_match` reports for the patterns and paths of the examples with a router
mounted at `/users`. -/
def demoUsersEngine : RegexEngine :=
  tableEngine
    [(("^(/users)(\\/[^/\\?#]*)*$", "/users/42"), ["/users/42", "/users", "/42"]),
     (("^(/42)(?:\\/?)$", "/42"), ["/42", "/42"]),
     (("^(/users/42)(?:\\/?)$", "/users/42"), ["/users/42", "/users/42"]),
     (("^(\\/([^\\/]+?))(?:\\/?)$", "/42"), ["/42", "/42", "42"]),
     (("^(/users)(\\/[^/\\?#]*)*$", "/users/42/posts"), ["/users/42/posts", "/users", "/posts"])]

/-- The pattern texts of the examples; `std::regex` compiles each of them. -/
def demoPatterns : List String :=
  ["^(/42)(?:\\/?)$", "^(/users)(\\/[^/\\?#]*)*$", "^(/users/42)(?:\\/?)$",
   "^(\\/([^\\/]+?))(?:\\/?)$", "^(/zzz)(?:\\/?)$", "^(/a)(\\/[^/\\?#]*)*$",
   "^(/b)(\\/[^/\\?#]*)*$", "^(/b)(?:\\/?)$"]

/-- A regex compiler for worked examples: it accepts the pattern texts of the examples. -/
def demoCompiles : RegexCompiler := fun pattern => decide (pattern ∈ demoPatterns)

/-- The call `router.use(...)` of the examples: a call that throws leaves the router as it
was. -/
def demoUse (r : Router Middleware) (method : HttpMethod) (canHandlePartial : Bool)
    (paramKeys : List String) (path : String) (middleware : Middleware) : Router Middleware :=
  (Router.use demoCompiles Middleware.isErrorHandling r method canHandlePartial paramKeys path
    middleware).getD r

/-- A router with one callback, for `GET /42`. -/
def demoUsersRouter : Router Middleware :=
  demoUse {} .GET false [] "/42" (.callback 1 false)

/-- An application with `demoUsersRouter` mounted at `/users`. -/
def demoApp : Router Middleware :=
  demoUse {} .ALL true [] "/users" (.router demoUsersRouter)

/-- The application `demoApp` with an error-handling callback for `/users/42` after the
mount. -/
def demoAppWithHandler : Router Middleware :=
  demoUse demoApp .ALL false [] "/users/42" (.callback 9 true)

/-- A router with one callback, for `GET` and the compiled form of `/:id`. -/
def demoIdRouter : Router Middleware :=
  demoUse {} .GET false ["id"] "\\/([^\\/]+?)" (.callback 1 false)

/-- An application with `demoIdRouter` mounted at `/users`. -/
def demoIdApp : Router Middleware :=
  demoUse {} .ALL true [] "/users" (.router demoIdRouter)

/-- A request is handed to `app` by `Router::process` and the first middleware entered is a
router, whose `emit` runs. The outer `none` says the request does not get that far, the inner
one is the result of `Router::emit`. -/
def enterMountedRouter (env : Env) (engine : RegexEngine) (app : Router Middleware)
    (req : Request) (res : Response) :
    Option (Option (Dispatch Middleware × Option Middleware)) :=
  match Router.process env engine app req res with
  | (d, some (.router r)) => some (Router.emit env engine r d)
  | _ => none

/-- A request is handed to `app` by `Router::process`; the first middleware entered is a
callback, which calls `res.setStatus(code)` and then `next()`; that enters a router, whose
`emit` runs. The result is where `emit` leaves the request; `none` when the request does not
get that far. -/
def statusAcrossMount (env : Env) (engine : RegexEngine) (app : Router Middleware)
    (req : Request) (res : Response) (code : Nat) :
    Option (Dispatch Middleware × Option Middleware) :=
  match Router.process env engine app req res with
  | (d, some (.callback _ _)) =>
    match Dispatch.next env engine
        { d with state := { d.state with res := d.state.res.setStatus code } } with
    | (d', some (.router r)) => Router.emit env engine r d'
    | _ => none
  | _ => none

/-- A request is handed to `app` by `Router::process`, the first middleware entered is a
router, and the first middleware that router enters is a router again, whose `emit` runs. The
result is the request as the first router was given it, the request as the second router was
given it, and where the `emit` of the second router leaves the request; `none` when the
request does not get that far. -/
def throughTwoMounts (env : Env) (engine : RegexEngine) (app : Router Middleware)
    (req : Request) (res : Response) :
    Option (Request × Request × Dispatch Middleware × Option Middleware) :=
  match Router.process env engine app req res with
  | (d, some (.router a)) =>
    match Router.emit env engine a d with
    | some (d', some (.router b)) =>
      (Router.emit env engine b d').map (fun x => (d.state.req, d'.state.req, x.1, x.2))
    | _ => none
  | _ => none

/-- An application with a callback for the prefix `/users` in front of `demoUsersRouter`
mounted at `/users`. -/
def demoStatusApp : Router Middleware :=
  demoUse (demoUse {} .ALL true [] "/users" (.callback 7 false))
    .ALL true [] "/users" (.router demoUsersRouter)

/-- What `std::regex_match` reports for the patterns and paths of the examples with a router
mounted at `/b` inside a router mounted at `/a`: the group `(\/[^/\?#]*)*` takes `/b` of
`/a/b` and nothing of `/b`. -/
def demoNestedEngine : RegexEngine :=
  tableEngine
    [(("^(/a)(\\/[^/\\?#]*)*$", "/a/b"), ["/a/b", "/a", "/b"]),
     (("^(/b)(\\/[^/\\?#]*)*$", "/b"), ["/b", "/b", ""]),
     (("^(/b)(?:\\/?)$", "/b"), ["/b", "/b"])]

/-- A router with one callback, for `GET /zzz`. -/
def demoInnerRouter : Router Middleware :=
  demoUse {} .GET false [] "/zzz" (.callback 3 false)

/-- A router with `demoInnerRouter` mounted at `/b`, followed by a callback for `GET /b`. -/
def demoMiddleRouter : Router Middleware :=
  demoUse (demoUse {} .ALL true [] "/b" (.router demoInnerRouter))
    .GET false [] "/b" (.callback 2 false)

/-- An application with `demoMiddleRouter` mounted at `/a`. -/
def demoNestedApp : Router Middleware :=
  demoUse {} .ALL true [] "/a" (.router demoMiddleRouter)

/-- An application with `demoInnerRouter` mounted at `/b`, followed by a callback for
`GET /b`: the entries of `demoMiddleRouter` at the top level. -/
def demoFlatApp : Router Middleware := demoMiddleRouter

/-- A router with three entries for `GET`: a callback for `/b`, a callback for the prefix `/b`
and an error-handling callback for `/b`. -/
def demoErrorRouter : Router Middleware :=
  demoUse (demoUse (demoUse {} .GET false [] "/b" (.callback 1 false))
    .GET true [] "/b" (.callback 2 false))
    .GET false [] "/b" (.callback 9 true)

/-- An application with `demoErrorRouter` mounted at `/a`. -/
def demoErrorApp : Router Middleware :=
  demoUse {} .ALL true [] "/a" (.router demoErrorRouter)

/-- The router `demoErrorRouter` without its prefix entry. -/
def demoErrorRouterExact : Router Middleware :=
  demoUse (demoUse {} .GET false [] "/b" (.callback 1 false))
    .GET false [] "/b" (.callback 9 true)

/-- An application with `demoErrorRouterExact` mounted at `/a`. -/
def demoErrorAppExact : Router Middleware :=
  demoUse {} .ALL true [] "/a" (.router demoErrorRouterExact)

/-! # Properties -/

/-! ## Pipeline::getNext -/

theorem getNextLoop_found {μ : Type} (engine : RegexEngine) (l : List (MiddlewareConfig μ))
    (isBase : Bool) (req req' : Request) (i : Nat) (entry : MiddlewareConfig μ)
    (hi : l[i]? = some entry)
    (hm : PathRegExp.matchPath engine entry.1 (Pipeline.matchSubject isBase req) req = some req') :
    ∀ (fuel current : Nat) (changed : Bool), current ≤ i → i < current + fuel →
      (∀ j e, current ≤ j → j < i → l[j]? = some e →
        PathRegExp.matchPath engine e.1 (Pipeline.matchSubject isBase req) req = none) →
      Pipeline.getNextLoop engine l isBase false fuel current changed req = (i, req') := by
  intro fuel
  induction fuel with
  | zero => intro current changed h1 h2; omega
  | succ n ih =>
    intro current changed h1 h2 hnone
    rcases Nat.eq_or_lt_of_le h1 with heq | hlt
    · subst heq
      simp [Pipeline.getNextLoop, hi, hm]
    · have hlen : i < l.length := by
        rcases Nat.lt_or_ge i l.length with h | h
        · exact h
        · rw [List.getElem?_eq_none h] at hi; cases hi
      have hcur : current < l.length := by omega
      have hsome : l[current]? = some l[current] := List.getElem?_eq_getElem hcur
      have hno := hnone current l[current] (Nat.le_refl _) hlt hsome
      simp only [Pipeline.getNextLoop, hsome, Bool.and_false, Bool.false_and, hno]
      simp
      exact ih (current + 1) true (by omega) (by omega)
        (fun j e hj1 hj2 he => hnone j e (by omega) hj2 he)

theorem getNextLoop_none {μ : Type} (engine : RegexEngine) (l : List (MiddlewareConfig μ))
    (isBase : Bool) (req : Request) :
    ∀ (fuel current : Nat) (changed : Bool), current ≤ l.length → l.length ≤ current + fuel →
      (∀ j e, current ≤ j → l[j]? = some e →
        PathRegExp.matchPath engine e.1 (Pipeline.matchSubject isBase req) req = none) →
      Pipeline.getNextLoop engine l isBase false fuel current changed req = (l.length, req) := by
  intro fuel
  induction fuel with
  | zero =>
    intro current changed h1 h2 _
    have : current = l.length := by omega
    simp [Pipeline.getNextLoop, this]
  | succ n ih =>
    intro current changed h1 h2 hnone
    rcases Nat.eq_or_lt_of_le h1 with heq | hlt
    · have hn : l[current]? = none := List.getElem?_eq_none (by omega)
      simp [Pipeline.getNextLoop, hn, heq]
    · have hsome : l[current]? = some l[current] := List.getElem?_eq_getElem hlt
      have hno := hnone current l[current] (Nat.le_refl _) hsome
      simp only [Pipeline.getNextLoop, hsome, Bool.and_false, Bool.false_and, hno]
      simp
      exact ih (current + 1) true (by omega) (by omega)
        (fun j e hj1 he => hnone j e (by omega) he)

theorem getNext_selects_first_match_aux {μ : Type} (engine : RegexEngine) (p : Pipeline μ)
    (req : Request) (hc : p.current ≤ p.middlewareList.length)
    (hnone : ∀ j e, p.current ≤ j → p.middlewareList[j]? = some e →
      PathRegExp.matchPath engine e.1 (Pipeline.matchSubject p.isBase req) req = none) :
    Pipeline.getNext engine p req false
      = (none, { p with current := p.middlewareList.length }, req) := by
  have hloop := getNextLoop_none engine p.middlewareList p.isBase req
    (p.middlewareList.length - p.current) p.current false hc (by omega) hnone
  simp [Pipeline.getNext, hloop]

/-- C1: `Pipeline::getNext` without the skip flag, from a cursor inside the list: when entry
`i` is the first entry at or after the cursor whose pattern matches the path, the middleware of
entry `i` is returned, the cursor is left at `i + 1` and the request carries what that match
extracted; when no entry at or after the cursor matches, no middleware is returned, the cursor
is left at the list size and the request is unchanged. -/
theorem getNext_selects_first_match {μ : Type} (engine : RegexEngine) (p : Pipeline μ)
    (req : Request) (hc : p.current ≤ p.middlewareList.length) :
    (∀ (i : Nat) (entry : MiddlewareConfig μ) (req' : Request),
        p.current ≤ i → p.middlewareList[i]? = some entry →
        PathRegExp.matchPath engine entry.1 (Pipeline.matchSubject p.isBase req) req = some req' →
        (∀ j e, p.current ≤ j → j < i → p.middlewareList[j]? = some e →
          PathRegExp.matchPath engine e.1 (Pipeline.matchSubject p.isBase req) req = none) →
        Pipeline.getNext engine p req false = (some entry.2, { p with current := i + 1 }, req'))
    ∧ ((∀ j e, p.current ≤ j → p.middlewareList[j]? = some e →
          PathRegExp.matchPath engine e.1 (Pipeline.matchSubject p.isBase req) req = none) →
        Pipeline.getNext engine p req false
          = (none, { p with current := p.middlewareList.length }, req)) := by
  constructor
  · intro i entry req' hci hi hm hbefore
    have hlen : i < p.middlewareList.length := by
      rcases Nat.lt_or_ge i p.middlewareList.length with h | h
      · exact h
      · rw [List.getElem?_eq_none h] at hi; cases hi
    have hloop := getNextLoop_found engine p.middlewareList p.isBase req req' i entry hi hm
      (p.middlewareList.length - p.current) p.current false hci (by omega) hbefore
    simp [Pipeline.getNext, hloop, hi]
  · intro hnone
    have hloop := getNextLoop_none engine p.middlewareList p.isBase req
      (p.middlewareList.length - p.current) p.current false hc (by omega) hnone
    simp [Pipeline.getNext, hloop]

theorem getNext_selects_first_match_witness :
    Pipeline.getNext literalEngine
        ({ middlewareList := [(⟨"/b", [], false⟩, 10), (⟨"/a", [], false⟩, 11),
            (⟨"/a", [], false⟩, 12)], isBase := true } : Pipeline Nat)
        { pathWithoutQueryString := "/a" } false
      = (some 11,
         { middlewareList := [(⟨"/b", [], false⟩, 10), (⟨"/a", [], false⟩, 11),
            (⟨"/a", [], false⟩, 12)], isBase := true, current := 2 },
         { pathWithoutQueryString := "/a", basePath := "/a" }) :=
  (getNext_selects_first_match literalEngine
      ({ middlewareList := [(⟨"/b", [], false⟩, 10), (⟨"/a", [], false⟩, 11),
          (⟨"/a", [], false⟩, 12)], isBase := true } : Pipeline Nat)
      { pathWithoutQueryString := "/a" } (by decide)).1 1 (⟨"/a", [], false⟩, 11)
    { pathWithoutQueryString := "/a", basePath := "/a" } (by decide) (by decide) (by decide)
    (by
      intro j e _ hj he
      have hj0 : j = 0 := by omega
      subst hj0
      simp at he
      subst he
      decide)

/-! ## Dispatch order on one connection -/

open HttpConnection

theorem Keeps.same (c : HttpConnection) : Keeps c c := by simp [Keeps]

theorem Keeps.andThen {a b c : HttpConnection} (h1 : Keeps a b) (h2 : Keeps b c) : Keeps a c := by
  unfold Keeps at *
  refine ⟨?_, ?_, ?_, ?_, ?_, fun order => h2.2.2.2.2.2 (h1.2.2.2.2.2 order)⟩
  · rw [h2.1, h1.1]
  · rw [h2.2.1, h1.2.1]
  · rw [h2.2.2.1, h1.2.2.1]
  · rw [h2.2.2.2.1, h1.2.2.2.1]
  · rw [h2.2.2.2.2.1, h1.2.2.2.2.1]

theorem Keeps.moves {a b : HttpConnection} (h : Keeps a b) : Moves a b := by
  unfold Keeps at h
  intro hi
  refine ⟨⟨h.2.2.2.2.2 hi.order, ?_, ?_, ?_⟩, ?_⟩
  · rw [h.1, h.2.1, h.2.2.1]; exact hi.count
  · rw [h.2.2.2.1, h.2.2.1]; exact hi.req
  · rw [h.2.2.2.2.1, h.2.2.1]; exact hi.res
  · rw [h.1]

theorem Moves.stay (c : HttpConnection) : Moves c c := (Keeps.same c).moves

theorem Moves.compose {a b c : HttpConnection} (h1 : Moves a b) (h2 : Moves b c) : Moves a c := by
  intro hi
  obtain ⟨i1, p1⟩ := h1 hi
  obtain ⟨i2, p2⟩ := h2 i1
  exact ⟨i2, p1.trans p2⟩

theorem keeps_emit (c : HttpConnection) (e : Effect) : Keeps c (emit c e) := by
  simp [Keeps, emit]

theorem keeps_startRequestTimer (c : HttpConnection) : Keeps c (startRequestTimer c) := by
  unfold startRequestTimer; split <;> simp [Keeps, emit]

theorem keeps_startResponseTimer (c : HttpConnection) : Keeps c (startResponseTimer c) := by
  unfold startResponseTimer; split <;> simp [Keeps, emit]

theorem keeps_startKeepAliveTimer (c : HttpConnection) : Keeps c (startKeepAliveTimer c) := by
  unfold startKeepAliveTimer; split <;> simp [Keeps, emit]

theorem keeps_stopRequestTimer (c : HttpConnection) : Keeps c (stopRequestTimer c) := by
  unfold stopRequestTimer; split <;> simp [Keeps, emit]

theorem keeps_stopResponseTimer (c : HttpConnection) : Keeps c (stopResponseTimer c) := by
  unfold stopResponseTimer; split <;> simp [Keeps, emit]

theorem keeps_stopKeepAliveTimer (c : HttpConnection) : Keeps c (stopKeepAliveTimer c) := by
  unfold stopKeepAliveTimer; split <;> simp [Keeps, emit]

theorem keeps_closeTimeouts (c : HttpConnection) : Keeps c (closeTimeouts c) := by
  unfold closeTimeouts
  simp only []
  split <;> split <;> split <;> simp [Keeps, emit]

theorem keeps_close (c : HttpConnection) : Keeps c (close c) := by
  refine Keeps.andThen (keeps_closeTimeouts c) ?_
  unfold close
  generalize closeTimeouts c = d
  simp only []
  split
  · exact Keeps.same d
  · split
    · split <;> simp [Keeps, emit]
    · simp [Keeps]

theorem keeps_eliminate (c : HttpConnection) : Keeps c (eliminate c) := by
  unfold eliminate; split <;> simp [Keeps]



theorem keeps_push (c : HttpConnection) (r : Request) : Keeps c (push c r) := by
  simp only [Keeps, push, true_and]
  intro h
  rw [List.map_append, ← List.append_assoc, h]
  simp [List.range_succ]

theorem Request.handleData_id (r : Request) (d : List Char) : (r.handleData d).id = r.id := by
  unfold Request.handleData
  dsimp only
  split_ifs <;> rfl

theorem Request.handleDataEnd_id (r : Request) : r.handleDataEnd.id = r.id := by
  unfold Request.handleDataEnd
  dsimp only
  split_ifs <;> rfl

theorem keeps_setBodyTarget (c : HttpConnection) (req new : Request)
    (ht : bodyTarget c = some req) (hid : new.id = req.id) :
    Keeps c (setBodyTarget c new) := by
  unfold setBodyTarget
  unfold bodyTarget at ht
  split
  · rename_i hq
    have hq' : c.requestQueue = [] := by simpa using hq
    rw [hq'] at ht
    simp at ht
    simp [Keeps, ht, hq']
  · rename_i hq
    have hne : c.requestQueue ≠ [] := by simpa using hq
    have hlast : c.requestQueue.getLast? = some req := by
      cases hl : c.requestQueue.getLast? with
      | none => simp [List.getLast?_eq_none_iff] at hl; exact absurd hl hne
      | some x => rw [hl] at ht; simpa using ht
    have hsplit : c.requestQueue = c.requestQueue.dropLast ++ [req] := by
      have := List.dropLast_append_getLast? req hlast
      exact this.symm
    simp only [Keeps, true_and]
    intro h
    rw [List.map_append, List.map_cons, hid]
    rw [hsplit, List.map_append] at h
    simpa using h

theorem keeps_updateRequestBodyBuffer (c : HttpConnection) (buffer : List Char) (pos : Nat) :
    Keeps c (updateRequestBodyBuffer c buffer pos).1 := by
  unfold updateRequestBodyBuffer
  split
  · simp [Keeps]
  · rename_i req ht
    simp only []
    split
    · have h1 : Keeps c { c with lastContentLeft := subU32 (subU32 req.contentLength req.bodyOctetsReceived) (slice buffer pos (min (u32 (pos + subU32 req.contentLength req.bodyOctetsReceived)) (u32 buffer.length))).length } := by
        simp [Keeps]
      refine Keeps.andThen h1 (keeps_setBodyTarget _ req _ ?_ ?_)
      · simpa [bodyTarget] using ht
      · rw [Request.handleDataEnd_id, Request.handleData_id]
    · have h1 : Keeps c { c with lastContentLeft := subU32 (subU32 req.contentLength req.bodyOctetsReceived) (slice buffer pos (min (u32 (pos + subU32 req.contentLength req.bodyOctetsReceived)) (u32 buffer.length))).length, needMoreDataToGetBody := true } := by
        simp [Keeps]
      refine Keeps.andThen h1 (keeps_setBodyTarget _ req _ ?_ ?_)
      · simpa [bodyTarget] using ht
      · rw [Request.handleData_id]



theorem keeps_parseRequest (env : Env) (c : HttpConnection) (buffer : List Char) (pos : Nat) :
    Keeps c (parseRequest env c buffer pos).1 := by
  have h0 : Keeps c { c with requestsAccepted := u32 (c.requestsAccepted + 1) } := by
    simp [Keeps]
  refine Keeps.andThen h0 ?_
  unfold parseRequest
  generalize ({ c with requestsAccepted := u32 (c.requestsAccepted + 1) } : HttpConnection) = d
  dsimp only
  split
  · exact keeps_push _ _
  · exact keeps_push _ _
  · split <;> simp [Keeps]
  · exact keeps_push _ _
  · exact keeps_push _ _
  · split
    · exact Keeps.same _
    · split
      · split
        · exact keeps_push _ _
        · split
          · exact keeps_push _ _
          · exact Keeps.andThen (keeps_push _ _) (keeps_updateRequestBodyBuffer _ _ _)
      · exact keeps_push _ _

theorem keeps_parseLoop (env : Env) (buffer : List Char) :
    ∀ (fuel : Nat) (c : HttpConnection) (pos : Nat), Keeps c (parseLoop env buffer fuel c pos) := by
  intro fuel
  induction fuel with
  | zero => intro c pos; exact Keeps.same c
  | succ n ih =>
    intro c pos
    unfold parseLoop
    split
    · dsimp only
      split
      · exact Keeps.andThen (keeps_parseRequest env c buffer pos) (keeps_emit _ _)
      · split
        · exact keeps_parseRequest env c buffer pos
        · exact Keeps.andThen (keeps_parseRequest env c buffer pos) (ih _ _)
    · exact Keeps.same c

theorem moves_endCore (c : HttpConnection) (h : c.hasActiveRequest = true) :
    Moves c (endCore c) := by
  intro hi
  have hk := keeps_stopResponseTimer c
  obtain ⟨hi', _⟩ := hk.moves hi
  obtain ⟨k1, k2, k3, k4, k5, k6⟩ := hk
  unfold endCore
  generalize stopResponseTimer c = d at *
  refine ⟨⟨?_, ?_, ?_, ?_⟩, ?_⟩
  · simpa using hi'.order
  · have := hi'.count
    rw [k3, h] at this
    simpa using this
  · simp
  · simp
  · simp [k1]

theorem moves_processQueue (env : Env) :
    ∀ (q : List Request) (c : HttpConnection), c.requestQueue = q → c.hasActiveRequest = false →
      Moves c (processQueue env q c) := by
  intro q
  induction q with
  | nil => intro c _ _; exact (keeps_startKeepAliveTimer c).moves
  | cons r rest ih =>
    intro c hq ha
    have hdisp : ∀ res : Response, Moves c
        { c with request := some r, requestQueue := rest, response := some res
                 hasActiveRequest := true, dispatched := c.dispatched ++ [r.id] } := by
      intro res hi
      refine ⟨⟨?_, ?_, ?_, ?_⟩, ?_⟩
      · have := hi.order
        rw [hq] at this
        simpa using this
      · have := hi.count
        rw [ha] at this
        simpa using this
      · simp
      · simp
      · simp
    unfold processQueue
    dsimp only
    split
    · split
      · refine Moves.compose (hdisp (createResponse env c r)) ?_
        have hset : Keeps
            { c with request := some r, requestQueue := rest
                     response := some (createResponse env c r), hasActiveRequest := true
                     dispatched := c.dispatched ++ [r.id] }
            { c with request := some r, requestQueue := rest
                     response := some (Response.endResponse env (createResponse env c r)).1
                     hasActiveRequest := true, dispatched := c.dispatched ++ [r.id]
                     effects := c.effects ++
                       (Response.endResponse env (createResponse env c r)).2.1.map Effect.write } := by
          simp [Keeps]
        refine Moves.compose hset.moves ?_
        refine Moves.compose (moves_endCore _ rfl) ?_
        split
        · exact (keeps_close _).moves
        · apply ih
          · simp [endCore, stopResponseTimer]
            split <;> simp [emit]
          · simp [endCore]
      · refine Moves.compose (hdisp (createResponse env c r)) ?_
        exact Keeps.moves (by simp [Keeps])
    · refine Moves.compose (hdisp (createResponse env c r)) ?_
      exact (Keeps.andThen (keeps_startResponseTimer _) (keeps_emit _ _)).moves

theorem moves_processNextRequest (env : Env) (c : HttpConnection) :
    Moves c (processNextRequest env c) := by
  unfold processNextRequest
  split
  · exact Moves.stay c
  · exact moves_processQueue env _ c rfl (by simpa using ‹¬c.hasActiveRequest = true›)

theorem moves_endConnection (env : Env) (c : HttpConnection) (h : c.hasActiveRequest = true) :
    Moves c (endConnection env c) := by
  unfold endConnection
  dsimp only
  refine Moves.compose (moves_endCore c h) ?_
  split
  · exact (keeps_close _).moves
  · exact moves_processNextRequest env _



theorem moves_responseEnd (env : Env) (c : HttpConnection) : Moves c (responseEnd env c) := by
  intro hi
  revert hi
  change Moves c (responseEnd env c)
  unfold responseEnd
  split
  · exact Moves.stay c
  · rename_i res hres
    intro hi
    have hact : c.hasActiveRequest = true := by
      have := hi.res
      rw [hres] at this
      simpa using this.symm
    revert hi
    change Moves c _
    dsimp only
    have hk : Keeps c { c with response := some (Response.endResponse env res).1
                               effects := c.effects ++ (Response.endResponse env res).2.1.map Effect.write } := by
      simp [Keeps, hres]
    split
    · exact Moves.compose hk.moves (moves_endConnection env _ hact)
    · exact hk.moves

theorem moves_responseSend (env : Env) (c : HttpConnection) (data : String) :
    Moves c (responseSend env c data) := by
  intro hi
  revert hi
  change Moves c (responseSend env c data)
  unfold responseSend
  split
  · exact Moves.stay c
  · rename_i res hres
    intro hi
    have hact : c.hasActiveRequest = true := by
      have := hi.res
      rw [hres] at this
      simpa using this.symm
    revert hi
    change Moves c _
    dsimp only
    have hk : Keeps c { c with response := some (Response.send env res data).1
                               effects := c.effects ++ (Response.send env res data).2.1.map Effect.write } := by
      simp [Keeps, hres]
    split
    · exact Moves.compose hk.moves (moves_endConnection env _ hact)
    · exact hk.moves

theorem keeps_responseDo (c : HttpConnection) (f : Response → Response × List String) :
    Keeps c (responseDo c f) := by
  unfold responseDo
  split
  · exact Keeps.same c
  · rename_i res hres
    simp [Keeps, hres]

theorem keeps_handleDataEnd (c : HttpConnection) : Keeps c (handleDataEnd c) := by
  unfold handleDataEnd
  split
  · exact Keeps.same c
  · rename_i req ht
    exact keeps_setBodyTarget c req _ ht (Request.handleDataEnd_id req)

theorem keeps_handleClientError (c : HttpConnection) : Keeps c (handleClientError c) := by
  unfold handleClientError
  dsimp only
  refine Keeps.andThen ?_ (keeps_close _)
  split <;> simp [Keeps]

theorem keeps_handleShutdown (c : HttpConnection) : Keeps c (handleShutdown c) := by
  unfold handleShutdown
  exact Keeps.andThen (by simp [Keeps]) (keeps_close _)

theorem keeps_handleClose (c : HttpConnection) : Keeps c (handleClose c) := by
  unfold handleClose
  exact Keeps.andThen (by simp [Keeps]) (keeps_eliminate _)

theorem keeps_handleKeepAliveTimeout (c : HttpConnection) : Keeps c (handleKeepAliveTimeout c) := by
  unfold handleKeepAliveTimeout
  dsimp only
  split
  · exact keeps_emit _ _
  · exact Keeps.andThen (keeps_emit _ _) (keeps_close _)

theorem moves_handleResponseTimeout (env : Env) (c : HttpConnection) :
    Moves c (handleResponseTimeout env c) := by
  unfold handleResponseTimeout
  split
  · exact Moves.stay c
  · rename_i res hres
    exact Moves.compose (Keeps.moves (by simp [Keeps, hres])) (moves_responseEnd env _)

theorem moves_handleRequestTimeout (env : Env) (c : HttpConnection) :
    Moves c (handleRequestTimeout env c) := by
  unfold handleRequestTimeout
  dsimp only
  refine Moves.compose (keeps_emit c .stop).moves ?_
  generalize emit c .stop = d
  split
  · exact Moves.compose (keeps_push _ _).moves (moves_processNextRequest env _)
  · split
    · split
      · rename_i hq
        apply Keeps.moves
        simp only [Keeps, true_and]
        intro h
        have hne : d.requestQueue ≠ [] := by simpa using hq
        cases hl : d.requestQueue.getLast? with
        | none => simp [List.getLast?_eq_none_iff] at hl; exact absurd hl hne
        | some x =>
          have hsplit := (List.dropLast_append_getLast? x hl).symm
          rw [hsplit, List.map_append] at h
          simpa using h
      · split
        · exact Moves.stay d
        · rename_i res hres
          have hk : Keeps d { d with response := some (res.setStatus 408)
                                     request := d.request.map Request.handleDataEnd } := by
            simp [Keeps, hres]
          split
          · exact Moves.compose hk.moves (moves_responseEnd env _)
          · exact hk.moves
    · exact Moves.stay d

theorem moves_handleData (env : Env) (c : HttpConnection) (data : List Char) :
    Moves c (handleData env c data) := by
  unfold handleData
  dsimp only
  have h1 : Keeps c (stopRequestTimer (stopKeepAliveTimer
      { c with headerBuffer := [], needMoreDataToParseHeaders := false })) :=
    Keeps.andThen (Keeps.andThen (by simp [Keeps]) (keeps_stopKeepAliveTimer _))
      (keeps_stopRequestTimer _)
  generalize stopRequestTimer (stopKeepAliveTimer
      { c with headerBuffer := [], needMoreDataToParseHeaders := false }) = d at h1 ⊢
  have h2 : Keeps d (if d.needMoreDataToGetBody = true then
      updateRequestBodyBuffer { d with needMoreDataToGetBody := false } (c.headerBuffer ++ data) 0
      else (d, 0)).1 := by
    split
    · exact Keeps.andThen (by simp [Keeps]) (keeps_updateRequestBodyBuffer _ _ _)
    · exact Keeps.same d
  generalize (if d.needMoreDataToGetBody = true then
      updateRequestBodyBuffer { d with needMoreDataToGetBody := false } (c.headerBuffer ++ data) 0
      else (d, 0)) = u at h2 ⊢
  have h3 := keeps_parseLoop env (c.headerBuffer ++ data) (c.headerBuffer ++ data).length u.1 u.2
  generalize parseLoop env (c.headerBuffer ++ data) (c.headerBuffer ++ data).length u.1 u.2 = p
    at h3 ⊢
  have h4 := moves_processNextRequest env p
  generalize processNextRequest env p = q at h4 ⊢
  refine Moves.compose (Keeps.andThen (Keeps.andThen h1 h2) h3).moves (Moves.compose h4 ?_)
  apply Keeps.moves
  have h5 : Keeps q (if (isRequestLimitExceeded q && !q.needMoreDataToGetBody) = true
      then emit q .stop else q) := by
    split
    · exact keeps_emit _ _
    · exact Keeps.same q
  refine Keeps.andThen h5 ?_
  generalize (if (isRequestLimitExceeded q && !q.needMoreDataToGetBody) = true
      then emit q .stop else q) = w
  split
  · exact keeps_startRequestTimer _
  · exact Keeps.same _

theorem moves_step (env : Env) (c : HttpConnection) (e : Event) : Moves c (step env c e) := by
  cases e with
  | data bytes => exact moves_handleData env c bytes
  | dataEnd => exact (keeps_handleDataEnd c).moves
  | clientError => exact (keeps_handleClientError c).moves
  | shutdown => exact (keeps_handleShutdown c).moves
  | close => exact (keeps_handleClose c).moves
  | requestTimeout => exact moves_handleRequestTimeout env c
  | responseTimeout => exact moves_handleResponseTimeout env c
  | keepAliveTimeout => exact (keeps_handleKeepAliveTimeout c).moves
  | requestTimeoutClose =>
    exact (Keeps.andThen (by simp [Keeps]) (keeps_eliminate _)).moves
  | responseTimeoutClose =>
    exact (Keeps.andThen (by simp [Keeps]) (keeps_eliminate _)).moves
  | keepAliveTimeoutClose =>
    exact (Keeps.andThen (by simp [Keeps]) (keeps_eliminate _)).moves
  | resEnd => exact moves_responseEnd env c
  | resSend data => exact moves_responseSend env c data
  | resWrite data => exact (keeps_responseDo c _).moves
  | resSendStatus code => exact (keeps_responseDo c _).moves
  | resSetStatus code => exact (keeps_responseDo c _).moves
  | resSetHeader name value => exact (keeps_responseDo c _).moves
  | reqOnData => exact Keeps.moves (by simp [Keeps, step])
  | reqOnDataEnd => exact Keeps.moves (by simp [Keeps, step])

theorem dispatchInv_new (config : HttpServerConfig) : DispatchInv (HttpConnection.new config) := by
  have h0 : DispatchInv ({ config := config } : HttpConnection) :=
    ⟨by simp, by simp, by simp, by simp⟩
  exact ((keeps_startKeepAliveTimer _).moves h0).1

theorem dispatchInv_run (env : Env) :
    ∀ (events : List Event) (c : HttpConnection), DispatchInv c → DispatchInv (run env c events) := by
  intro events
  induction events with
  | nil => intro c h; exact h
  | cons e rest ih =>
    intro c h
    exact ih (step env c e) (moves_step env c e h).1

theorem dispatchInv_reachable (env : Env) (config : HttpServerConfig) (c : HttpConnection)
    (h : Reachable env config c) : DispatchInv c := by
  obtain ⟨events, rfl⟩ := h
  exact dispatchInv_run env events _ (dispatchInv_new config)



theorem closeTimeouts_queue (c : HttpConnection) :
    (closeTimeouts c).requestQueue = c.requestQueue := by
  unfold closeTimeouts
  simp only []
  split <;> split <;> split <;> simp [emit]

theorem close_queue (c : HttpConnection) : (close c).requestQueue = c.requestQueue := by
  rw [← closeTimeouts_queue c]
  unfold close
  generalize closeTimeouts c = d
  simp only []
  split
  · rfl
  · split
    · split <;> simp [emit]
    · simp

theorem endCore_queue (c : HttpConnection) : (endCore c).requestQueue = c.requestQueue := by
  simp only [endCore, stopResponseTimer]
  split <;> simp [emit]

theorem endCore_dispatched (c : HttpConnection) : (endCore c).dispatched = c.dispatched := by
  simp only [endCore, stopResponseTimer]
  split <;> simp [emit]

theorem processQueue_takes_front (env : Env) :
    ∀ (q : List Request) (c : HttpConnection), c.requestQueue = q →
      ∃ n, (q ≠ [] → 0 < n)
        ∧ (processQueue env q c).dispatched = c.dispatched ++ (q.take n).map (fun r => r.id)
        ∧ (processQueue env q c).requestQueue = q.drop n := by
  intro q
  induction q with
  | nil =>
    intro c hq
    refine ⟨0, by simp, ?_, ?_⟩
    · simp [processQueue, (keeps_startKeepAliveTimer c).1]
    · simp only [processQueue, startKeepAliveTimer]
      split <;> simp [emit, hq]
  | cons r rest ih =>
    intro c hq
    unfold processQueue
    dsimp only
    split
    · split
      · split
        · refine ⟨1, by simp, ?_, ?_⟩
          · rw [(keeps_close _).1, endCore_dispatched]; simp
          · rw [close_queue, endCore_queue]; simp
        · obtain ⟨n, _, h2, h3⟩ := ih (endCore
            { c with request := some r, requestQueue := rest
                     response := some (Response.endResponse env (createResponse env c r)).1
                     hasActiveRequest := true, dispatched := c.dispatched ++ [r.id]
                     effects := c.effects ++
                       (Response.endResponse env (createResponse env c r)).2.1.map Effect.write })
            (by rw [endCore_queue])
          refine ⟨n + 1, by simp, ?_, ?_⟩
          · rw [h2, endCore_dispatched]; simp
          · rw [h3]; simp
      · exact ⟨1, by simp, by simp, by simp⟩
    · refine ⟨1, by simp, ?_, ?_⟩
      · rw [(keeps_emit _ _).1, (keeps_startResponseTimer _).1]; simp
      · simp only [emit, startResponseTimer]
        split <;> simp

/-- C2: `processNextRequest` leaves a connection with an active request as it is; on a
connection without one it takes requests from the front of the queue, oldest first, and no
others. In every reachable state the ids dispatched followed by the ids queued are the ids in
enqueueing order, the requests dispatched and not yet completed by `HttpConnection::end` are
at most one, and that one exists exactly while `hasActiveRequest` is set; an event that clears
`hasActiveRequest` has run `HttpConnection::end`. -/
theorem pipelining_order (env : Env) (config : HttpServerConfig) :
    (∀ c : HttpConnection, c.hasActiveRequest = true → processNextRequest env c = c)
    ∧ (∀ (c : HttpConnection) (r : Request) (rest : List Request),
        c.hasActiveRequest = false → c.requestQueue = r :: rest →
        ∃ n, (processNextRequest env c).dispatched
              = c.dispatched ++ r.id :: (rest.take n).map (fun x => x.id)
          ∧ (processNextRequest env c).requestQueue = rest.drop n)
    ∧ (∀ c : HttpConnection, Reachable env config c →
        c.dispatched ++ c.requestQueue.map (fun r => r.id) = List.range c.created
        ∧ c.dispatched.length ≤ c.completed + 1
        ∧ (c.dispatched.length = c.completed + 1 ↔ c.hasActiveRequest = true)
        ∧ (c.hasActiveRequest = true ↔ c.request.isSome = true))
    ∧ (∀ (c : HttpConnection) (e : Event), Reachable env config c →
        c.hasActiveRequest = true → (step env c e).hasActiveRequest = false →
        c.completed < (step env c e).completed) := by
  refine ⟨?_, ?_, ?_, ?_⟩
  · intro c h
    simp [processNextRequest, h]
  · intro c r rest ha hq
    obtain ⟨n, h1, h2, h3⟩ := processQueue_takes_front env (r :: rest) c hq
    have hn : 0 < n := h1 (by simp)
    obtain ⟨m, rfl⟩ : ∃ m, n = m + 1 := ⟨n - 1, by omega⟩
    refine ⟨m, ?_, ?_⟩
    · simpa [processNextRequest, ha, hq] using h2
    · simpa [processNextRequest, ha, hq] using h3
  · intro c hr
    have hi := dispatchInv_reachable env config c hr
    refine ⟨hi.order, ?_, ?_, ?_⟩
    · have := hi.count
      split at this <;> omega
    · have := hi.count
      constructor
      · intro h
        by_contra hne
        simp [hne] at this
        omega
      · intro h
        simpa [h] using this
    · rw [hi.req]
  · intro c e hr ha hb
    have hi := dispatchInv_reachable env config c hr
    obtain ⟨hi', hp⟩ := moves_step env c e hi
    have h1 := hi.count
    have h2 := hi'.count
    rw [ha] at h1
    rw [hb] at h2
    have h3 := hp.length_le
    simp at h1 h2
    omega

theorem pipelining_order_witness :
    (run demoEnv (HttpConnection.new {})
        [.data "GET /a HTTP/1.1\r\n\r\nGET /b HTTP/1.1\r\n\r\n".toList]).dispatched = [0]
    ∧ (run demoEnv (HttpConnection.new {})
        [.data "GET /a HTTP/1.1\r\n\r\nGET /b HTTP/1.1\r\n\r\n".toList]).created = 2
    ∧ (run demoEnv (HttpConnection.new {})
        [.data "GET /a HTTP/1.1\r\n\r\nGET /b HTTP/1.1\r\n\r\n".toList]).dispatched
        ++ (run demoEnv (HttpConnection.new {})
          [.data "GET /a HTTP/1.1\r\n\r\nGET /b HTTP/1.1\r\n\r\n".toList]).requestQueue.map
            (fun r => r.id)
        = List.range (run demoEnv (HttpConnection.new {})
          [.data "GET /a HTTP/1.1\r\n\r\nGET /b HTTP/1.1\r\n\r\n".toList]).created :=
  ⟨by decide, by decide,
    ((pipelining_order demoEnv {}).2.2.1 _ ⟨[.data
      "GET /a HTTP/1.1\r\n\r\nGET /b HTTP/1.1\r\n\r\n".toList], rfl⟩).1⟩

/-! ## Delivery of the request body -/

theorem deliveredBeforeEnd_append_data (log : List BodyEvent) (d : List Char)
    (h : BodyEvent.dataEnd ∉ log) :
    deliveredBeforeEnd (log ++ [BodyEvent.data d]) = deliveredBeforeEnd log ++ d := by
  induction log with
  | nil => simp [deliveredBeforeEnd]
  | cons e rest ih =>
    cases e with
    | data chunk =>
      have : BodyEvent.dataEnd ∉ rest := fun hm => h (List.mem_cons_of_mem _ hm)
      simp [deliveredBeforeEnd, ih this]
    | dataEnd => exact absurd (List.mem_cons_self _ _) h

theorem deliveredBeforeEnd_append_dataEnd (log more : List BodyEvent) :
    deliveredBeforeEnd (log ++ BodyEvent.dataEnd :: more) = deliveredBeforeEnd log := by
  induction log with
  | nil => simp [deliveredBeforeEnd]
  | cons e rest ih =>
    cases e with
    | data chunk => simp [deliveredBeforeEnd, ih]
    | dataEnd => simp [deliveredBeforeEnd]

theorem Request.handleData_alive (r : Request) (data : List Char) (h : r.isAlive = true) :
    r.handleData data =
      if r.onDataCallback then
        { r with
          bodyOctetsReceived := u32 (r.bodyOctetsReceived + data.length)
          isFullData := r.isFullData
            || decide (r.contentLength ≤ u32 (r.bodyOctetsReceived + data.length))
          callbackLog := r.callbackLog ++ [BodyEvent.data data]
            ++ (if (r.isFullData
                  || decide (r.contentLength ≤ u32 (r.bodyOctetsReceived + data.length)))
                  && r.onDataEndCallback then [BodyEvent.dataEnd] else []) }
      else
        { r with
          bodyOctetsReceived := u32 (r.bodyOctetsReceived + data.length)
          isFullData := r.isFullData
            || decide (r.contentLength ≤ u32 (r.bodyOctetsReceived + data.length))
          bodyBuffer := r.bodyBuffer ++ data } := by
  unfold Request.handleData
  simp only [h, Bool.not_true, Bool.false_eq_true, if_false]
  by_cases hc : r.contentLength ≤ u32 (r.bodyOctetsReceived + data.length)
  · by_cases h1 : r.onDataCallback = true <;> by_cases h2 : r.onDataEndCallback = true <;>
      simp [hc, h1, h2]
  · by_cases h1 : r.onDataCallback = true <;> by_cases h2 : r.onDataEndCallback = true <;>
      by_cases h3 : r.isFullData = true <;> simp [hc, h1, h2, h3]

theorem u32_of_lt {n : Nat} (h : n < 4294967296) : u32 n = n := Nat.mod_eq_of_lt h

theorem subU32_of_le {a b : Nat} (h : b ≤ a) (ha : a < 4294967296) : subU32 a b = a - b := by
  unfold subU32 toU32
  have h1 : ((a : Int) - (b : Int)) = ((a - b : Nat) : Int) := by omega
  rw [h1]
  have h2 : (((a - b : Nat) : Int) % 4294967296) = ((a - b : Nat) : Int) := by
    apply Int.emod_eq_of_lt <;> omega
  rw [h2]
  simp

theorem deliveredBeforeEnd_append_data_end (log more : List BodyEvent) (d : List Char)
    (h : BodyEvent.dataEnd ∉ log) :
    deliveredBeforeEnd (log ++ BodyEvent.data d :: BodyEvent.dataEnd :: more)
      = deliveredBeforeEnd log ++ d := by
  induction log with
  | nil => simp [deliveredBeforeEnd]
  | cons e rest ih =>
    cases e with
    | data chunk =>
      have : BodyEvent.dataEnd ∉ rest := fun hm => h (List.mem_cons_of_mem _ hm)
      simp [deliveredBeforeEnd, ih this]
    | dataEnd => exact absurd (List.mem_cons_self _ _) h

theorem bodyPhase_handleData (L : Nat) (body data : List Char) (registered : Bool) (r : Request)
    (h : BodyPhase L body registered r) (hlt : body.length < L)
    (hd : body.length + data.length < L) :
    BodyPhase L (body ++ data) registered (r.handleData data) := by
  obtain ⟨h1, h2, h3, h4, h5, h6⟩ := h
  rw [Request.handleData_alive r data h1]
  have hu : u32 (r.bodyOctetsReceived + data.length) = body.length + data.length := by
    rw [h5]; exact u32_of_lt (by omega)
  have hnf : ¬ r.contentLength ≤ body.length + data.length := by omega
  cases registered with
  | true =>
    simp only [if_true] at h6
    obtain ⟨g1, g2, g3⟩ := h6
    obtain ⟨c1, c2, c3⟩ := g3 hlt
    have hne : BodyEvent.dataEnd ∉ r.callbackLog := fun hm => by
      have := g2.mp hm; omega
    rw [if_pos c1, hu, c3]
    simp only [hnf, Bool.false_or, decide_False, Bool.false_and, Bool.false_eq_true, if_false,
      List.append_nil]
    refine ⟨h1, h2, h3, by simp; omega, by simp, ?_⟩
    rw [if_pos rfl]
    refine ⟨?_, ?_, ?_⟩
    · show deliveredBeforeEnd (r.callbackLog ++ [BodyEvent.data data]) = body ++ data
      rw [deliveredBeforeEnd_append_data _ _ hne, g1]
    · show BodyEvent.dataEnd ∈ r.callbackLog ++ [BodyEvent.data data] ↔ L ≤ (body ++ data).length
      simp [hne]; omega
    · intro _; exact ⟨c1, c2, rfl⟩
  | false =>
    simp only [Bool.false_eq_true, if_false] at h6
    obtain ⟨g1, g2, g3, g4, g5⟩ := h6
    have hfull : r.isFullData = false := by rw [g5]; simp; omega
    rw [if_neg (by simp [g1]), hu, hfull]
    simp only [hnf, Bool.false_or, decide_False]
    refine ⟨h1, h2, h3, by simp; omega, by simp, ?_⟩
    rw [if_neg (by simp)]
    refine ⟨g1, g2, g3, ?_, ?_⟩
    · show r.bodyBuffer ++ data = body ++ data
      rw [g4]
    · show false = decide (L ≤ (body ++ data).length)
      simp; omega

theorem bodyPhase_complete (L : Nat) (body data : List Char) (registered : Bool) (r : Request)
    (h : BodyPhase L body registered r) (hlt : body.length < L)
    (hd : body.length + data.length = L) :
    BodyPhase L (body ++ data) registered (r.handleData data).handleDataEnd := by
  obtain ⟨h1, h2, h3, h4, h5, h6⟩ := h
  rw [Request.handleData_alive r data h1]
  have hu : u32 (r.bodyOctetsReceived + data.length) = body.length + data.length := by
    rw [h5]; exact u32_of_lt (by omega)
  have hf : r.contentLength ≤ body.length + data.length := by omega
  cases registered with
  | true =>
    simp only [if_true] at h6
    obtain ⟨g1, g2, g3⟩ := h6
    obtain ⟨c1, c2, c3⟩ := g3 hlt
    have hne : BodyEvent.dataEnd ∉ r.callbackLog := fun hm => by
      have := g2.mp hm; omega
    rw [if_pos c1, hu, c3, c2]
    simp only [hf, Bool.false_or, decide_True, Bool.and_self, if_true]
    unfold Request.handleDataEnd
    rw [if_neg (by simp [h1]), if_pos rfl]
    refine ⟨h1, h2, h3, by simp; omega, by simp, ?_⟩
    rw [if_pos rfl]
    refine ⟨?_, ?_, ?_⟩
    · show deliveredBeforeEnd (r.callbackLog ++ [BodyEvent.data data] ++ [BodyEvent.dataEnd]
        ++ [BodyEvent.dataEnd]) = body ++ data
      have : r.callbackLog ++ [BodyEvent.data data] ++ [BodyEvent.dataEnd] ++ [BodyEvent.dataEnd]
          = r.callbackLog ++ BodyEvent.data data :: BodyEvent.dataEnd :: [BodyEvent.dataEnd] := by
        simp
      rw [this, deliveredBeforeEnd_append_data_end _ _ _ hne, g1]
    · show BodyEvent.dataEnd ∈ r.callbackLog ++ [BodyEvent.data data] ++ [BodyEvent.dataEnd]
        ++ [BodyEvent.dataEnd] ↔ L ≤ (body ++ data).length
      simp; omega
    · intro hc; simp at hc; omega
  | false =>
    simp only [Bool.false_eq_true, if_false] at h6
    obtain ⟨g1, g2, g3, g4, g5⟩ := h6
    rw [if_neg (by simp [g1]), hu]
    simp only [hf, decide_True, Bool.or_true]
    unfold Request.handleDataEnd
    rw [if_neg (by simp [h1]), if_neg (by simp [g2])]
    refine ⟨h1, h2, h3, by simp; omega, by simp, ?_⟩
    rw [if_neg (by simp)]
    refine ⟨rfl, rfl, g3, ?_, ?_⟩
    · show r.bodyBuffer ++ data = body ++ data
      rw [g4]
    · show true = decide (L ≤ (body ++ data).length)
      simp; omega

theorem bodyPhase_register (L : Nat) (body : List Char) (r : Request) (order : Bool)
    (h : BodyPhase L body false r) :
    BodyPhase L body true (if order then r.onData.onDataEnd else r.onDataEnd.onData) := by
  obtain ⟨h1, h2, h3, h4, h5, h6⟩ := h
  simp only [Bool.false_eq_true, if_false] at h6
  obtain ⟨g1, g2, g3, g4, g5⟩ := h6
  obtain ⟨onData, onEnd, alive, method, headers, params, path, rel, base, pwq, qs, anchor, err,
    buffer, full, received, len, rerr, minor, log, rid⟩ := r
  simp only at h1 h2 h5 g1 g2 g3 g4 g5
  subst h1 h2 g1 g2 g3 g4 g5 h5
  by_cases hfull : len ≤ buffer.length
  · have hb : buffer.length = len := by omega
    cases buffer with
    | nil =>
      have hL : len = 0 := by simpa using hb.symm
      subst hL
      cases order <;>
        simp [BodyPhase, Request.onData, Request.onDataEnd, deliveredBeforeEnd]
    | cons b bs =>
      simp only [List.length_cons] at hfull h4
      cases order <;>
        simp [BodyPhase, Request.onData, Request.onDataEnd, deliveredBeforeEnd, hfull, h3, h4]
  · cases buffer with
    | nil =>
      have hne : ¬ len = 0 := by simpa using hfull
      cases order <;>
        simp [BodyPhase, Request.onData, Request.onDataEnd, deliveredBeforeEnd, hne, h3]
    | cons b bs =>
      simp only [List.length_cons] at hfull h4
      cases order <;>
        simp [BodyPhase, Request.onData, Request.onDataEnd, deliveredBeforeEnd, hfull, h3, h4]

theorem Agree.chain {a b c : HttpConnection} (h1 : Agree a b) (h2 : Agree b c) : Agree a c := by
  unfold Agree at *
  refine ⟨?_, ?_, ?_, ?_, ?_, ?_⟩
  · rw [h2.1, h1.1]
  · rw [h2.2.1, h1.2.1]
  · rw [h2.2.2.1, h1.2.2.1]
  · rw [h2.2.2.2.1, h1.2.2.2.1]
  · rw [h2.2.2.2.2.1, h1.2.2.2.2.1]
  · rw [h2.2.2.2.2.2, h1.2.2.2.2.2]

theorem agree_emit (c : HttpConnection) (e : Effect) : Agree c (emit c e) := by
  simp [Agree, emit]

theorem agree_stopTimers (c : HttpConnection) :
    Agree c (stopRequestTimer (stopKeepAliveTimer c)) := by
  unfold stopRequestTimer stopKeepAliveTimer
  split <;> split <;> simp [Agree, emit]

theorem agree_startRequestTimer (c : HttpConnection) : Agree c (startRequestTimer c) := by
  unfold startRequestTimer
  split <;> simp [Agree, emit]

theorem slice_zero (data : List Char) (k : Nat) : slice data 0 k = data.take k := by
  simp [slice]

theorem updateRequestBodyBuffer_active (e : HttpConnection) (data : List Char) (r : Request)
    (L : Nat) (body : List Char) (registered : Bool)
    (hr : e.request = some r) (hq : e.requestQueue = [])
    (hp : BodyPhase L body registered r) (hlt : body.length < L)
    (hd : data.length < 4294967296) :
    ∃ r', (updateRequestBodyBuffer e data 0).1.request = some r'
      ∧ BodyPhase L (body ++ data.take (L - body.length)) registered r'
      ∧ (updateRequestBodyBuffer e data 0).1.requestQueue = []
      ∧ (updateRequestBodyBuffer e data 0).1.hasActiveRequest = e.hasActiveRequest
      ∧ (updateRequestBodyBuffer e data 0).1.headerBuffer = e.headerBuffer
      ∧ (updateRequestBodyBuffer e data 0).2 = min (L - body.length) data.length
      ∧ (body.length + data.length < L →
          (updateRequestBodyBuffer e data 0).1.needMoreDataToGetBody = true) := by
  have ht : bodyTarget e = some r := by simp [bodyTarget, hq, hr]
  obtain ⟨h1, h2, h3, h4, h5, h6⟩ := hp
  have hcl : subU32 r.contentLength r.bodyOctetsReceived = L - body.length := by
    rw [h2, h5]; exact subU32_of_le h4 h3
  have hslice : slice data 0 (min (u32 (0 + (L - body.length))) (u32 data.length))
      = data.take (L - body.length) := by
    rw [slice_zero, Nat.zero_add, u32_of_lt (by omega : L - body.length < 4294967296),
      u32_of_lt hd]
    rw [List.take_eq_take]
    simp
  have hlen : (data.take (L - body.length)).length = min (L - body.length) data.length := by
    simp
  unfold updateRequestBodyBuffer
  rw [ht]
  simp only [hcl, hslice, hlen]
  have hpos : u32 (0 + min (L - body.length) data.length) = min (L - body.length) data.length := by
    rw [Nat.zero_add]; exact u32_of_lt (by omega)
  by_cases hc : min (L - body.length) data.length = L - body.length
  · rw [if_pos hc]
    refine ⟨(r.handleData (data.take (L - body.length))).handleDataEnd, ?_, ?_, ?_, ?_, ?_, ?_, ?_⟩
    · simp [setBodyTarget, hq]
    · exact bodyPhase_complete L body _ registered r ⟨h1, h2, h3, h4, h5, h6⟩ hlt
        (by rw [hlen]; omega)
    · simp [setBodyTarget, hq]
    · simp [setBodyTarget, hq]
    · simp [setBodyTarget, hq]
    · exact hpos
    · intro hcontra
      have : min (L - body.length) data.length = data.length := by omega
      omega
  · rw [if_neg hc]
    refine ⟨r.handleData (data.take (L - body.length)), ?_, ?_, ?_, ?_, ?_, ?_, ?_⟩
    · simp [setBodyTarget, hq]
    · exact bodyPhase_handleData L body _ registered r ⟨h1, h2, h3, h4, h5, h6⟩ hlt
        (by rw [hlen]; omega)
    · simp [setBodyTarget, hq]
    · simp [setBodyTarget, hq]
    · simp [setBodyTarget, hq]
    · exact hpos
    · intro _
      simp [setBodyTarget, hq]

theorem updateRequestBodyBuffer_request (c : HttpConnection) (buffer : List Char) (pos : Nat)
    (h : c.requestQueue ≠ []) :
    (updateRequestBodyBuffer c buffer pos).1.request = c.request := by
  have hne : c.requestQueue.isEmpty = false := by
    cases hq : c.requestQueue with
    | nil => exact absurd hq h
    | cons a as => rfl
  unfold updateRequestBodyBuffer
  split
  · rfl
  · dsimp only
    split <;> simp [setBodyTarget, hne]

theorem parseRequest_request (env : Env) (c : HttpConnection) (buffer : List Char) (pos : Nat) :
    (parseRequest env c buffer pos).1.request = c.request := by
  unfold parseRequest
  dsimp only
  split
  · rfl
  · rfl
  · split <;> rfl
  · rfl
  · rfl
  · split
    · rfl
    · split
      · split
        · rfl
        · split
          · rfl
          · rw [updateRequestBodyBuffer_request _ _ _ (by simp [push])]
            rfl
      · rfl

theorem parseLoop_request (env : Env) (buffer : List Char) :
    ∀ (fuel : Nat) (c : HttpConnection) (pos : Nat),
      (parseLoop env buffer fuel c pos).request = c.request
        ∧ (parseLoop env buffer fuel c pos).hasActiveRequest = c.hasActiveRequest := by
  intro fuel
  induction fuel with
  | zero => intro c pos; exact ⟨rfl, rfl⟩
  | succ n ih =>
    intro c pos
    unfold parseLoop
    split
    · dsimp only
      have hk := keeps_parseRequest env c buffer pos
      have hr := parseRequest_request env c buffer pos
      split
      · exact ⟨hr, hk.2.2.1⟩
      · split
        · exact ⟨hr, hk.2.2.1⟩
        · obtain ⟨i1, i2⟩ := ih (parseRequest env c buffer pos).1 (parseRequest env c buffer pos).2.1
          exact ⟨i1.trans hr, i2.trans hk.2.2.1⟩
    · exact ⟨rfl, rfl⟩

theorem parseLoop_at_end (env : Env) (buffer : List Char) (fuel : Nat) (c : HttpConnection)
    (pos : Nat) (h : buffer.length ≤ pos) : parseLoop env buffer fuel c pos = c := by
  cases fuel with
  | zero => rfl
  | succ n =>
    unfold parseLoop
    rw [if_neg (by omega)]

/-- One read while body bytes are missing: the bytes up to the declared length reach the
request, in the phase it is in. -/
theorem bodyState_read (env : Env) (c : HttpConnection) (L : Nat) (body data : List Char)
    (registered : Bool) (h : BodyState c L body registered) (hlt : body.length < L)
    (hd : data.length < 4294967296) :
    BodyState (handleData env c data) L (body ++ data.take (L - body.length)) registered := by
  obtain ⟨r, hr, hp, ha, hw⟩ := h
  obtain ⟨hq, hb, hn⟩ := hw hlt
  unfold handleData
  dsimp only
  rw [hb, List.nil_append]
  have h1 := agree_stopTimers { c with headerBuffer := [], needMoreDataToParseHeaders := false }
  generalize stopRequestTimer (stopKeepAliveTimer
    { c with headerBuffer := [], needMoreDataToParseHeaders := false }) = d at h1 ⊢
  obtain ⟨d1, d2, d3, d4, d5, _⟩ := h1
  simp only at d1 d2 d3 d4 d5
  rw [d4, hn, if_pos rfl]
  obtain ⟨r', u1, u2, u3, u4, u5, u6, u7⟩ := updateRequestBodyBuffer_active
    { d with needMoreDataToGetBody := false } data r L body registered
    (by simp [d1, hr]) (by simp [d2, hq]) hp hlt hd
  generalize updateRequestBodyBuffer { d with needMoreDataToGetBody := false } data 0 = u at *
  simp only at u4 u5
  have hloop := parseLoop_request env data data.length u.1 u.2
  have hend : body.length + data.length < L → parseLoop env data data.length u.1 u.2 = u.1 := by
    intro hlt'
    apply parseLoop_at_end
    rw [u6]; omega
  generalize parseLoop env data data.length u.1 u.2 = p at *
  have hpa : p.hasActiveRequest = true := by rw [hloop.2, u4, d3, ha]
  have hproc : processNextRequest env p = p := by simp [processNextRequest, hpa]
  rw [hproc]
  have h5 : Agree p (if (isRequestLimitExceeded p && !p.needMoreDataToGetBody) = true
      then emit p .stop else p) := by
    split
    · exact agree_emit _ _
    · simp [Agree]
  generalize (if (isRequestLimitExceeded p && !p.needMoreDataToGetBody) = true
      then emit p .stop else p) = q at *
  have h6 : Agree q (if (q.needMoreDataToGetBody || q.needMoreDataToParseHeaders) = true
      then startRequestTimer q else q) := by
    split
    · exact agree_startRequestTimer _
    · simp [Agree]
  generalize (if (q.needMoreDataToGetBody || q.needMoreDataToParseHeaders) = true
      then startRequestTimer q else q) = w at *
  obtain ⟨q1, q2, q3, q4, q5, _⟩ := h5
  obtain ⟨w1, w2, w3, w4, w5, _⟩ := h6
  refine ⟨r', ?_, u2, ?_, ?_⟩
  · rw [w1, q1, hloop.1, u1]
  · rw [w3, q3, hpa]
  · intro hlt2
    have hlt' : body.length + data.length < L := by
      simp only [List.length_append, List.length_take] at hlt2
      omega
    have hp' := hend hlt'
    subst hp'
    refine ⟨?_, ?_, ?_⟩
    · rw [w2, q2, u3]
    · rw [w5, q5, u5, d5]
    · rw [w4, q4, u7 hlt']

theorem plain_packHeaders :
    ∀ (hs : List phr_header) (name : String) (r : Request), Plain r →
      Plain (packHeaders hs name r) := by
  intro hs
  induction hs with
  | nil => intro name r h; exact h
  | cons x rest ih =>
    intro name r h
    unfold packHeaders
    split
    · exact ih _ _ h
    · exact ih _ _ (by simpa [Plain, Request.appendHeader] using h)
    · split
      · exact ih _ _ (by simpa [Plain, Request.appendHeader] using h)
      · exact ih _ _ h
    · exact ih _ _ h

/-- What `Request::prepare` changes when it returns: the three derived path fields. -/
theorem Request.prepare_some (inverted : Option String) (r r' : Request)
    (h : Request.prepare inverted r = some r') :
    ∃ p q a, r' = { r with pathWithoutQueryString := p, queryString := q, anchor := a } := by
  unfold Request.prepare at h
  dsimp only at h
  split_ifs at h
  · cases h; exact ⟨_, _, _, rfl⟩
  · cases h; exact ⟨_, _, _, rfl⟩
  · cases h; exact ⟨_, _, _, rfl⟩
  · cases inverted with
    | none => cases h
    | some x => cases h; exact ⟨_, _, _, rfl⟩
  · cases h; exact ⟨_, _, _, rfl⟩

/-- What the constructor of `Request` makes when it returns. -/
theorem Request.new_some (method : HttpMethod) (path : String) (minorVersion : Nat)
    (r : Request) (h : Request.new method path minorVersion = some r) :
    ∃ p q a, r = { method := method, path := path, minorVersion := minorVersion
                   pathWithoutQueryString := p, queryString := q, anchor := a } := by
  unfold Request.new at h
  exact Request.prepare_some none _ r h

theorem createRequest_some (hs : List phr_header) (path : String) (method : HttpMethod)
    (minorVersion : Nat) (req0 : Request)
    (h : createRequest hs path method minorVersion = some req0) :
    ∃ r, Request.new method path minorVersion = some r ∧ req0 = packHeaders hs "" r := by
  unfold createRequest at h
  cases hn : Request.new method path minorVersion with
  | none => rw [hn] at h; cases h
  | some r =>
    rw [hn] at h
    cases h
    exact ⟨r, rfl, rfl⟩

theorem plain_createRequest (hs : List phr_header) (path : String) (method : HttpMethod)
    (minorVersion : Nat) (req0 : Request)
    (h : createRequest hs path method minorVersion = some req0) : Plain req0 := by
  obtain ⟨r, hn, rfl⟩ := createRequest_some hs path method minorVersion req0 h
  obtain ⟨p, q, a, rfl⟩ := Request.new_some method path minorVersion r hn
  apply plain_packHeaders
  simp [Plain]

theorem bodyPhase_first (L : Nat) (data : List Char) (r : Request) (h : Plain r)
    (hL : L < 4294967296) (hd : data.length ≤ L) :
    BodyPhase L data false
      (if data.length = L then
        ({ r with contentLength := L } : Request).handleData data |>.handleDataEnd
       else ({ r with contentLength := L } : Request).handleData data) := by
  obtain ⟨h1, h2, h3, h4, h5, h6, h7, h8⟩ := h
  rw [Request.handleData_alive _ data (by simpa using h1)]
  have hu : u32 (0 + data.length) = data.length := by
    rw [Nat.zero_add]; exact u32_of_lt (by omega)
  simp only [h2, h7, hu, h6, Bool.false_eq_true, if_false, Bool.false_or]
  by_cases hc : data.length = L
  · rw [if_pos hc]
    unfold Request.handleDataEnd
    simp only [h1, h3, Bool.not_true, Bool.false_eq_true, if_false]
    refine ⟨rfl, rfl, hL, hd, rfl, ?_⟩
    rw [if_neg (by simp)]
    refine ⟨rfl, rfl, h4, ?_, ?_⟩
    · show r.bodyBuffer ++ data = data
      rw [h5]; rfl
    · show decide (L ≤ data.length) = decide (L ≤ data.length)
      rfl
  · rw [if_neg hc]
    refine ⟨h1, rfl, hL, hd, rfl, ?_⟩
    rw [if_neg (by simp)]
    refine ⟨rfl, h3, h4, ?_, ?_⟩
    · show r.bodyBuffer ++ data = data
      rw [h5]; rfl
    · rfl

theorem toU32_natCast {n : Nat} (h : n < 4294967296) : toU32 (n : Int) = n := by
  unfold toU32
  have h2 : ((n : Int) % 4294967296) = (n : Int) := by
    apply Int.emod_eq_of_lt <;> omega
  rw [h2]
  simp

theorem parseRequest_with_body (env : Env) (c : HttpConnection) (first : List Char) (n : Nat)
    (m path : String) (v : Nat) (hs : List phr_header) (meth : HttpMethod) (s : String) (L : Nat)
    (req0 : Request)
    (hq : c.requestQueue = [])
    (hparse : env.phr_parse_request first = .complete n m path v hs)
    (hmethod : parseMethod m = some meth) (hv : v = 0 ∨ v = 1)
    (hpath : path.length ≤ c.config.maxPathLength)
    (hreq : createRequest hs path meth v = some req0)
    (hcl : HeaderMapping.index req0.headers "Content-Length" = .str s)
    (hst : stoll s = some (L : Int)) (hL : L ≤ c.config.maxRequestBodyLength)
    (hn : n ≤ first.length) (hsize : first.length + L < 4294967296) :
    ∃ r', (parseRequest env c first 0).1.requestQueue = [r']
      ∧ BodyPhase L ((first.drop n).take L) false r' ∧ r'.requestError = 0
      ∧ (parseRequest env c first 0).2.2 = false
      ∧ (parseRequest env c first 0).2.1 = n + min L (first.length - n)
      ∧ (parseRequest env c first 0).1.request = c.request
      ∧ (parseRequest env c first 0).1.hasActiveRequest = c.hasActiveRequest
      ∧ (parseRequest env c first 0).1.headerBuffer = c.headerBuffer
      ∧ (first.length - n < L →
          (parseRequest env c first 0).1.needMoreDataToGetBody = true) := by
  have hv' : u32 v = v := u32_of_lt (by omega)
  have hn' : u32 n = n := u32_of_lt (by omega)
  have hlen : toU32 ((first.length : Int) - ((0 : Nat) : Int)) = first.length := by
    simp only [Nat.cast_zero, sub_zero]
    exact toU32_natCast (by omega)
  have hph : parseHeaders env first 0 (toU32 ((first.length : Int) - ((0 : Nat) : Int)))
      = .parsed hs path meth v n := by
    unfold parseHeaders
    rw [hlen]
    simp only [List.drop_zero, List.take_length, hparse, hmethod, hv', hn']
    rcases hv with h0 | h1
    · simp [h0]
    · simp [h1]
  have hplain := plain_createRequest hs path meth v req0 hreq
  have hcl0 : subU32 L 0 = L := by
    rw [subU32_of_le (Nat.zero_le _) (by omega)]; rfl
  have hslice : slice first n (min (u32 (n + L)) (u32 first.length)) = (first.drop n).take L := by
    rw [u32_of_lt (by omega : n + L < 4294967296), u32_of_lt (by omega : first.length < 4294967296)]
    unfold slice
    apply List.ext_getElem
    · simp; omega
    · intro i h1 h2
      simp
  have htl : ((first.drop n).take L).length = min L (first.length - n) := by simp
  unfold parseRequest
  dsimp only
  rw [hph]
  dsimp only
  rw [Nat.zero_add, hn', hreq]
  dsimp only
  rw [if_neg (by omega), hcl]
  dsimp only
  rw [hst]
  dsimp only
  rw [toU32_natCast (by omega), if_neg (by omega)]
  unfold updateRequestBodyBuffer
  have hbt : bodyTarget (push { c with requestsAccepted := u32 (c.requestsAccepted + 1) }
      { req0 with contentLength := L })
      = some { req0 with contentLength := L, id := c.created } := by
    simp [bodyTarget, push, hq]
  rw [hbt]
  dsimp only
  obtain ⟨p1, p2, p3, p4, p5, p6, p7, p8⟩ := hplain
  rw [p7, hcl0, hslice, htl]
  have hpl : Plain ({ req0 with id := c.created } : Request) :=
    ⟨p1, p2, p3, p4, p5, p6, p7, p8⟩
  have hbp := bodyPhase_first L ((first.drop n).take L)
    { req0 with id := c.created } hpl (by omega) (by simp)
  rw [htl] at hbp
  have hu : u32 (n + min L (first.length - n)) = n + min L (first.length - n) :=
    u32_of_lt (by omega)
  by_cases hc : min L (first.length - n) = L
  · rw [if_pos hc] at hbp ⊢
    refine ⟨_, ?_, hbp, ?_, rfl, hu, ?_, ?_, ?_, ?_⟩
    · simp only [setBodyTarget, push, hq, List.nil_append, List.isEmpty_cons, Bool.false_eq_true,
        if_false, List.dropLast_single]
      rw [p7]
    · simp [Request.handleDataEnd, Request.handleData_alive, p1, p2, p3, p8]
    · simp [setBodyTarget, push, hq]
    · simp [setBodyTarget, push, hq]
    · simp [setBodyTarget, push, hq]
    · intro hlt; omega
  · rw [if_neg hc] at hbp ⊢
    refine ⟨_, ?_, hbp, ?_, rfl, hu, ?_, ?_, ?_, ?_⟩
    · simp only [setBodyTarget, push, hq, List.nil_append, List.isEmpty_cons, Bool.false_eq_true,
        if_false, List.dropLast_single]
      rw [p7]
    · simp [Request.handleData_alive, p1, p2, p8]
    · simp [setBodyTarget, push, hq]
    · simp [setBodyTarget, push, hq]
    · simp [setBodyTarget, push, hq]
    · intro _; simp [setBodyTarget, push, hq]

theorem push_queue (c : HttpConnection) (x : Request) :
    (push c x).requestQueue = c.requestQueue ++ [{ x with id := c.created }] := rfl

theorem updateRequestBodyBuffer_head (c : HttpConnection) (buffer : List Char) (pos : Nat)
    (r x : Request) (q : List Request) (h : c.requestQueue = r :: (q ++ [x])) :
    ∃ more, (updateRequestBodyBuffer c buffer pos).1.requestQueue = r :: more := by
  have hd : c.requestQueue.dropLast = r :: q := by
    rw [h, ← List.cons_append, List.dropLast_concat]
  have he : c.requestQueue.isEmpty = false := by rw [h]; rfl
  unfold updateRequestBodyBuffer
  split
  · exact ⟨_, h⟩
  · dsimp only
    split
    · constructor
      simp only [setBodyTarget, he, Bool.false_eq_true, if_false]
      rw [hd]
      rfl
    · constructor
      simp only [setBodyTarget, he, Bool.false_eq_true, if_false]
      rw [hd]
      rfl

theorem parseRequest_head (env : Env) (c : HttpConnection) (buffer : List Char) (pos : Nat)
    (r : Request) (rest : List Request) (h : c.requestQueue = r :: rest) :
    ∃ more, (parseRequest env c buffer pos).1.requestQueue = r :: more := by
  have hp : ∀ x : Request, ∃ more,
      (push { c with requestsAccepted := u32 (c.requestsAccepted + 1) } x).requestQueue
        = r :: more := by
    intro x
    constructor
    rw [push_queue]
    simp only [h]
    rfl
  unfold parseRequest
  dsimp only
  split
  · exact hp _
  · exact hp _
  · split
    · exact ⟨rest, h⟩
    · exact ⟨rest, h⟩
  · exact hp _
  · exact hp _
  · split
    · exact ⟨rest, h⟩
    · split
      · split
        · exact hp _
        · split
          · exact hp _
          · exact updateRequestBodyBuffer_head _ _ _ r _ rest
              (by rw [push_queue]; simp only [h]; rfl)
      · exact hp _

theorem parseLoop_head (env : Env) (buffer : List Char) :
    ∀ (fuel : Nat) (c : HttpConnection) (pos : Nat) (r : Request) (rest : List Request),
      c.requestQueue = r :: rest →
      ∃ more, (parseLoop env buffer fuel c pos).requestQueue = r :: more := by
  intro fuel
  induction fuel with
  | zero => intro c pos r rest h; exact ⟨rest, h⟩
  | succ n ih =>
    intro c pos r rest h
    unfold parseLoop
    split
    · dsimp only
      obtain ⟨more, hm⟩ := parseRequest_head env c buffer pos r rest h
      split
      · exact ⟨more, by simpa [emit] using hm⟩
      · split
        · exact ⟨more, hm⟩
        · exact ih _ _ r more hm
    · exact ⟨rest, h⟩

theorem agree_startResponseTimer (c : HttpConnection) : Agree c (startResponseTimer c) := by
  unfold startResponseTimer
  split <;> simp [Agree, emit]

/-- The read that carries the header block of a request with a declared body length, on an
idle connection: the request is dispatched with the body bytes of that read buffered. -/
theorem bodyState_first_read (env : Env) (c : HttpConnection) (first : List Char) (n : Nat)
    (m path : String) (v : Nat) (hs : List phr_header) (meth : HttpMethod) (s : String) (L : Nat)
    (req0 : Request)
    (hidle : Idle c)
    (hparse : env.phr_parse_request first = .complete n m path v hs)
    (hmethod : parseMethod m = some meth) (hv : v = 0 ∨ v = 1)
    (hpath : path.length ≤ c.config.maxPathLength)
    (hreq : createRequest hs path meth v = some req0)
    (hcl : HeaderMapping.index req0.headers "Content-Length" = .str s)
    (hst : stoll s = some (L : Int)) (hL : L ≤ c.config.maxRequestBodyLength)
    (h0 : 0 < n) (hn : n ≤ first.length) (hsize : first.length + L < 4294967296) :
    BodyState (handleData env c first) L ((first.drop n).take L) false := by
  obtain ⟨i1, i2, i3, i4, i5⟩ := hidle
  unfold handleData
  dsimp only
  rw [i4, List.nil_append]
  have h1 := agree_stopTimers { c with headerBuffer := [], needMoreDataToParseHeaders := false }
  generalize stopRequestTimer (stopKeepAliveTimer
    { c with headerBuffer := [], needMoreDataToParseHeaders := false }) = d at h1 ⊢
  obtain ⟨d1, d2, d3, d4, d5, d6⟩ := h1
  simp only at d1 d2 d3 d4 d5 d6
  rw [d4, i5]
  simp only [Bool.false_eq_true, if_false]
  obtain ⟨r', u1, u2, u3, u4, u5, u6, u7, u8, u9⟩ := parseRequest_with_body env d first n m path v
    hs meth s L req0 (by rw [d2, i2]) hparse hmethod hv (by rw [d6]; exact hpath) hreq hcl hst
    (by rw [d6]; exact hL) hn hsize
  obtain ⟨k, hk⟩ : ∃ k, first.length = k + 1 := ⟨first.length - 1, by omega⟩
  have hloop : ∃ p more, parseLoop env first first.length d 0 = p
      ∧ p.requestQueue = r' :: more ∧ p.request = none ∧ p.hasActiveRequest = false
      ∧ (first.length - n < L →
          more = [] ∧ p.headerBuffer = [] ∧ p.needMoreDataToGetBody = true) := by
    rw [hk]
    unfold parseLoop
    rw [if_pos (by omega)]
    dsimp only
    rw [u4, if_neg (by simp)]
    split
    · refine ⟨_, [], rfl, u1, ?_, ?_, ?_⟩
      · rw [u6, d1, i1]
      · rw [u7, d3, i3]
      · intro hlt
        exact ⟨rfl, by rw [u8, d5], u9 (by omega)⟩
    · obtain ⟨more, hm⟩ := parseLoop_head env first k (parseRequest env d first 0).1
        (parseRequest env d first 0).2.1 r' [] u1
      have hr := parseLoop_request env first k (parseRequest env d first 0).1
        (parseRequest env d first 0).2.1
      refine ⟨_, more, rfl, hm, ?_, ?_, ?_⟩
      · rw [hr.1, u6, d1, i1]
      · rw [hr.2, u7, d3, i3]
      · intro hlt
        have hend := parseLoop_at_end env first k (parseRequest env d first 0).1
          (parseRequest env d first 0).2.1 (by rw [u5]; omega)
        rw [hend] at hm ⊢
        rw [u1] at hm
        refine ⟨?_, by rw [u8, d5], u9 (by omega)⟩
        simpa using hm.symm
  obtain ⟨p, more, hp, p1, p2, p3, p4⟩ := hloop
  rw [hp]
  have hproc : processNextRequest env p
      = emit (startResponseTimer
          { p with request := some r', requestQueue := more
                   response := some (createResponse env p r'), hasActiveRequest := true
                   dispatched := p.dispatched ++ [r'.id] }) (.process r') := by
    unfold processNextRequest
    rw [p3, if_neg (by simp), p1]
    unfold processQueue
    dsimp only
    rw [if_neg (by simp [u3])]
  rw [hproc]
  have h4 := Agree.chain (agree_startResponseTimer
      { p with request := some r', requestQueue := more
               response := some (createResponse env p r'), hasActiveRequest := true
               dispatched := p.dispatched ++ [r'.id] }) (agree_emit _ (.process r'))
  generalize emit (startResponseTimer
      { p with request := some r', requestQueue := more
               response := some (createResponse env p r'), hasActiveRequest := true
               dispatched := p.dispatched ++ [r'.id] }) (.process r') = q0 at *
  have h5 : Agree q0 (if (isRequestLimitExceeded q0 && !q0.needMoreDataToGetBody) = true
      then emit q0 .stop else q0) := by
    split
    · exact agree_emit _ _
    · simp [Agree]
  generalize (if (isRequestLimitExceeded q0 && !q0.needMoreDataToGetBody) = true
      then emit q0 .stop else q0) = q at *
  have h6 : Agree q (if (q.needMoreDataToGetBody || q.needMoreDataToParseHeaders) = true
      then startRequestTimer q else q) := by
    split
    · exact agree_startRequestTimer _
    · simp [Agree]
  generalize (if (q.needMoreDataToGetBody || q.needMoreDataToParseHeaders) = true
      then startRequestTimer q else q) = w at *
  obtain ⟨a1, a2, a3, a4, a5, _⟩ := h4
  obtain ⟨q1, q2, q3, q4, q5, _⟩ := h5
  obtain ⟨w1, w2, w3, w4, w5, _⟩ := h6
  simp only at a1 a2 a3 a4 a5
  refine ⟨r', ?_, u2, ?_, ?_⟩
  · rw [w1, q1, a1]
  · rw [w3, q3, a3]
  · intro hlt
    have hlt' : first.length - n < L := by
      simp only [List.length_take, List.length_drop] at hlt
      omega
    obtain ⟨m1, m2, m3⟩ := p4 hlt'
    refine ⟨?_, ?_, ?_⟩
    · rw [w2, q2, a2, m1]
    · rw [w5, q5, a5, m2]
    · rw [w4, q4, a4, m3]

theorem bodyState_register (env : Env) (c : HttpConnection) (L : Nat) (body : List Char)
    (dataFirst : Bool) (h : BodyState c L body false) :
    BodyState (run env c (registerCallbacks dataFirst)) L body true := by
  obtain ⟨r, hr, hp, ha, hw⟩ := h
  have hreg := bodyPhase_register L body r dataFirst hp
  cases dataFirst with
  | true =>
    refine ⟨r.onData.onDataEnd, ?_, by simpa using hreg, ?_, ?_⟩
    · simp [run, registerCallbacks, step, hr]
    · simpa [run, registerCallbacks, step] using ha
    · simpa [run, registerCallbacks, step] using hw
  | false =>
    refine ⟨r.onDataEnd.onData, ?_, by simpa using hreg, ?_, ?_⟩
    · simp [run, registerCallbacks, step, hr]
    · simpa [run, registerCallbacks, step] using ha
    · simpa [run, registerCallbacks, step] using hw

theorem run_append (env : Env) (c : HttpConnection) (xs ys : List Event) :
    run env c (xs ++ ys) = run env (run env c xs) ys := by
  simp [run, List.foldl_append]

theorem take_take_append (L : Nat) (x y : List Char) :
    ((x.take L) ++ y).take L = (x ++ y).take L := by
  rw [List.take_append_eq_append_take, List.take_append_eq_append_take, List.take_take]
  simp only [Nat.min_self, List.length_take]
  by_cases h : L ≤ x.length
  · have h1 : min L x.length = L := by omega
    simp [h1, Nat.sub_eq_zero_of_le h]
  · have h1 : min L x.length = x.length := by omega
    rw [h1]

theorem bodyState_reads (env : Env) (L : Nat) (registered : Bool) :
    ∀ (reads : List (List Char)) (c : HttpConnection) (body : List Char),
      BodyState c L body registered →
      (∀ r ∈ reads, r.length < 4294967296) →
      (∀ i, i < reads.length → body.length + (reads.take i).flatten.length < L) →
      BodyState (run env c (reads.map Event.data)) L ((body ++ reads.flatten).take L) registered := by
  intro reads
  induction reads with
  | nil =>
    intro c body h _ _
    obtain ⟨r, hr, hp, ha, hw⟩ := h
    have hle : body.length ≤ L := hp.2.2.2.1
    have : (body ++ ([] : List (List Char)).flatten).take L = body := by
      simp [List.take_of_length_le hle]
    rw [this]
    exact ⟨r, hr, hp, ha, hw⟩
  | cons x rest ih =>
    intro c body h hsz hfrag
    have hlt : body.length < L := by simpa using hfrag 0 (by simp)
    have hstep := bodyState_read env c L body x registered h hlt (hsz x (List.mem_cons_self _ _))
    have hrun : run env c ((x :: rest).map Event.data)
        = run env (handleData env c x) (rest.map Event.data) := by
      simp [run, step]
    rw [hrun]
    cases rest with
    | nil =>
      have : (body ++ [x].flatten).take L = body ++ x.take (L - body.length) := by
        simp [List.take_append_eq_append_take, List.take_of_length_le (Nat.le_of_lt hlt)]
      rw [this]
      simpa [run] using hstep
    | cons y rest' =>
      have h1 : body.length + x.length < L := by
        have := hfrag 1 (by simp)
        simpa using this
      have hx : x.take (L - body.length) = x := List.take_of_length_le (by omega)
      rw [hx] at hstep
      have := ih (handleData env c x) (body ++ x) hstep
        (fun r hr => hsz r (List.mem_cons_of_mem _ hr))
        (fun i hi => by
          have := hfrag (i + 1) (by simpa using hi)
          simp only [List.take_succ_cons, List.flatten_cons, List.length_append] at this ⊢
          omega)
      simpa [List.append_assoc] using this

theorem idle_new (config : HttpServerConfig) : Idle (HttpConnection.new config) := by
  unfold HttpConnection.new startKeepAliveTimer
  split <;> simp [Idle, emit]

/-- A request with declared body length `L` arrives on an idle connection; its body bytes
come with the header block and in the reads `before` and `after`, each of which starts while
bytes are missing, and the middleware registers its data and data-end callbacks, one right
after the other, between `before` and `after`. Then the chunks handed to the data callback up
to the first data-end notification are, concatenated, the first `L` body bytes, and the
data-end callback has been invoked exactly if `L` bytes have arrived. -/
theorem body_delivery (env : Env) (c : HttpConnection) (first : List Char) (n : Nat)
    (m path : String) (v : Nat) (hs : List phr_header) (meth : HttpMethod) (s : String) (L : Nat)
    (before after : List (List Char)) (dataFirst : Bool) (req0 : Request)
    (hidle : Idle c)
    (hparse : env.phr_parse_request first = .complete n m path v hs)
    (hmethod : parseMethod m = some meth) (hv : v = 0 ∨ v = 1)
    (hpath : path.length ≤ c.config.maxPathLength)
    (hreq : createRequest hs path meth v = some req0)
    (hcl : HeaderMapping.index req0.headers "Content-Length" = .str s)
    (hst : stoll s = some (L : Int)) (hL : L ≤ c.config.maxRequestBodyLength)
    (h0 : 0 < n) (hn : n ≤ first.length) (hsize : first.length + L < 4294967296)
    (hreads : ∀ r ∈ before ++ after, r.length < 4294967296)
    (hfrag : ∀ i, i < (before ++ after).length →
      (first.drop n).length + ((before ++ after).take i).flatten.length < L) :
    ∃ r, (run env c ([Event.data first] ++ before.map Event.data ++ registerCallbacks dataFirst
            ++ after.map Event.data)).request = some r
      ∧ deliveredBeforeEnd r.callbackLog = (first.drop n ++ (before ++ after).flatten).take L
      ∧ (BodyEvent.dataEnd ∈ r.callbackLog
          ↔ L ≤ (first.drop n ++ (before ++ after).flatten).length) := by
  have s1 := bodyState_first_read env c first n m path v hs meth s L req0 hidle hparse hmethod
    hv hpath hreq hcl hst hL h0 hn hsize
  have hb0 : ((first.drop n).take L).length ≤ (first.drop n).length := by
    simp
  have s2 := bodyState_reads env L false before (handleData env c first) ((first.drop n).take L)
    s1 (fun r hr => hreads r (List.mem_append_left _ hr))
    (fun i hi => by
      have := hfrag i (by simp; omega)
      rw [List.take_append_of_le_length (by omega)] at this
      omega)
  have s3 := bodyState_register env _ L _ dataFirst s2
  have hb2 : (((first.drop n).take L ++ before.flatten).take L).length
      ≤ (first.drop n).length + before.flatten.length := by
    simp only [List.length_take, List.length_append, List.length_drop]
    omega
  have s4 := bodyState_reads env L true after _ _ s3
    (fun r hr => hreads r (List.mem_append_right _ hr))
    (fun i hi => by
      have := hfrag (before.length + i) (by simp; omega)
      rw [List.take_append, List.flatten_append, List.length_append] at this
      omega)
  rw [take_take_append, List.append_assoc, take_take_append, ← List.flatten_append] at s4
  have hrun : run env c ([Event.data first] ++ before.map Event.data
      ++ registerCallbacks dataFirst ++ after.map Event.data)
      = run env (run env (run env (handleData env c first) (before.map Event.data))
          (registerCallbacks dataFirst)) (after.map Event.data) := by
    rw [run_append, run_append, run_append]
    rfl
  rw [hrun]
  obtain ⟨r, hr, hp, _, _⟩ := s4
  obtain ⟨_, _, _, _, _, h6⟩ := hp
  rw [if_pos rfl] at h6
  refine ⟨r, hr, h6.1, ?_⟩
  rw [h6.2.1]
  simp only [List.length_take]
  omega

theorem body_delivery_witness :
    ∃ r, (run demoEnv (HttpConnection.new {})
            ([Event.data "POST /u HTTP/1.1\r\nContent-Length: 5\r\n\r\nab".toList]
              ++ ["c".toList].map Event.data ++ registerCallbacks true
              ++ ["deGET /next HTTP/1.1\r\n\r\n".toList].map Event.data)).request = some r
      ∧ deliveredBeforeEnd r.callbackLog
          = (("POST /u HTTP/1.1\r\nContent-Length: 5\r\n\r\nab".toList).drop 39
              ++ (["c".toList] ++ ["deGET /next HTTP/1.1\r\n\r\n".toList]).flatten).take 5
      ∧ (BodyEvent.dataEnd ∈ r.callbackLog
          ↔ 5 ≤ (("POST /u HTTP/1.1\r\nContent-Length: 5\r\n\r\nab".toList).drop 39
              ++ (["c".toList] ++ ["deGET /next HTTP/1.1\r\n\r\n".toList]).flatten).length) :=
  body_delivery demoEnv (HttpConnection.new {})
    "POST /u HTTP/1.1\r\nContent-Length: 5\r\n\r\nab".toList 39 "POST" "/u" 1
    [⟨some "Content-Length", some "5"⟩] .POST "5" 5 ["c".toList]
    ["deGET /next HTTP/1.1\r\n\r\n".toList] true
    ((createRequest [⟨some "Content-Length", some "5"⟩] "/u" .POST 1).getD {})
    (idle_new {}) (by decide) (by decide) (by decide) (by decide) (by decide) (by decide)
    (by decide) (by decide) (by decide) (by decide) (by decide)
    (by intro r hr; simp at hr; rcases hr with h | h <;> subst h <;> decide)
    (by
      intro i hi
      have hi' : i < 2 := by simpa using hi
      interval_cases i <;> decide)

/-- C4: a request with `Content-Length: 2` arrives with the first body byte; the middleware
registers its data-end callback, the second body byte arrives, and the middleware registers its
data callback. `Request::handleData` keeps the second byte in the body buffer, as no data
callback is registered, and `Request::handleDataEnd` then invokes the data-end callback
although the two bytes are still in the buffer: the data-end notification comes first and the
two bytes are handed to the data callback after it, so that nothing was delivered up to the
first data-end notification. This holds of every living request that has a data-end callback
and no data callback when the last body bytes arrive. `Request::onDataEnd` itself does not
invoke the callback while the buffer holds bytes. When both callbacks are registered before
the second byte arrives, the two bytes are delivered before the first data-end notification. -/
theorem data_end_before_buffered_body :
    ((run demoEnv (HttpConnection.new {})
        [.data "POST /a HTTP/1.1\r\nContent-Length: 2\r\n\r\na".toList, .reqOnDataEnd]).request.map
          (fun r => (r.contentLength, r.bodyOctetsReceived, r.callbackLog, r.bodyBuffer))
      = some (2, 1, [], "a".toList))
    ∧ ((run demoEnv (HttpConnection.new {})
        [.data "POST /a HTTP/1.1\r\nContent-Length: 2\r\n\r\na".toList, .reqOnDataEnd,
         .data "b".toList]).request.map
          (fun r => (r.bodyOctetsReceived, r.callbackLog, r.bodyBuffer))
      = some (2, [BodyEvent.dataEnd], "ab".toList))
    ∧ ((run demoEnv (HttpConnection.new {})
        [.data "POST /a HTTP/1.1\r\nContent-Length: 2\r\n\r\na".toList, .reqOnDataEnd,
         .data "b".toList, .reqOnData]).request.map
          (fun r => (r.callbackLog, deliveredBeforeEnd r.callbackLog, r.bodyBuffer))
      = some ([BodyEvent.dataEnd, BodyEvent.data "ab".toList], [], []))
    ∧ (∀ (r : Request) (data : List Char),
        r.isAlive = true → r.onDataCallback = false → r.onDataEndCallback = true →
        ((r.handleData data).handleDataEnd).callbackLog = r.callbackLog ++ [BodyEvent.dataEnd]
          ∧ ((r.handleData data).handleDataEnd).bodyBuffer = r.bodyBuffer ++ data
          ∧ ((r.handleData data).handleDataEnd).onDataEndCallback = false)
    ∧ (∀ r : Request, r.bodyBuffer ≠ [] → r.onDataEnd.callbackLog = r.callbackLog)
    ∧ ((run demoEnv (HttpConnection.new {})
        [.data "POST /a HTTP/1.1\r\nContent-Length: 2\r\n\r\na".toList, .reqOnDataEnd, .reqOnData,
         .data "b".toList]).request.map
          (fun r => (r.callbackLog, deliveredBeforeEnd r.callbackLog))
      = some ([BodyEvent.data "a".toList, BodyEvent.data "b".toList, BodyEvent.dataEnd,
          BodyEvent.dataEnd], "ab".toList)) := by
  refine ⟨by decide, by decide, by decide, ?_, ?_, by decide⟩
  · intro r data halive hdata hend
    simp [Request.handleData, Request.handleDataEnd, halive, hdata, hend]
    split <;> simp [hend]
  · intro r hbuf
    unfold Request.onDataEnd
    dsimp only
    have : r.bodyBuffer.isEmpty = false := by
      cases h : r.bodyBuffer with
      | nil => exact absurd h hbuf
      | cons x xs => rfl
    rw [this]
    simp

/-! ## Parse-level errors -/

theorem parseLoop_throw (env : Env) (buffer : List Char) (fuel : Nat) (c : HttpConnection)
    (pos : Nat) (hpos : pos < buffer.length) (h : (parseRequest env c buffer pos).2.2 = true) :
    parseLoop env buffer (fuel + 1) c pos = emit (parseRequest env c buffer pos).1 .stop := by
  unfold parseLoop
  rw [if_pos hpos]
  dsimp only
  rw [if_pos h]

/-- C5: in `parseRequest`, a request the header parser reports as malformed is answered by
enqueueing one synthesized request with error status 400; a complete header block whose method
token is not a known method by one with status 405; one with a known method and a minor
version other than 0 and 1 by one with status 505. In each case nothing else is enqueued,
`bufferPosition` stays where it was, `parseRequest` leaves by `throw`, and the loop of
`handleData` calls `client.stop()` and ends without parsing again. -/
theorem parse_error_mapping (env : Env) (c : HttpConnection) (buffer : List Char)
    (pos fuel : Nat) (hpos : pos < buffer.length) :
    (env.phr_parse_request (parserInput buffer pos) = .malformed →
        parseRequest env c buffer pos = (push (counted c) (createErrorRequest 400 1), pos, true)
        ∧ (createErrorRequest 400 1).requestError = 400)
    ∧ (∀ n m p v hs, env.phr_parse_request (parserInput buffer pos) = .complete n m p v hs →
        parseMethod m = none →
        parseRequest env c buffer pos
          = (push (counted c) (createErrorRequest 405 (u32 v)), pos, true)
        ∧ (createErrorRequest 405 (u32 v)).requestError = 405)
    ∧ (∀ n m p v hs meth, env.phr_parse_request (parserInput buffer pos) = .complete n m p v hs →
        parseMethod m = some meth → u32 v ≠ 0 → u32 v ≠ 1 →
        parseRequest env c buffer pos = (push (counted c) (createErrorRequest 505 1), pos, true)
        ∧ (createErrorRequest 505 1).requestError = 505)
    ∧ (∀ r : Request, (push (counted c) r).requestQueue
        = c.requestQueue ++ [{ r with id := c.created }])
    ∧ ((parseRequest env c buffer pos).2.2 = true →
        parseLoop env buffer (fuel + 1) c pos = emit (parseRequest env c buffer pos).1 .stop) := by
  refine ⟨?_, ?_, ?_, ?_, ?_⟩
  · intro h
    refine ⟨?_, rfl⟩
    have hp : parseHeaders env buffer pos (toU32 ((buffer.length : Int) - pos)) = .ParseError := by
      unfold parseHeaders
      unfold parserInput at h
      rw [h]
    unfold parseRequest
    dsimp only
    rw [hp]
    rfl
  · intro n m p v hs h hm
    refine ⟨?_, rfl⟩
    have hp : parseHeaders env buffer pos (toU32 ((buffer.length : Int) - pos))
        = .UnknownHTTPMethodError (u32 v) := by
      unfold parseHeaders
      unfold parserInput at h
      rw [h]
      dsimp only
      rw [hm]
    unfold parseRequest
    dsimp only
    rw [hp]
    rfl
  · intro n m p v hs meth h hm h0 h1
    refine ⟨?_, rfl⟩
    have hp : parseHeaders env buffer pos (toU32 ((buffer.length : Int) - pos))
        = .HttpVersionUnsupportedError := by
      unfold parseHeaders
      unfold parserInput at h
      rw [h]
      dsimp only
      rw [hm]
      dsimp only
      rw [if_pos ⟨h0, h1⟩]
    unfold parseRequest
    dsimp only
    rw [hp]
    rfl
  · intro r
    rfl
  · exact parseLoop_throw env buffer fuel c pos hpos

theorem parse_error_mapping_witness :
    parseRequest demoEnv (HttpConnection.new {}) "BREW /pot HTTP/1.1\r\n\r\nGET / HTTP/1.1\r\n\r\n".toList 0
      = (push (counted (HttpConnection.new {})) (createErrorRequest 405 (u32 1)), 0, true)
    ∧ (createErrorRequest 405 (u32 1)).requestError = 405 :=
  (parse_error_mapping demoEnv (HttpConnection.new {})
      "BREW /pot HTTP/1.1\r\n\r\nGET / HTTP/1.1\r\n\r\n".toList 0 0 (by decide)).2.1
    22 "BREW" "/pot" 1 [] (by decide) (by decide)

/-- A request line with the unknown method token `FOO` and minor version 2: the parser reports
a complete header block with minor version 2, `parseMethod` rejects the token, and the one
request `parseRequest` enqueues has error status 405, not 505. -/
theorem unknown_method_before_version :
    (∃ n hs, demoEnv.phr_parse_request (parserInput "FOO / HTTP/1.2\r\n\r\n".toList 0)
        = .complete n "FOO" "/" 2 hs)
    ∧ parseMethod "FOO" = none
    ∧ (parseRequest demoEnv (HttpConnection.new {}) "FOO / HTTP/1.2\r\n\r\n".toList 0).1.requestQueue.map
        Request.summary = [(405, .GET, "")]
    ∧ (parseRequest demoEnv (HttpConnection.new {}) "FOO / HTTP/1.2\r\n\r\n".toList 0).2.2 = true :=
  ⟨⟨18, [], by decide⟩, by decide, by decide, by decide⟩

/-! ## Requests with a parse or timeout error -/

theorem updateHeadersBeforeSending_fields (env : Env) (r : Response) :
    (Response.updateHeadersBeforeSending env r).statusCode = r.statusCode
      ∧ (Response.updateHeadersBeforeSending env r).minorVersion = r.minorVersion
      ∧ (Response.updateHeadersBeforeSending env r).isAlive = r.isAlive
      ∧ (Response.updateHeadersBeforeSending env r).headersSent = r.headersSent
      ∧ (Response.updateHeadersBeforeSending env r).isChunkedTransfer = r.isChunkedTransfer := by
  unfold Response.updateHeadersBeforeSending
  split
  · exact ⟨rfl, rfl, rfl, rfl, rfl⟩
  · exact ⟨rfl, rfl, rfl, rfl, rfl⟩

theorem headerBlock_statusLine (env : Env) (r : Response) :
    ∃ rest, headerBlock env r = statusLine env r.minorVersion r.statusCode ++ rest :=
  ⟨String.join (r.headers.map (fun e => headerLines e.1 e.2)) ++ CRLF, by
    unfold headerBlock
    rw [String.append_assoc]⟩

/-- Ending a live response whose headers are not sent: the header block goes out with the
status the response has, and the connection is told the exchange ended. -/
theorem endResponse_unsent (env : Env) (r : Response) (ha : r.isAlive = true)
    (hs : r.headersSent = false) :
    ∃ (r' : Response) (rest : String) (more : List String),
      Response.endResponse env r
        = (r', (statusLine env r.minorVersion r.statusCode ++ rest) :: more, true)
      ∧ r'.isAlive = false ∧ r'.statusCode = r.statusCode ∧ r'.headersSent = true
      ∧ (r.isChunkedTransfer = false → more = []) := by
  obtain ⟨u1, u2, u3, u4, u5⟩ :=
    updateHeadersBeforeSending_fields env { r with contentLength := some 0 }
  obtain ⟨rest, hrest⟩ := headerBlock_statusLine env
    (Response.updateHeadersBeforeSending env { r with contentLength := some 0 })
  rw [u1, u2] at hrest
  simp only at hrest u3 u4 u5
  unfold Response.endResponse
  rw [if_neg (by simp [ha]), if_pos (by simp [hs])]
  unfold Response.sendHeaders
  rw [if_neg (by simp [ha, hs])]
  dsimp only
  rw [hrest]
  refine ⟨_, rest, _, rfl, rfl, ?_, rfl, ?_⟩
  · show (Response.updateHeadersBeforeSending env { r with contentLength := some 0 }).statusCode
      = r.statusCode
    exact u1
  · intro hc
    rw [u5, hc]
    rfl

theorem endResponse_sent (env : Env) (r : Response) (ha : r.isAlive = true)
    (hs : r.headersSent = true) :
    Response.endResponse env r
      = (Response.invalidate r,
         if r.isChunkedTransfer then Response.writeInternal r "" else [], true) := by
  unfold Response.endResponse
  rw [if_neg (by simp [ha]), if_neg (by simp [hs])]
  simp only [hs, Bool.true_and, List.nil_append]

theorem setBasicHeaders_fields (env : Env) (cfg : HttpServerConfig) (r : Response) :
    (Response.setBasicHeaders env cfg r).statusCode = r.statusCode
      ∧ (Response.setBasicHeaders env cfg r).minorVersion = r.minorVersion
      ∧ (Response.setBasicHeaders env cfg r).isAlive = r.isAlive
      ∧ (Response.setBasicHeaders env cfg r).headersSent = r.headersSent
      ∧ (Response.setBasicHeaders env cfg r).isChunkedTransfer = r.isChunkedTransfer := by
  unfold Response.setBasicHeaders
  split
  · exact ⟨rfl, rfl, rfl, rfl, rfl⟩
  · dsimp only
    split
    · exact ⟨rfl, rfl, rfl, rfl, rfl⟩
    · exact ⟨rfl, rfl, rfl, rfl, rfl⟩

theorem createResponse_fields (env : Env) (c : HttpConnection) (req : Request) :
    (createResponse env c req).isAlive = true
      ∧ (createResponse env c req).headersSent = false
      ∧ (createResponse env c req).isChunkedTransfer = false
      ∧ (createResponse env c req).minorVersion = req.minorVersion
      ∧ (req.requestError ≠ 0 → (createResponse env c req).statusCode = req.requestError) := by
  obtain ⟨_, b2, b3, b4, b5⟩ := setBasicHeaders_fields env c.config
    { minorVersion := req.minorVersion }
  unfold createResponse Response.new
  dsimp only
  split
  · refine ⟨b3, b4, b5, b2, fun _ => rfl⟩
  · rename_i h
    refine ⟨b3, b4, b5, b2, fun hne => absurd ?_ h⟩
    simpa using hne

theorem noProcess_closeTimeouts (c : HttpConnection) : NoProcess c (closeTimeouts c) := by
  unfold closeTimeouts
  simp only []
  split <;> split <;> split <;> simp [NoProcess, emit]

theorem noProcess_close (c : HttpConnection) : NoProcess c (close c) := by
  intro x hx
  apply noProcess_closeTimeouts c x
  revert hx
  unfold close
  generalize closeTimeouts c = d
  simp only []
  split
  · exact id
  · split
    · split <;> simp [emit]
    · simp

theorem noProcess_endCore (c : HttpConnection) : NoProcess c (endCore c) := by
  unfold endCore stopResponseTimer
  split <;> simp [NoProcess, emit]

theorem noProcess_startKeepAliveTimer (c : HttpConnection) :
    NoProcess c (startKeepAliveTimer c) := by
  unfold startKeepAliveTimer
  split <;> simp [NoProcess, emit]

theorem processQueue_process_effects (env : Env) :
    ∀ (q : List Request) (c : HttpConnection) (x : Request),
      Effect.process x ∈ (processQueue env q c).effects →
      Effect.process x ∈ c.effects ∨ (x ∈ q ∧ x.requestError = 0) := by
  intro q
  induction q with
  | nil =>
    intro c x hx
    exact Or.inl (noProcess_startKeepAliveTimer c x hx)
  | cons r rest ih =>
    intro c x
    unfold processQueue
    dsimp only
    split
    · split
      · split
        · intro hx
          have h1 := noProcess_endCore _ x (noProcess_close _ x hx)
          left
          simpa using h1
        · intro hx
          rcases ih _ x hx with h | ⟨h1, h2⟩
          · have h1 := noProcess_endCore _ x h
            left
            simpa using h1
          · exact Or.inr ⟨List.mem_cons_of_mem _ h1, h2⟩
      · intro hx
        left
        simpa using hx
    · rename_i hz
      intro hx
      have hz' : r.requestError = 0 := by simpa using hz
      simp only [emit, startResponseTimer] at hx
      split at hx
      · simp at hx
        rcases hx with h | h
        · exact Or.inl h
        · exact Or.inr ⟨by simp [h], by rw [h]; exact hz'⟩
      · simp at hx
        rcases hx with h | h
        · exact Or.inl h
        · exact Or.inr ⟨by simp [h], by rw [h]; exact hz'⟩

theorem endCore_config (c : HttpConnection) : (endCore c).config = c.config := by
  simp only [endCore, stopResponseTimer]
  split <;> rfl

theorem endCore_hasActiveRequest (c : HttpConnection) : (endCore c).hasActiveRequest = false := by
  simp [endCore]

theorem processQueue_error (env : Env) (c : HttpConnection) (r : Request) (rest : List Request)
    (hne : r.requestError ≠ 0) :
    ∃ (r' : Response) (headers : String),
      processQueue env (r :: rest) c
        = (if c.config.persistentConnections then
             processQueue env rest
               (answered c r rest r' [statusLine env r.minorVersion r.requestError ++ headers])
           else close
               (answered c r rest r' [statusLine env r.minorVersion r.requestError ++ headers]))
      := by
  obtain ⟨f1, f2, f3, f4, f5⟩ := createResponse_fields env c r
  obtain ⟨r', headers, more, he, e1, e2, e3, e4⟩ :=
    endResponse_unsent env (createResponse env c r) f1 f2
  have hmore := e4 f3
  subst hmore
  rw [f4, f5 hne] at he
  refine ⟨r', headers, ?_⟩
  conv => lhs; unfold processQueue
  dsimp only
  rw [if_pos hne, he]
  dsimp only
  rw [if_pos rfl]
  unfold answered
  rw [endCore_config]
  dsimp only
  by_cases hp : c.config.persistentConnections = true
  · rw [hp]
    simp
  · have hp' : c.config.persistentConnections = false := by simpa using hp
    rw [hp']
    simp

theorem processNextRequest_error (env : Env) (c : HttpConnection) (r : Request)
    (rest : List Request) (ha : c.hasActiveRequest = false) (hq : c.requestQueue = r :: rest)
    (hne : r.requestError ≠ 0) :
    ∃ (after : HttpConnection) (headers : String) (tail : List Effect),
      processNextRequest env c
        = (if c.config.persistentConnections then processNextRequest env after
           else close after)
      ∧ after.effects = c.effects
          ++ Effect.write (statusLine env r.minorVersion r.requestError ++ headers) :: tail
      ∧ (∀ e ∈ tail, e = Effect.timerStop Timer.response)
      ∧ after.requestQueue = rest ∧ after.hasActiveRequest = false
      ∧ after.request = none ∧ after.response = none
      ∧ after.completed = c.completed + 1
      ∧ after.dispatched = c.dispatched ++ [r.id] := by
  obtain ⟨r', headers, hpq⟩ := processQueue_error env c r rest hne
  refine ⟨answered c r rest r' [statusLine env r.minorVersion r.requestError ++ headers],
    headers,
    (if c.responseTimeout && !c.responseTimeoutClosing then [Effect.timerStop Timer.response]
     else []),
    ?_, ?_, ?_, ?_, ?_, ?_, ?_, ?_, ?_⟩
  · have h1 : processNextRequest env c = processQueue env (r :: rest) c := by
      unfold processNextRequest
      rw [ha, if_neg (by simp), hq]
    have h2 : processNextRequest env
        (answered c r rest r' [statusLine env r.minorVersion r.requestError ++ headers])
        = processQueue env rest
            (answered c r rest r' [statusLine env r.minorVersion r.requestError ++ headers]) := by
      unfold processNextRequest
      have hq' : (answered c r rest r'
          [statusLine env r.minorVersion r.requestError ++ headers]).requestQueue = rest := by
        simp only [answered]
        rw [endCore_queue]
      rw [hq']
      simp [answered, endCore]
    rw [h1, h2, hpq]
  · simp only [answered, endCore, stopResponseTimer]
    split <;> simp [emit]
  · intro e he'
    split at he'
    all_goals simp at he'
    exact he'
  · simp only [answered]
    rw [endCore_queue]
  · simp [answered, endCore]
  · simp [answered, endCore]
  · simp [answered, endCore]
  · simp only [answered, endCore, stopResponseTimer]
    split <;> simp [emit]
  · simp only [answered]
    rw [endCore_dispatched]

/-- C9: `processNextRequest` hands to the request processor only requests of the queue whose
error code is zero; a request it dequeues with a non-zero error code gets a response whose
header block is written at once, with the error code in the status line, and the exchange is
completed by `HttpConnection::end` before anything else is dispatched. -/
theorem errors_never_reach_processor (env : Env) :
    (∀ (c : HttpConnection) (x : Request),
        Effect.process x ∈ (processNextRequest env c).effects →
        Effect.process x ∈ c.effects ∨ (x ∈ c.requestQueue ∧ x.requestError = 0))
    ∧ (∀ (c : HttpConnection) (r : Request) (rest : List Request),
        c.hasActiveRequest = false → c.requestQueue = r :: rest → r.requestError ≠ 0 →
        ∃ (after : HttpConnection) (headers : String) (tail : List Effect),
          processNextRequest env c
            = (if c.config.persistentConnections then processNextRequest env after
               else close after)
          ∧ after.effects = c.effects
              ++ Effect.write (statusLine env r.minorVersion r.requestError ++ headers) :: tail
          ∧ (∀ e ∈ tail, e = Effect.timerStop Timer.response)
          ∧ after.requestQueue = rest ∧ after.hasActiveRequest = false
          ∧ after.request = none ∧ after.response = none
          ∧ after.completed = c.completed + 1
          ∧ after.dispatched = c.dispatched ++ [r.id]) := by
  constructor
  · intro c x hx
    unfold processNextRequest at hx
    split at hx
    · exact Or.inl hx
    · exact processQueue_process_effects env _ c x hx
  · intro c r rest ha hq hne
    exact processNextRequest_error env c r rest ha hq hne

theorem errors_never_reach_processor_witness :
    (processNextRequest demoEnv demoErrorConnection).processed = []
    ∧ ∃ (after : HttpConnection) (headers : String) (tail : List Effect),
        processNextRequest demoEnv demoErrorConnection
          = (if demoErrorConnection.config.persistentConnections then
              processNextRequest demoEnv after
             else close after)
        ∧ after.effects = demoErrorConnection.effects
            ++ Effect.write (statusLine demoEnv 1 413 ++ headers) :: tail := by
  refine ⟨by decide, ?_⟩
  obtain ⟨after, headers, tail, h1, h2, _⟩ :=
    (errors_never_reach_processor demoEnv).2 demoErrorConnection
      { createErrorRequest 413 1 with id := 0 } [] (by decide) rfl (by decide)
  exact ⟨after, headers, tail, h1, h2⟩

/-! ## Paths above the maximum length -/

theorem Request.handleData_kept (r : Request) (d : List Char) :
    (r.handleData d).requestError = r.requestError ∧ (r.handleData d).path = r.path
      ∧ (r.handleData d).method = r.method := by
  unfold Request.handleData
  dsimp only
  split_ifs <;> exact ⟨rfl, rfl, rfl⟩

theorem Request.handleDataEnd_kept (r : Request) :
    r.handleDataEnd.requestError = r.requestError ∧ r.handleDataEnd.path = r.path
      ∧ r.handleDataEnd.method = r.method := by
  unfold Request.handleDataEnd
  dsimp only
  split_ifs <;> exact ⟨rfl, rfl, rfl⟩

theorem updateRequestBodyBuffer_last (c : HttpConnection) (buffer : List Char) (pos : Nat)
    (q : List Request) (x : Request) (h : c.requestQueue = q ++ [x]) :
    ∃ x', (updateRequestBodyBuffer c buffer pos).1.requestQueue = q ++ [x']
      ∧ x'.requestError = x.requestError ∧ x'.path = x.path ∧ x'.method = x.method
      ∧ x'.id = x.id := by
  have ht : bodyTarget c = some x := by simp [bodyTarget, h]
  have he : c.requestQueue.isEmpty = false := by
    rw [h]; cases q <;> rfl
  have hd : c.requestQueue.dropLast = q := by rw [h, List.dropLast_concat]
  unfold updateRequestBodyBuffer
  rw [ht]
  dsimp only
  split
  · constructor
    refine ⟨?_, ?_, ?_, ?_, ?_⟩
    · simp only [setBodyTarget, he, Bool.false_eq_true, if_false]
      rw [hd]
    · rw [(Request.handleDataEnd_kept _).1, (Request.handleData_kept _ _).1]
    · rw [(Request.handleDataEnd_kept _).2.1, (Request.handleData_kept _ _).2.1]
    · rw [(Request.handleDataEnd_kept _).2.2, (Request.handleData_kept _ _).2.2]
    · rw [Request.handleDataEnd_id, Request.handleData_id]
  · constructor
    refine ⟨?_, ?_, ?_, ?_, ?_⟩
    · simp only [setBodyTarget, he, Bool.false_eq_true, if_false]
      rw [hd]
    · rw [(Request.handleData_kept _ _).1]
    · rw [(Request.handleData_kept _ _).2.1]
    · rw [(Request.handleData_kept _ _).2.2]
    · rw [Request.handleData_id]

theorem parseLoop_continue (env : Env) (buffer : List Char) (fuel : Nat) (c : HttpConnection)
    (pos : Nat) (hpos : pos < buffer.length) (h : (parseRequest env c buffer pos).2.2 = false) :
    parseLoop env buffer (fuel + 1) c pos
      = if isRequestLimitExceeded (parseRequest env c buffer pos).1 then
          (parseRequest env c buffer pos).1
        else parseLoop env buffer fuel (parseRequest env c buffer pos).1
          (parseRequest env c buffer pos).2.1 := by
  conv => lhs; unfold parseLoop
  rw [if_pos hpos]
  dsimp only
  rw [h]
  simp

theorem queue_emit (c : HttpConnection) (e : Effect) :
    (emit c e).requestQueue = c.requestQueue ∧ (emit c e).created = c.created := ⟨rfl, rfl⟩

/-- C10: `next()` on a top-level pipeline with both models alive and no matching entry at or
after the cursor: no middleware is called, the response is ended and the connection is told
so; when the headers were not sent the status becomes 404 and the header block written has
404 in its status line, and when they were sent the status stays as it was and no header block
is written. -/
theorem top_level_no_match {μ : Type} (env : Env) (engine : RegexEngine) (s : PipelineState μ)
    (hbase : s.pipeline.isBase = true) (hvalid : Pipeline.isValid s = true)
    (hc : s.pipeline.current ≤ s.pipeline.middlewareList.length)
    (hnone : ∀ j e, s.pipeline.current ≤ j → s.pipeline.middlewareList[j]? = some e →
      PathRegExp.matchPath engine e.1 (Pipeline.matchSubject s.pipeline.isBase s.req) s.req = none) :
    (Pipeline.nextFunc env engine s).2 = Transfer.done
    ∧ (Pipeline.nextFunc env engine s).1.res.isAlive = false
    ∧ (Pipeline.nextFunc env engine s).1.connectionEnds = s.connectionEnds + 1
    ∧ (s.res.headersSent = false →
        (Pipeline.nextFunc env engine s).1.res.statusCode = 404
        ∧ ∃ headers more, (Pipeline.nextFunc env engine s).1.written
            = s.written ++ (statusLine env s.res.minorVersion 404 ++ headers) :: more)
    ∧ (s.res.headersSent = true →
        (Pipeline.nextFunc env engine s).1.res.statusCode = s.res.statusCode
        ∧ (Pipeline.nextFunc env engine s).1.written
            = s.written ++ (if s.res.isChunkedTransfer
                then [toHex 0 ++ CRLF ++ "" ++ CRLF] else [])) := by
  have hg := (getNext_selects_first_match_aux engine s.pipeline s.req hc) hnone
  have hres : s.res.isAlive = true := by
    unfold Pipeline.isValid at hvalid
    simp only [Bool.and_eq_true] at hvalid
    exact hvalid.2
  unfold Pipeline.nextFunc
  rw [if_neg (by simp [hvalid]), hg]
  dsimp only
  rw [if_neg (by simp [hbase])]
  by_cases hsent : s.res.headersSent = true
  · rw [if_pos (by simpa [Response.areHeadersSent] using hsent)]
    unfold PipelineState.resEnd
    rw [endResponse_sent env s.res hres hsent]
    dsimp only
    refine ⟨rfl, rfl, rfl, ?_, ?_⟩
    · intro h; rw [h] at hsent; cases hsent
    · intro _
      refine ⟨rfl, ?_⟩
      cases hch : s.res.isChunkedTransfer <;> simp [Response.writeInternal, hch]
  · have hsent' : s.res.headersSent = false := by simpa using hsent
    rw [if_neg (by simpa [Response.areHeadersSent] using hsent)]
    unfold PipelineState.resEnd
    obtain ⟨r', headers, more, he, e1, e2, e3, _⟩ :=
      endResponse_unsent env (s.res.setStatus 404) hres hsent'
    dsimp only
    rw [he]
    dsimp only
    refine ⟨rfl, e1, rfl, ?_, ?_⟩
    · intro _
      exact ⟨e2, headers, more, rfl⟩
    · intro h; rw [h] at hsent'; cases hsent'

theorem top_level_no_match_witness :
    (Pipeline.nextFunc demoEnv literalEngine demoPipelineState).1.res.statusCode = 404 :=
  ((top_level_no_match demoEnv literalEngine demoPipelineState (by decide) (by decide)
    (by decide)
    (by
      intro j e _ he
      match j with
      | 0 =>
        simp [demoPipelineState] at he
        subst he
        decide
      | j + 1 => simp [demoPipelineState] at he)).2.2.2.1 (by decide)).1

/-! ## A request split across two reads -/

/-- C3: with the default configuration, the bytes of two complete requests arrive as one read
and are both enqueued; cut inside the second request, the first read enqueues the first
request and then a synthesized request with error status 413 and stops reading, so the second
request is never enqueued. -/
theorem split_read_enqueues_413 :
    ((run demoEnv (HttpConnection.new {})
        [.data "GET /a HTTP/1.1\r\n\r\nGET /b HTTP/1.1\r\n\r\n".toList]).held.map Request.summary
      = [(0, .GET, "/a"), (0, .GET, "/b")])
    ∧ ((run demoEnv (HttpConnection.new {})
        [.data "GET /a HTTP/1.1\r\n\r\nGET /b HT".toList]).held.map Request.summary
      = [(0, .GET, "/a"), (413, .GET, "")])
    ∧ Effect.stop ∈ (run demoEnv (HttpConnection.new {})
        [.data "GET /a HTTP/1.1\r\n\r\nGET /b HT".toList]).effects
    ∧ ((run demoEnv (HttpConnection.new {})
        [.data "GET /a HTTP/1.1\r\n\r\nGET /b HT".toList,
         .data "TP/1.1\r\n\r\n".toList]).held.map Request.summary
      ≠ [(0, .GET, "/a"), (0, .GET, "/b")]) := by
  refine ⟨by decide, by decide, by decide, by decide⟩

theorem subU32_wrap {a b : Nat} (h : a < b) (hb : b ≤ 4294967296) :
    subU32 a b = 4294967296 - (b - a) := by
  unfold subU32 toU32
  have key : ((a : Int) - (b : Int)) % 4294967296 = ((4294967296 - (b - a) : Nat) : Int) := by
    omega
  rw [key]
  exact Int.toNat_ofNat _

/-- The double subtraction in `parseHeaders`: when the parser reports an incomplete header block
at a position that lies past the middle of the buffer, `bufferLength - bufferStart` wraps
around and `parseRequest` enqueues a request with error status 413 instead of keeping the
tail for the next read. -/
theorem incomplete_tail_past_middle (env : Env) (c : HttpConnection) (buffer : List Char)
    (pos : Nat) (hlen : buffer.length + 1024 * 16 < 4294967296) (hpos : pos < buffer.length)
    (hmid : buffer.length - pos < pos)
    (hinc : env.phr_parse_request (parserInput buffer pos) = .incomplete) :
    parseRequest env c buffer pos = (push (counted c) (createErrorRequest 413 1), pos, true) := by
  have h1 : toU32 ((buffer.length : Int) - pos) = buffer.length - pos := by
    have : ((buffer.length : Int) - pos) = ((buffer.length - pos : Nat) : Int) := by omega
    rw [this]
    exact toU32_natCast (by omega)
  have h2 : subU32 (buffer.length - pos) pos > 1024 * 16 := by
    rw [subU32_wrap hmid (by omega)]
    omega
  have hp : parseHeaders env buffer pos (toU32 ((buffer.length : Int) - pos))
      = .RequestHeadersTooLargeError := by
    unfold parseHeaders
    unfold parserInput at hinc
    rw [hinc]
    dsimp only
    rw [h1, if_pos h2]
  unfold parseRequest
  dsimp only
  rw [hp]
  rfl

/-! ## The Content-Length header -/

/-- What `parseRequest` does with a `Content-Length` header of a structurally valid request:
it decides on the value `std::stoll` returns after its conversion to `uint32_t`. A value
`stoll` rejects gives error status 411; a converted value above the maximum gives 413; any
other is accepted as the body length. -/
theorem parseRequest_content_length (env : Env) (c : HttpConnection) (buffer : List Char)
    (pos n : Nat) (m path : String) (v : Nat) (hs : List phr_header) (meth : HttpMethod)
    (s : String)
    (req0 : Request)
    (hparse : env.phr_parse_request (parserInput buffer pos) = .complete n m path v hs)
    (hmethod : parseMethod m = some meth) (hv : u32 v = 0 ∨ u32 v = 1)
    (hreq : createRequest hs path meth (u32 v) = some req0)
    (hcl : HeaderMapping.index req0.headers "Content-Length" = .str s) :
    (stoll s = none →
        (parseRequest env c buffer pos).2.2 = true
        ∧ ∃ r, (parseRequest env c buffer pos).1.requestQueue = c.requestQueue ++ [r]
            ∧ r.requestError = 411)
    ∧ (∀ z, stoll s = some z → toU32 z > c.config.maxRequestBodyLength →
        (parseRequest env c buffer pos).2.2 = true
        ∧ ∃ r, (parseRequest env c buffer pos).1.requestQueue = c.requestQueue ++ [r]
            ∧ r.requestError = 413)
    ∧ (∀ z, stoll s = some z → toU32 z ≤ c.config.maxRequestBodyLength →
        (parseRequest env c buffer pos).2.2 = false
        ∧ ∃ r, (parseRequest env c buffer pos).1.requestQueue = c.requestQueue ++ [r]
            ∧ r.requestError ≠ 411 ∧ r.requestError ≠ 413) := by
  have hp : parseHeaders env buffer pos (toU32 ((buffer.length : Int) - pos))
      = .parsed hs path meth (u32 v) (u32 n) := by
    unfold parseHeaders
    unfold parserInput at hparse
    rw [hparse]
    dsimp only
    rw [hmethod]
    dsimp only
    rw [if_neg (by omega)]
  have hplain := (plain_createRequest hs path meth (u32 v) req0 hreq).2.2.2.2.2.2.2
  have hq : ∀ (code : Nat) (z : Int), (code = 0 ∨ code = 414) →
      req0.requestError = 0 →
      ∃ r, (updateRequestBodyBuffer
              (push { c with requestsAccepted := u32 (c.requestsAccepted + 1) }
                { req0 with requestError := code, contentLength := toU32 z })
              buffer (u32 (pos + u32 n))).1.requestQueue = c.requestQueue ++ [r]
        ∧ r.requestError ≠ 411 ∧ r.requestError ≠ 413 := by
    intro code z hcode _
    obtain ⟨x', h1, h2, _⟩ := updateRequestBodyBuffer_last
      (push { c with requestsAccepted := u32 (c.requestsAccepted + 1) }
        { req0 with requestError := code, contentLength := toU32 z })
      buffer (u32 (pos + u32 n)) c.requestQueue _ rfl
    refine ⟨x', h1, ?_, ?_⟩
    · rw [h2]; show code ≠ 411; omega
    · rw [h2]; show code ≠ 413; omega
  unfold parseRequest
  dsimp only
  rw [hp]
  dsimp only
  rw [hreq]
  dsimp only
  by_cases hpath : path.length > c.config.maxPathLength
  · rw [if_pos hpath]
    dsimp only
    rw [hcl]
    dsimp only
    refine ⟨?_, ?_, ?_⟩
    · intro hst
      rw [hst]
      exact ⟨rfl, _, rfl, rfl⟩
    · intro z hst hgt
      rw [hst]
      dsimp only
      rw [if_pos hgt]
      exact ⟨rfl, _, rfl, rfl⟩
    · intro z hst hle
      rw [hst]
      dsimp only
      rw [if_neg (by omega)]
      exact ⟨rfl, hq 414 z (Or.inr rfl) hplain⟩
  · rw [if_neg hpath]
    rw [hcl]
    dsimp only
    refine ⟨?_, ?_, ?_⟩
    · intro hst
      rw [hst]
      exact ⟨rfl, _, rfl, rfl⟩
    · intro z hst hgt
      rw [hst]
      dsimp only
      rw [if_pos hgt]
      exact ⟨rfl, _, rfl, rfl⟩
    · intro z hst hle
      rw [hst]
      dsimp only
      rw [if_neg (by omega)]
      have h0 := hq 0 z (Or.inl rfl) hplain
      rw [← hplain] at h0
      exact ⟨rfl, h0⟩

/-- C6: with the default maximum of 10 MiB, the header `Content-Length: 1000000000000` is
answered with status 413, and the header `Content-Length: 4294967296`, whose value is larger
still, is not: the request is handed to the request processor with body length 0 and nothing
is written. -/
theorem content_length_above_maximum_wraps :
    ((run demoEnv (HttpConnection.new {})
        [.data "POST /u HTTP/1.1\r\nContent-Length: 1000000000000\r\n\r\n".toList]).written.map
          (fun data => data.toList.take 13) = ["HTTP/1.1 413 ".toList])
    ∧ (run demoEnv (HttpConnection.new {})
        [.data "POST /u HTTP/1.1\r\nContent-Length: 1000000000000\r\n\r\n".toList]).processed = []
    ∧ stoll "4294967296" = some 4294967296
    ∧ (4294967296 : Int) > (({} : HttpServerConfig).maxRequestBodyLength : Int)
    ∧ ((run demoEnv (HttpConnection.new {})
        [.data "POST /u HTTP/1.1\r\nContent-Length: 4294967296\r\n\r\n".toList]).processed.map
          (fun r => (r.requestError, r.contentLength, r.path)) = [(0, 0, "/u")])
    ∧ (run demoEnv (HttpConnection.new {})
        [.data "POST /u HTTP/1.1\r\nContent-Length: 4294967296\r\n\r\n".toList]).written = [] := by
  refine ⟨by decide, by decide, by decide, by decide, by decide, by decide⟩

/-- C7: of the header values `abc`, `-5` and `12abc`, none an unsigned decimal integer, only
`abc` is answered with status 411; `-5` is answered with status 413, and `12abc` is accepted:
the request is handed to the request processor with body length 12. -/
theorem content_length_not_unsigned_decimal :
    ((run demoEnv (HttpConnection.new {})
        [.data "POST /u HTTP/1.1\r\nContent-Length: abc\r\n\r\n".toList]).written.map
          (fun data => data.toList.take 13) = ["HTTP/1.1 411 ".toList])
    ∧ ((run demoEnv (HttpConnection.new {})
        [.data "POST /u HTTP/1.1\r\nContent-Length: -5\r\n\r\n".toList]).written.map
          (fun data => data.toList.take 13) = ["HTTP/1.1 413 ".toList])
    ∧ stoll "12abc" = some 12
    ∧ ((run demoEnv (HttpConnection.new {})
        [.data "POST /u HTTP/1.1\r\nContent-Length: 12abc\r\n\r\n".toList]).processed.map
          (fun r => (r.requestError, r.contentLength, r.path)) = [(0, 12, "/u")])
    ∧ (run demoEnv (HttpConnection.new {})
        [.data "POST /u HTTP/1.1\r\nContent-Length: 12abc\r\n\r\n".toList]).written = [] := by
  refine ⟨by decide, by decide, by decide, by decide, by decide⟩

/-! ## The error continuation -/

theorem matchPath_eq_none {engine : RegexEngine} {re : PathRegExp} {path : String}
    {req : Request} :
    PathRegExp.matchPath engine re path req = none ↔ PathRegExp.accepts engine re path = false := by
  unfold PathRegExp.matchPath PathRegExp.accepts PathRegExp.matchPartial PathRegExp.matchWhole
  by_cases hp : re.canHandlePartial = true
  · simp only [hp, if_true]
    cases engine re.partialCheckRegex path <;> simp
  · have hp' : re.canHandlePartial = false := by simpa using hp
    rw [hp']
    simp only [Bool.false_eq_true, if_false]
    cases engine re.wholeCheckRegex path <;> simp

/-- What a successful `PathRegExp::match` leaves of the request: everything but the route
parameters, the base path and, for a prefix pattern, the relative path. -/
theorem matchPath_keeps {engine : RegexEngine} {re : PathRegExp} {path : String}
    {req req' : Request} (h : PathRegExp.matchPath engine re path req = some req') :
    req'.pathWithoutQueryString = req.pathWithoutQueryString ∧ req'.error = req.error
      ∧ req'.onDataCallback = req.onDataCallback
      ∧ req'.onDataEndCallback = req.onDataEndCallback ∧ req'.isAlive = req.isAlive
      ∧ req'.method = req.method
      ∧ (re.canHandlePartial = false → req'.relativePath = req.relativePath) := by
  unfold PathRegExp.matchPath PathRegExp.matchPartial PathRegExp.matchWhole at h
  by_cases hp : re.canHandlePartial = true
  · simp only [hp, if_true] at h
    cases hm : engine re.partialCheckRegex path with
    | none => rw [hm] at h; cases h
    | some matchResult =>
      rw [hm] at h
      simp only [Option.some.injEq] at h
      subst h
      refine ⟨?_, ?_, ?_, ?_, ?_, ?_, ?_⟩ <;> first | (intro hc; rw [hp] at hc; cases hc) | (split_ifs <;> rfl)
  · have hp' : re.canHandlePartial = false := by simpa using hp
    rw [hp'] at h
    simp only [Bool.false_eq_true, if_false] at h
    cases hm : engine re.wholeCheckRegex path with
    | none => rw [hm] at h; cases h
    | some matchResult =>
      rw [hm] at h
      simp only [Option.some.injEq] at h
      subst h
      refine ⟨?_, ?_, ?_, ?_, ?_, ?_, ?_⟩ <;> first | (intro _; split_ifs <;> rfl) | (split_ifs <;> rfl)

theorem getNext_found {μ : Type} (engine : RegexEngine) (p : Pipeline μ) (req req' : Request)
    (i : Nat) (entry : MiddlewareConfig μ) (hci : p.current ≤ i)
    (hi : p.middlewareList[i]? = some entry)
    (hm : PathRegExp.matchPath engine entry.1 (Pipeline.matchSubject p.isBase req) req = some req')
    (hbefore : ∀ j e, p.current ≤ j → j < i → p.middlewareList[j]? = some e →
      PathRegExp.matchPath engine e.1 (Pipeline.matchSubject p.isBase req) req = none) :
    Pipeline.getNext engine p req false = (some entry.2, { p with current := i + 1 }, req') := by
  have hlen : i < p.middlewareList.length := by
    rcases Nat.lt_or_ge i p.middlewareList.length with h | h
    · exact h
    · rw [List.getElem?_eq_none h] at hi; cases hi
  have hloop := getNextLoop_found engine p.middlewareList p.isBase req req' i entry hi hm
    (p.middlewareList.length - p.current) p.current false hci (by omega) hbefore
  simp [Pipeline.getNext, hloop, hi]

theorem matchSubject_after_match {engine : RegexEngine} {re : PathRegExp} {isBase : Bool}
    {req req' : Request}
    (h : PathRegExp.matchPath engine re (Pipeline.matchSubject isBase req) req = some req')
    (hstable : isBase = true ∨ re.canHandlePartial = false) :
    Pipeline.matchSubject isBase req' = Pipeline.matchSubject isBase req := by
  obtain ⟨h1, _, _, _, _, _, h7⟩ := matchPath_keeps h
  unfold Pipeline.matchSubject
  rcases hstable with hb | hw
  · rw [hb]; simpa using h1
  · cases isBase
    · simpa using h7 hw
    · simpa using h1

theorem getNextErrorHandlingLoop_found {μ : Type} (engine : RegexEngine)
    (isErrorHandling : μ → Bool) (l : List (MiddlewareConfig μ)) (isBase : Bool) (path : String)
    (i : Nat) (entry : MiddlewareConfig μ) (hi : l[i]? = some entry)
    (hacc : PathRegExp.accepts engine entry.1 path = true)
    (heh : isErrorHandling entry.2 = true) :
    ∀ (fuel : Nat) (p : Pipeline μ) (req : Request), p.middlewareList = l → p.isBase = isBase →
      Pipeline.matchSubject isBase req = path → p.current ≤ i → i < p.current + fuel →
      (isBase = true ∨ ∀ j e, p.current ≤ j → j < i → l[j]? = some e →
        PathRegExp.accepts engine e.1 path = true → e.1.canHandlePartial = false) →
      (∀ j e, p.current ≤ j → j < i → l[j]? = some e →
        ¬ (PathRegExp.accepts engine e.1 path = true ∧ isErrorHandling e.2 = true)) →
      ∃ req', Pipeline.getNextErrorHandlingLoop engine isErrorHandling fuel p req
          = (some entry.2, { p with current := i + 1 }, req')
        ∧ req'.error = req.error ∧ req'.onDataCallback = req.onDataCallback
        ∧ req'.onDataEndCallback = req.onDataEndCallback ∧ req'.isAlive = req.isAlive := by
  intro fuel
  induction fuel with
  | zero => intro p req _ _ _ h1 h2; omega
  | succ n ih =>
    intro p req hl hb hsub hci hfuel hstable hbefore
    subst hl
    subst hb
    by_cases hex : ∃ k, p.current ≤ k ∧ k < i ∧ ∃ e, p.middlewareList[k]? = some e
        ∧ PathRegExp.accepts engine e.1 path = true
    · classical
      obtain ⟨hk1, hk2, e, hke, hka⟩ := Nat.find_spec hex
      have hmin := fun j (hj : j < Nat.find hex) => Nat.find_min hex hj
      generalize Nat.find hex = k at hk1 hk2 hke hmin
      have hsome : ∃ req'', PathRegExp.matchPath engine e.1
          (Pipeline.matchSubject p.isBase req) req = some req'' := by
        cases hm : PathRegExp.matchPath engine e.1 (Pipeline.matchSubject p.isBase req) req with
        | none =>
          rw [matchPath_eq_none, hsub, hka] at hm
          cases hm
        | some r => exact ⟨r, rfl⟩
      obtain ⟨req'', hm⟩ := hsome
      have hg := getNext_found engine p req req'' k e hk1 hke hm (by
        intro j e' hj1 hj2 hje
        rw [matchPath_eq_none, hsub]
        cases ha : PathRegExp.accepts engine e'.1 path with
        | false => rfl
        | true => exact absurd ⟨hj1, by omega, e', hje, ha⟩ (hmin j hj2))
      have hneh : isErrorHandling e.2 = false := by
        cases h : isErrorHandling e.2 with
        | false => rfl
        | true => exact absurd ⟨hka, h⟩ (hbefore k e hk1 hk2 hke)
      have hst : p.isBase = true ∨ e.1.canHandlePartial = false := by
        rcases hstable with h | h
        · exact Or.inl h
        · exact Or.inr (h k e hk1 hk2 hke hka)
      obtain ⟨k1, k2, k3, k4, k5, _, _⟩ := matchPath_keeps hm
      obtain ⟨r, hr, r1, r2, r3, r4⟩ := ih { p with current := k + 1 } req'' rfl rfl
        (by rw [matchSubject_after_match hm hst]; exact hsub) (by show k + 1 ≤ i; omega)
        (by show i < k + 1 + n; omega)
        (hstable.imp id (fun h j e' hj1 hj2 hje =>
          h j e' (by have : k + 1 ≤ j := hj1; omega) hj2 hje))
        (fun j e' hj1 hj2 hje => hbefore j e' (by have : k + 1 ≤ j := hj1; omega) hj2 hje)
      refine ⟨r, ?_, by rw [r1, k2], by rw [r2, k3], by rw [r3, k4], by rw [r4, k5]⟩
      unfold Pipeline.getNextErrorHandlingLoop
      rw [hg]
      dsimp only
      rw [hneh]
      simp only [Bool.false_eq_true, if_false]
      exact hr
    · have hsome : ∃ req'', PathRegExp.matchPath engine entry.1
          (Pipeline.matchSubject p.isBase req) req = some req'' := by
        cases hm : PathRegExp.matchPath engine entry.1 (Pipeline.matchSubject p.isBase req) req with
        | none =>
          rw [matchPath_eq_none, hsub, hacc] at hm
          cases hm
        | some r => exact ⟨r, rfl⟩
      obtain ⟨req'', hm⟩ := hsome
      have hg := getNext_found engine p req req'' i entry hci hi hm (by
        intro j e' hj1 hj2 hje
        rw [matchPath_eq_none, hsub]
        cases ha : PathRegExp.accepts engine e'.1 path with
        | false => rfl
        | true => exact absurd ⟨j, hj1, hj2, e', hje, ha⟩ hex)
      obtain ⟨_, k2, k3, k4, k5, _, _⟩ := matchPath_keeps hm
      refine ⟨req'', ?_, k2, k3, k4, k5⟩
      unfold Pipeline.getNextErrorHandlingLoop
      rw [hg]
      dsimp only
      rw [heh]
      simp

/-- The continuation `error(message)` on a Pipeline with both models alive. Let entry `i` be
the first entry at or after the cursor whose pattern accepts the path the Pipeline matches
against and whose middleware is error-handling, and let the Pipeline be top-level or let no
accepting entry between the cursor and `i` be a prefix pattern. Then the continuation enters
the middleware of entry `i` and no other, with the cursor at `i + 1`; the request it hands over
has `message` as its error text and no data or data-end callback; the response is untouched. -/
theorem error_enters_first_error_handler {μ : Type} (env : Env) (engine : RegexEngine)
    (isErrorHandling : μ → Bool) (message : String) (s : PipelineState μ) (i : Nat)
    (entry : MiddlewareConfig μ)
    (hreq : s.req.isAlive = true) (hres : s.res.isAlive = true)
    (hci : s.pipeline.current ≤ i) (hi : s.pipeline.middlewareList[i]? = some entry)
    (hacc : PathRegExp.accepts engine entry.1
      (Pipeline.matchSubject s.pipeline.isBase s.req) = true)
    (heh : isErrorHandling entry.2 = true)
    (hbefore : ∀ j e, s.pipeline.current ≤ j → j < i → s.pipeline.middlewareList[j]? = some e →
      ¬ (PathRegExp.accepts engine e.1 (Pipeline.matchSubject s.pipeline.isBase s.req) = true
          ∧ isErrorHandling e.2 = true))
    (hstable : s.pipeline.isBase = true
      ∨ ∀ j e, s.pipeline.current ≤ j → j < i → s.pipeline.middlewareList[j]? = some e →
        PathRegExp.accepts engine e.1 (Pipeline.matchSubject s.pipeline.isBase s.req) = true →
        e.1.canHandlePartial = false) :
    ∃ req', Pipeline.error env engine isErrorHandling message s
        = ({ s with pipeline := { s.pipeline with current := i + 1 }, req := req' },
            .emit entry.2)
      ∧ req'.error = message ∧ req'.onDataCallback = false ∧ req'.onDataEndCallback = false := by
  have hlen : i < s.pipeline.middlewareList.length := by
    rcases Nat.lt_or_ge i s.pipeline.middlewareList.length with h | h
    · exact h
    · rw [List.getElem?_eq_none h] at hi; cases hi
  have hsub : Pipeline.matchSubject s.pipeline.isBase
      { s.req with onDataCallback := false, onDataEndCallback := false, error := message }
      = Pipeline.matchSubject s.pipeline.isBase s.req := by
    unfold Pipeline.matchSubject
    split <;> rfl
  obtain ⟨req', hr, r1, r2, r3, _⟩ := getNextErrorHandlingLoop_found engine isErrorHandling
    s.pipeline.middlewareList s.pipeline.isBase (Pipeline.matchSubject s.pipeline.isBase s.req)
    i entry hi hacc heh (s.pipeline.middlewareList.length - s.pipeline.current + 1) s.pipeline
    { s.req with onDataCallback := false, onDataEndCallback := false, error := message }
    rfl rfl hsub hci (by omega) hstable hbefore
  refine ⟨req', ?_, r1, r2, r3⟩
  unfold Pipeline.error Pipeline.isValid
  rw [hreq, hres]
  simp only [Bool.and_self, Bool.not_true, Bool.false_eq_true, if_false]
  unfold Pipeline.getNextErrorHandling
  rw [hr]

theorem error_enters_first_error_handler_witness :
    ∃ req', Pipeline.error demoEnv literalEngine Middleware.isErrorHandling "boom"
        { pipeline :=
            { middlewareList := [(⟨"/a", [], false⟩, .callback 10 false),
                (⟨"/b", [], false⟩, .callback 11 true), (⟨"/a", [], false⟩, .callback 12 true)]
              isBase := true, current := 0 }
          req := { pathWithoutQueryString := "/a", onDataCallback := true
                   onDataEndCallback := true }
          res := Response.new demoEnv {} 1 }
        = ({ pipeline :=
              { middlewareList := [(⟨"/a", [], false⟩, .callback 10 false),
                  (⟨"/b", [], false⟩, .callback 11 true), (⟨"/a", [], false⟩, .callback 12 true)]
                isBase := true, current := 3 }
             req := req'
             res := Response.new demoEnv {} 1 },
            .emit (.callback 12 true))
      ∧ req'.error = "boom" ∧ req'.onDataCallback = false ∧ req'.onDataEndCallback = false :=
  error_enters_first_error_handler demoEnv literalEngine Middleware.isErrorHandling "boom"
    { pipeline :=
        { middlewareList := [(⟨"/a", [], false⟩, .callback 10 false),
            (⟨"/b", [], false⟩, .callback 11 true), (⟨"/a", [], false⟩, .callback 12 true)]
          isBase := true, current := 0 }
      req := { pathWithoutQueryString := "/a", onDataCallback := true, onDataEndCallback := true }
      res := Response.new demoEnv {} 1 }
    2 (⟨"/a", [], false⟩, .callback 12 true) rfl (by decide) (by decide) rfl (by decide)
    (by decide)
    (by
      intro j e _ hj he
      have hj' : j = 0 ∨ j = 1 := by omega
      rcases hj' with rfl | rfl
      · simp at he
        subst he
        decide
      · simp at he
        subst he
        decide)
    (Or.inl rfl)

/-- C11: a router is mounted at `/a`; its entries for `GET` are a callback for `/b`, a callback
for the prefix `/b` that is not error-handling, and an error-handling callback for `/b`. For
`GET /a/b` the nested Pipeline is given the relative path `/b` and enters the first callback,
with the cursor behind it; that callback calls `error("boom")`. The pattern of the
error-handling entry accepts `/b`, and yet no middleware is entered: `getNextErrorHandling`
matches the prefix entry before it skips it, that match replaces the relative path by the empty
remainder, and the error-handling entry is tried against the empty string. The Pipeline calls
`baseNext->next()` and the response is ended with status 404. Without the prefix entry the
error-handling callback is entered, with the error text `boom`. -/
theorem error_after_skipped_prefix_entry :
    ((enterMountedRouter demoEnv demoNestedEngine demoErrorApp
        { method := .GET, path := "/a/b", pathWithoutQueryString := "/a/b" }
        (Response.new demoEnv {} 1)).map
        (fun x => x.map (fun y => (y.2.bind Middleware.name?, y.1.state.pipeline.isBase,
          y.1.state.pipeline.current, Pipeline.matchSubject false y.1.state.req)))
      = some (some (some 1, false, 1, "/b")))
    ∧ ((demoErrorRouter.configs .GET).map
        (fun l => l.map (fun e => (e.1, e.2.name?, e.2.isErrorHandling)))
      = some [(⟨"/b", [], false⟩, some 1, false), (⟨"/b", [], true⟩, some 2, false),
           (⟨"/b", [], false⟩, some 9, true)])
    ∧ PathRegExp.accepts demoNestedEngine ⟨"/b", [], false⟩ "/b" = true
    ∧ ((errorInMountedRouter demoEnv demoNestedEngine demoErrorApp
        { method := .GET, path := "/a/b", pathWithoutQueryString := "/a/b" }
        (Response.new demoEnv {} 1) "boom").map
        (fun x => (x.2.isSome, Pipeline.matchSubject false x.1.state.req,
          x.1.state.res.statusCode, x.1.state.res.isAlive))
      = some (false, "", 404, false))
    ∧ ((enterMountedRouter demoEnv demoNestedEngine demoErrorApp
        { method := .GET, path := "/a/b", pathWithoutQueryString := "/a/b" }
        (Response.new demoEnv {} 1)).map
        (fun x => x.map (fun y =>
          ((Pipeline.error demoEnv demoNestedEngine Middleware.isErrorHandling "boom"
              y.1.state).2.outward?,
            (Pipeline.error demoEnv demoNestedEngine Middleware.isErrorHandling "boom"
              y.1.state).1.pipeline.current)))
      = some (some (some false, 3)))
    ∧ ((errorInMountedRouter demoEnv demoNestedEngine demoErrorAppExact
        { method := .GET, path := "/a/b", pathWithoutQueryString := "/a/b" }
        (Response.new demoEnv {} 1) "boom").map
        (fun x => (x.2.bind Middleware.name?, x.2.map Middleware.isErrorHandling,
          x.1.state.req.error))
      = some (some 9, some true, "boom")) := by
  refine ⟨by decide, by decide, by decide, by decide, by decide, by decide⟩

/-! ## The continuation nextRoute -/

theorem getNextLoop_changed_irrelevant {μ : Type} (engine : RegexEngine)
    (l : List (MiddlewareConfig μ)) (isBase : Bool) (req : Request) :
    ∀ (fuel current : Nat) (changed : Bool),
      Pipeline.getNextLoop engine l isBase false fuel current changed req
        = Pipeline.getNextLoop engine l isBase false fuel current true req := by
  intro fuel
  induction fuel with
  | zero => intro current changed; rfl
  | succ n ih =>
    intro current changed
    unfold Pipeline.getNextLoop
    cases l[current]? with
    | none => rfl
    | some entry =>
      simp only [Bool.and_false, Bool.false_and, Bool.false_eq_true, if_false]

theorem getNextLoop_once_changed {μ : Type} (engine : RegexEngine)
    (l : List (MiddlewareConfig μ)) (isBase : Bool) (req : Request) :
    ∀ (fuel current : Nat),
      Pipeline.getNextLoop engine l isBase true fuel current true req
        = Pipeline.getNextLoop engine l isBase false fuel current true req := by
  intro fuel
  induction fuel with
  | zero => intro current; rfl
  | succ n ih =>
    intro current
    unfold Pipeline.getNextLoop
    cases l[current]? with
    | none => rfl
    | some entry =>
      simp only [Bool.not_true, Bool.and_false, Bool.false_and, Bool.false_eq_true, if_false]
      rw [ih]

/-- With the skip flag, the loop of `getNext` passes over the entries that repeat the pattern
of their predecessor, as long as it has tried no entry. -/
theorem getNextLoop_passes_run {μ : Type} (engine : RegexEngine)
    (l : List (MiddlewareConfig μ)) (isBase : Bool) (req : Request) (stop : Nat) :
    ∀ (gap fuel current : Nat), stop = current + gap → 0 < current → stop ≤ l.length →
      gap ≤ fuel →
      (∀ j e, current ≤ j → j < stop → l[j]? = some e →
        l[j - 1]?.map (fun previous => previous.1.regexString) = some e.1.regexString) →
      Pipeline.getNextLoop engine l isBase true fuel current false req
        = Pipeline.getNextLoop engine l isBase true (fuel - gap) stop false req := by
  intro gap
  induction gap with
  | zero =>
    intro fuel current h1 _ _ _ _
    have : stop = current := by omega
    subst this
    rfl
  | succ g ih =>
    intro fuel current h1 h2 h3 h4 hrun
    obtain ⟨n, rfl⟩ : ∃ n, fuel = n + 1 := ⟨fuel - 1, by omega⟩
    have hlt : current < l.length := by omega
    have hsome : l[current]? = some l[current] := List.getElem?_eq_getElem hlt
    have hsame := hrun current l[current] (Nat.le_refl _) (by omega) hsome
    have hstep : Pipeline.getNextLoop engine l isBase true (n + 1) current false req
        = Pipeline.getNextLoop engine l isBase true n (current + 1) false req := by
      conv => lhs; unfold Pipeline.getNextLoop
      rw [hsome]
      simp only [hsame, Bool.not_false, Bool.true_and, beq_self_eq_true, Bool.and_true,
        decide_eq_true_eq]
      rw [if_pos h2]
    rw [hstep, ih n (current + 1) (by omega) (by omega) h3 (by omega)
      (fun j e hj1 hj2 he => hrun j e (by omega) hj2 he)]
    congr 1
    omega

/-- At an entry whose pattern differs from its predecessor's, at the first entry or at the end
of the list, the skip flag makes no difference. -/
theorem getNextLoop_at_new_pattern {μ : Type} (engine : RegexEngine)
    (l : List (MiddlewareConfig μ)) (isBase : Bool) (req : Request) (fuel current : Nat)
    (changed : Bool)
    (hnew : current = 0 ∨ ∀ e, l[current]? = some e →
      l[current - 1]?.map (fun previous => previous.1.regexString) ≠ some e.1.regexString) :
    Pipeline.getNextLoop engine l isBase true fuel current changed req
      = Pipeline.getNextLoop engine l isBase false fuel current false req := by
  cases fuel with
  | zero => rfl
  | succ n =>
    unfold Pipeline.getNextLoop
    cases hc : l[current]? with
    | none => rfl
    | some entry =>
      have hcond : (!changed && true && decide (current > 0)
          && (l[current - 1]?.map (fun previous => previous.1.regexString)
                == some entry.1.regexString)) = false := by
        rcases hnew with h0 | hne
        · subst h0
          simp
        · have := hne entry hc
          simp [this]
      simp only [hcond, Bool.false_eq_true, if_false, Bool.and_false, Bool.false_and]
      cases PathRegExp.matchPath engine entry.1 (Pipeline.matchSubject isBase req) req with
      | some r => rfl
      | none =>
        simp only
        rw [getNextLoop_once_changed, getNextLoop_changed_irrelevant]

/-- `getNext(true)` from a cursor behind the first entry is `getNext()` from the end of the
run of entries that repeat the pattern of their predecessor. -/
theorem getNext_passes_run {μ : Type} (engine : RegexEngine) (p : Pipeline μ) (req : Request)
    (stop : Nat) (h0 : 0 < p.current) (h1 : p.current ≤ stop)
    (h2 : stop ≤ p.middlewareList.length)
    (hrun : ∀ j e, p.current ≤ j → j < stop → p.middlewareList[j]? = some e →
      p.middlewareList[j - 1]?.map (fun previous => previous.1.regexString)
        = some e.1.regexString)
    (hnew : ∀ e, p.middlewareList[stop]? = some e →
      p.middlewareList[stop - 1]?.map (fun previous => previous.1.regexString)
        ≠ some e.1.regexString) :
    Pipeline.getNext engine p req true
      = Pipeline.getNext engine { p with current := stop } req false := by
  have hloop : Pipeline.getNextLoop engine p.middlewareList p.isBase true
        (p.middlewareList.length - p.current) p.current false req
      = Pipeline.getNextLoop engine p.middlewareList p.isBase false
        (p.middlewareList.length - stop) stop false req := by
    rw [getNextLoop_passes_run engine p.middlewareList p.isBase req stop (stop - p.current)
      (p.middlewareList.length - p.current) p.current (by omega) h0 h2 (by omega) hrun,
      getNextLoop_at_new_pattern engine p.middlewareList p.isBase req _ stop false (Or.inr hnew)]
    congr 1
    omega
  unfold Pipeline.getNext
  simp only [hloop]

/-- C14: `nextRoute()` with both models alive, the cursor behind entry `i`, and the entries
`i`, `i + 1`, `i + 2` of one pattern, the run of that pattern ending there (entry `i + 3` is
absent or has another pattern). Entries `i + 1` and `i + 2` are not tried: the continuation
enters the first entry at index `i + 3` or later whose pattern matches the path, and when there
is none it takes the branch for no middleware. From a cursor at 0 the skip flag changes
nothing: entry 0 is tried. -/
theorem nextRoute_skips_repeated_patterns {μ : Type} (env : Env) (engine : RegexEngine)
    (s : PipelineState μ) (i : Nat) (a b c : MiddlewareConfig μ)
    (hreq : s.req.isAlive = true) (hres : s.res.isAlive = true)
    (hcur : s.pipeline.current = i + 1)
    (ha : s.pipeline.middlewareList[i]? = some a)
    (hb : s.pipeline.middlewareList[i + 1]? = some b)
    (hc : s.pipeline.middlewareList[i + 2]? = some c)
    (hab : b.1.regexString = a.1.regexString) (hbc : c.1.regexString = b.1.regexString)
    (hend : ∀ d, s.pipeline.middlewareList[i + 3]? = some d →
      d.1.regexString ≠ c.1.regexString) :
    (∀ (k : Nat) (entry : MiddlewareConfig μ) (req' : Request),
        i + 3 ≤ k → s.pipeline.middlewareList[k]? = some entry →
        PathRegExp.matchPath engine entry.1 (Pipeline.matchSubject s.pipeline.isBase s.req) s.req
          = some req' →
        (∀ j e, i + 3 ≤ j → j < k → s.pipeline.middlewareList[j]? = some e →
          PathRegExp.matchPath engine e.1 (Pipeline.matchSubject s.pipeline.isBase s.req) s.req
            = none) →
        Pipeline.nextRoute env engine s
          = ({ s with pipeline := { s.pipeline with current := k + 1 }
                      req := { req' with error := "" } }, .emit entry.2))
    ∧ ((∀ j e, i + 3 ≤ j → s.pipeline.middlewareList[j]? = some e →
          PathRegExp.matchPath engine e.1 (Pipeline.matchSubject s.pipeline.isBase s.req) s.req
            = none) →
        Pipeline.nextRoute env engine s
          = (if s.pipeline.isBase then
              (PipelineState.resEnd env
                { s with
                  pipeline := { s.pipeline with current := s.pipeline.middlewareList.length }
                  res := if s.res.headersSent then s.res else s.res.setStatus 404 }, .done)
             else
              ({ s with
                  pipeline := { s.pipeline with current := s.pipeline.middlewareList.length } },
                .baseNextRoute)))
    ∧ (∀ (p : Pipeline μ) (req : Request), p.current = 0 →
        Pipeline.getNext engine p req true = Pipeline.getNext engine p req false) := by
  have hlen : i + 2 < s.pipeline.middlewareList.length := by
    rcases Nat.lt_or_ge (i + 2) s.pipeline.middlewareList.length with h | h
    · exact h
    · rw [List.getElem?_eq_none h] at hc; cases hc
  have hskip : Pipeline.getNext engine s.pipeline s.req true
      = Pipeline.getNext engine { s.pipeline with current := i + 3 } s.req false := by
    apply getNext_passes_run engine s.pipeline s.req (i + 3) (by omega) (by omega) (by omega)
    · intro j e hj1 hj2 he
      have hj : j = i + 1 ∨ j = i + 2 := by omega
      rcases hj with rfl | rfl
      · rw [hb] at he
        cases he
        simp [ha, hab]
      · rw [hc] at he
        cases he
        have : i + 2 - 1 = i + 1 := by omega
        simp [this, hb, hbc]
    · intro d hd
      have : i + 3 - 1 = i + 2 := by omega
      simp only [this, hc, Option.map_some', ne_eq, Option.some.injEq]
      exact fun h => hend d hd h.symm
  refine ⟨?_, ?_, ?_⟩
  · intro k entry req' hk hke hm hbefore
    have hg := getNext_found engine { s.pipeline with current := i + 3 } s.req req' k entry hk
      hke hm hbefore
    unfold Pipeline.nextRoute Pipeline.isValid
    rw [hreq, hres, hskip, hg]
    rfl
  · intro hnone
    have hg := getNext_selects_first_match_aux engine { s.pipeline with current := i + 3 } s.req
      (by show i + 3 ≤ s.pipeline.middlewareList.length; omega) hnone
    unfold Pipeline.nextRoute Pipeline.isValid
    rw [hreq, hres, hskip, hg]
    cases hbase : s.pipeline.isBase
    · simp [hbase]
    · cases hsent : s.res.headersSent <;> simp [hbase, hsent, Response.areHeadersSent]
  · intro p req hp
    unfold Pipeline.getNext
    rw [hp, getNextLoop_at_new_pattern engine p.middlewareList p.isBase req _ 0 false
      (Or.inl rfl)]

theorem nextRoute_skips_repeated_patterns_witness :
    Pipeline.nextRoute demoEnv literalEngine
        ({ pipeline :=
            { middlewareList := [(⟨"/a", [], false⟩, 1), (⟨"/a", [], false⟩, 2),
                (⟨"/a", [], false⟩, 3), (⟨"/b", [], false⟩, 4), (⟨"/a", [], false⟩, 5)]
              isBase := true, current := 1 }
           req := { pathWithoutQueryString := "/a" }
           res := Response.new demoEnv {} 1 } : PipelineState Nat)
      = ({ pipeline :=
            { middlewareList := [(⟨"/a", [], false⟩, 1), (⟨"/a", [], false⟩, 2),
                (⟨"/a", [], false⟩, 3), (⟨"/b", [], false⟩, 4), (⟨"/a", [], false⟩, 5)]
              isBase := true, current := 5 }
           req := { pathWithoutQueryString := "/a", basePath := "/a" }
           res := Response.new demoEnv {} 1 }, .emit 5) :=
  (nextRoute_skips_repeated_patterns demoEnv literalEngine
    ({ pipeline :=
        { middlewareList := [(⟨"/a", [], false⟩, 1), (⟨"/a", [], false⟩, 2),
            (⟨"/a", [], false⟩, 3), (⟨"/b", [], false⟩, 4), (⟨"/a", [], false⟩, 5)]
          isBase := true, current := 1 }
       req := { pathWithoutQueryString := "/a" }
       res := Response.new demoEnv {} 1 } : PipelineState Nat)
    0 (⟨"/a", [], false⟩, 1) (⟨"/a", [], false⟩, 2) (⟨"/a", [], false⟩, 3)
    rfl (by decide) rfl rfl rfl rfl rfl rfl
    (by intro d hd; simp at hd; subst hd; decide)).1 4 (⟨"/a", [], false⟩, 5)
    { pathWithoutQueryString := "/a", basePath := "/a" } (by decide) rfl (by decide)
    (by
      intro j e hj1 hj2 he
      have hj : j = 3 := by omega
      subst hj
      simp at he
      subst he
      decide)

/-- Four entries of one pattern, the first just dispatched: entry 3 accepts the path, and
`nextRoute()` enters no middleware; on the top-level Pipeline it ends the response with status
404. -/
theorem nextRoute_skips_fourth_repeat :
    PathRegExp.accepts literalEngine ⟨"/a", [], false⟩ "/a" = true
    ∧ (Pipeline.nextRoute demoEnv literalEngine
        ({ pipeline :=
            { middlewareList := [(⟨"/a", [], false⟩, 1), (⟨"/a", [], false⟩, 2),
                (⟨"/a", [], false⟩, 3), (⟨"/a", [], false⟩, 4)]
              isBase := true, current := 1 }
           req := { pathWithoutQueryString := "/a" }
           res := Response.new demoEnv {} 1 } : PipelineState Nat)).2.middleware? = none
    ∧ (Pipeline.nextRoute demoEnv literalEngine
        ({ pipeline :=
            { middlewareList := [(⟨"/a", [], false⟩, 1), (⟨"/a", [], false⟩, 2),
                (⟨"/a", [], false⟩, 3), (⟨"/a", [], false⟩, 4)]
              isBase := true, current := 1 }
           req := { pathWithoutQueryString := "/a" }
           res := Response.new demoEnv {} 1 } : PipelineState Nat)).1.res.statusCode = 404
    ∧ (Pipeline.nextRoute demoEnv literalEngine
        ({ pipeline :=
            { middlewareList := [(⟨"/a", [], false⟩, 1), (⟨"/a", [], false⟩, 2),
                (⟨"/a", [], false⟩, 3), (⟨"/a", [], false⟩, 4)]
              isBase := true, current := 1 }
           req := { pathWithoutQueryString := "/a" }
           res := Response.new demoEnv {} 1 } : PipelineState Nat)).1.pipeline.current = 4 := by
  refine ⟨by decide, by decide, by decide, by decide⟩

/-! ## Errors and error-handling entries across pipelines -/

/-- C12: a callback inside the router mounted at `/users` calls `error("boom")`, and the
router has no error-handling entry. With an error-handling callback for `/users/42` after the
mount in the enclosing list, that callback is entered, and the error text of the request it is
given is empty, not `boom`. With no further entry in the enclosing list, the response is ended
with status 404, not 500. -/
theorem nested_error_continues_as_next :
    ((errorInMountedRouter demoEnv demoUsersEngine demoAppWithHandler
        { method := .GET, path := "/users/42", pathWithoutQueryString := "/users/42" }
        (Response.new demoEnv {} 1) "boom").map
        (fun x => (x.2.bind Middleware.name?, x.2.map Middleware.isErrorHandling,
          x.1.state.req.error))
      = some (some 9, some true, ""))
    ∧ ((errorInMountedRouter demoEnv demoUsersEngine demoApp
        { method := .GET, path := "/users/42", pathWithoutQueryString := "/users/42" }
        (Response.new demoEnv {} 1) "boom").map
        (fun x => (x.2.isSome, x.1.state.res.headersSent, x.1.state.res.statusCode,
          x.1.state.written.map (fun data => data.toList.take 13)))
      = some (false, true, 404, ["HTTP/1.1 404 ".toList])) := by
  refine ⟨by decide, by decide⟩

/-- C13: `next()` on a top-level Pipeline whose first matching entry is error-handling enters
that entry, with an empty error text; `nextRoute()` behind a callback for `/a` does the same
with an error-handling entry of another pattern that accepts `/a`. No `error(message)` was
called. -/
theorem next_enters_error_handling_entry :
    ((Pipeline.nextFunc demoEnv literalEngine
        { pipeline := { middlewareList := [(⟨"/a", [], false⟩, Middleware.callback 9 true)]
                        isBase := true }
          req := { pathWithoutQueryString := "/a" }
          res := Response.new demoEnv {} 1 }).2.middleware?.map
        (fun m => (m.name?, m.isErrorHandling)) = some (some 9, true))
    ∧ ((Pipeline.nextFunc demoEnv literalEngine
        { pipeline := { middlewareList := [(⟨"/a", [], false⟩, Middleware.callback 9 true)]
                        isBase := true }
          req := { pathWithoutQueryString := "/a" }
          res := Response.new demoEnv {} 1 }).1.req.error = "")
    ∧ ((Pipeline.nextRoute demoEnv
        (tableEngine [(("^(/a)(?:\\/?)$", "/a"), ["/a", "/a"]),
          (("^(\\/a)(?:\\/?)$", "/a"), ["/a", "/a"])])
        { pipeline := { middlewareList := [(⟨"/a", [], false⟩, Middleware.callback 1 false),
                          (⟨"\\/a", [], false⟩, Middleware.callback 9 true)]
                        isBase := true, current := 1 }
          req := { pathWithoutQueryString := "/a" }
          res := Response.new demoEnv {} 1 }).2.middleware?.map
        (fun m => (m.name?, m.isErrorHandling)) = some (some 9, true)) := by
  refine ⟨by decide, by decide, by decide⟩

/-- The remainder `matchPartial` reports is the last sub-match of the regular expression. -/
theorem matchPartial_remainder {engine : RegexEngine} {re : PathRegExp} {path : String}
    {req req' : Request} (h : PathRegExp.matchPartial engine re path req = some req') :
    ∃ matchResult, engine re.partialCheckRegex path = some matchResult
      ∧ req'.relativePath = matchResult.getD (matchResult.length - 1) ""
      ∧ (1 < matchResult.length → req'.basePath = matchResult.getD 1 "") := by
  unfold PathRegExp.matchPartial at h
  cases hm : engine re.partialCheckRegex path with
  | none => rw [hm] at h; cases h
  | some matchResult =>
    rw [hm] at h
    simp only [Option.some.injEq] at h
    subst h
    refine ⟨matchResult, rfl, rfl, ?_⟩
    intro hlen
    simp [hlen]

/-- C15: the prefix pattern `/users` on the path `/users/42/posts`. The regular expression
`setPartialCheckRegex` builds ends in the repeated group `(\/[^/\?#]*)*`, whose sub-match is
its last repetition, `/posts`. The match reports base path `/users` and remainder `/posts`:
base path and remainder do not make up the path, and the remainder is not `/42/posts`. -/
theorem prefix_remainder_is_last_segment :
    (PathRegExp.partialCheckRegex ⟨"/users", [], true⟩ = "^(/users)(\\/[^/\\?#]*)*$")
    ∧ ((PathRegExp.matchPath demoUsersEngine ⟨"/users", [], true⟩ "/users/42/posts"
          { pathWithoutQueryString := "/users/42/posts" }).map
        (fun r => (r.basePath, r.relativePath)) = some ("/users", "/posts"))
    ∧ ((PathRegExp.matchPath demoUsersEngine ⟨"/users", [], true⟩ "/users/42/posts"
          { pathWithoutQueryString := "/users/42/posts" }).map
        (fun r => decide (r.basePath ++ r.relativePath = "/users/42/posts")) = some false) := by
  refine ⟨by decide, by decide, by decide⟩

/-! ## Route parameters -/

theorem caseInsensitiveCompare_iff (a b : List Char) :
    caseInsensitiveCompare a b = true
      ↔ List.Lex (fun x y : Nat => x < y) (a.map toLowerByte) (b.map toLowerByte) := by
  induction a generalizing b with
  | nil =>
    cases b with
    | nil => simp [caseInsensitiveCompare]
    | cons y ys => simp [caseInsensitiveCompare, List.Lex.nil]
  | cons x xs ih =>
    cases b with
    | nil => simp [caseInsensitiveCompare]
    | cons y ys =>
      simp only [caseInsensitiveCompare, List.map_cons]
      generalize toLowerByte x = tx
      generalize toLowerByte y = ty
      by_cases h1 : tx < ty
      · simp only [h1, if_true, true_iff]
        exact List.Lex.rel h1
      · by_cases h2 : ty < tx
        · simp only [h1, h2, if_false, if_true, Bool.false_eq_true, false_iff]
          intro h
          cases h with
          | cons h' => omega
          | rel h' => omega
        · have heq : tx = ty := by omega
          subst heq
          simp only [h1, if_false, ih ys]
          constructor
          · intro h; exact List.Lex.cons h
          · intro h
            cases h with
            | cons h' => exact h'
            | rel h' => omega

/-- The comparator is a strict order on the lowered bytes of the keys: of two keys, one is
less, or they have the same lowered bytes and neither is less. -/
theorem ci_trichotomy (a b : List Char) :
    (caseInsensitiveCompare a b = true ∧ a.map toLowerByte ≠ b.map toLowerByte
        ∧ caseInsensitiveCompare b a = false)
    ∨ (caseInsensitiveCompare a b = false ∧ a.map toLowerByte = b.map toLowerByte
        ∧ caseInsensitiveCompare b a = false)
    ∨ (caseInsensitiveCompare a b = false ∧ a.map toLowerByte ≠ b.map toLowerByte
        ∧ caseInsensitiveCompare b a = true) := by
  have hto : IsStrictTotalOrder (List Nat) (List.Lex (fun x y : Nat => x < y)) := inferInstance
  have hab := caseInsensitiveCompare_iff a b
  have hba := caseInsensitiveCompare_iff b a
  rcases hto.trichotomous (a.map toLowerByte) (b.map toLowerByte) with h | h | h
  · left
    refine ⟨hab.2 h, ?_, ?_⟩
    · intro he; rw [he] at h; exact hto.irrefl _ h
    · cases hc : caseInsensitiveCompare b a with
      | false => rfl
      | true => exact absurd (hto.trans _ _ _ h (hba.1 hc)) (hto.irrefl _)
  · right; left
    refine ⟨?_, h, ?_⟩
    · cases hc : caseInsensitiveCompare a b with
      | false => rfl
      | true => have := hab.1 hc; rw [h] at this; exact absurd this (hto.irrefl _)
    · cases hc : caseInsensitiveCompare b a with
      | false => rfl
      | true => have := hba.1 hc; rw [h] at this; exact absurd this (hto.irrefl _)
  · right; right
    refine ⟨?_, ?_, hba.2 h⟩
    · cases hc : caseInsensitiveCompare a b with
      | false => rfl
      | true => exact absurd (hto.trans _ _ _ h (hab.1 hc)) (hto.irrefl _)
    · intro he; rw [he] at h; exact hto.irrefl _ h

theorem ci_lt_trans {a b c : List Char} (h1 : caseInsensitiveCompare a b = true)
    (h2 : caseInsensitiveCompare b c = true) : caseInsensitiveCompare a c = true := by
  have hto : IsStrictTotalOrder (List Nat) (List.Lex (fun x y : Nat => x < y)) := inferInstance
  rw [caseInsensitiveCompare_iff] at h1 h2 ⊢
  exact hto.trans _ _ _ h1 h2

theorem ci_lt_congr_left {a b : List Char} (c : List Char)
    (h : a.map toLowerByte = b.map toLowerByte) :
    caseInsensitiveCompare a c = caseInsensitiveCompare b c := by
  have h1 := caseInsensitiveCompare_iff a c
  have h2 := caseInsensitiveCompare_iff b c
  rw [h] at h1
  cases ha : caseInsensitiveCompare a c <;> cases hb : caseInsensitiveCompare b c <;> simp_all

theorem ci_lt_congr_right {a b : List Char} (c : List Char)
    (h : a.map toLowerByte = b.map toLowerByte) :
    caseInsensitiveCompare c a = caseInsensitiveCompare c b := by
  have h1 := caseInsensitiveCompare_iff c a
  have h2 := caseInsensitiveCompare_iff c b
  rw [h] at h1
  cases ha : caseInsensitiveCompare c a <;> cases hb : caseInsensitiveCompare c b <;> simp_all

/-- The three answers of a lookup at one entry, by the order of the two keys. -/
theorem CiMap.get?_cons {α : Type} (k : String) (w : α) (rest : CiMap α) (key : String) :
    CiMap.get? ((k, w) :: rest) key
      = if caseInsensitiveCompare key.toList k.toList then none
        else if caseInsensitiveCompare k.toList key.toList then CiMap.get? rest key
        else some w := rfl

/-- Reading a map after the assignment `m[key] = v`: a key the comparator cannot tell from
`key` reads `v`, any other key reads what it read before. -/
theorem CiMap.get?_after_set {α : Type} (m : CiMap α) (key : String) (v : α) (key' : String) :
    CiMap.get? (CiMap.set m key v) key'
      = if key'.toList.map toLowerByte = key.toList.map toLowerByte then some v
        else CiMap.get? m key' := by
  induction m with
  | nil =>
    show CiMap.get? [(key, v)] key' = _
    rcases ci_trichotomy key'.toList key.toList with ⟨h1, h2, h3⟩ | ⟨h1, h2, h3⟩ | ⟨h1, h2, h3⟩
    · simp only [CiMap.get?_cons, h1, eq_false h2, if_true, if_false]; rfl
    · simp only [CiMap.get?_cons, h1, h3, eq_true h2, if_true, if_false, Bool.false_eq_true]
    · simp only [CiMap.get?_cons, h1, h3, eq_false h2, if_true, if_false, Bool.false_eq_true]
  | cons e rest ih =>
    obtain ⟨k0, w⟩ := e
    have hset : CiMap.set ((k0, w) :: rest) key v
        = if caseInsensitiveCompare key.toList k0.toList then (key, v) :: (k0, w) :: rest
          else if caseInsensitiveCompare k0.toList key.toList then (k0, w) :: CiMap.set rest key v
          else (k0, v) :: rest := rfl
    rw [hset]
    rcases ci_trichotomy key.toList k0.toList with ⟨a1, a2, a3⟩ | ⟨a1, a2, a3⟩ | ⟨a1, a2, a3⟩
    · rcases ci_trichotomy key'.toList key.toList with ⟨h1, h2, h3⟩ | ⟨h1, h2, h3⟩ | ⟨h1, h2, h3⟩
      · simp only [CiMap.get?_cons, a1, h1, eq_false h2, ci_lt_trans h1 a1, if_true, if_false]
      · simp only [CiMap.get?_cons, a1, h1, h3, eq_true h2, if_true, if_false,
          Bool.false_eq_true]
      · simp only [CiMap.get?_cons, a1, h1, h3, eq_false h2, if_true, if_false,
          Bool.false_eq_true]
    · have hk : (key'.toList.map toLowerByte = key.toList.map toLowerByte)
          = (key'.toList.map toLowerByte = k0.toList.map toLowerByte) := by rw [a2]
      rcases ci_trichotomy key'.toList k0.toList with ⟨h1, h2, h3⟩ | ⟨h1, h2, h3⟩ | ⟨h1, h2, h3⟩
      · simp only [CiMap.get?_cons, a1, a3, hk, h1, eq_false h2, if_true, if_false,
          Bool.false_eq_true]
      · simp only [CiMap.get?_cons, a1, a3, hk, h1, h3, eq_true h2, if_true, if_false,
          Bool.false_eq_true]
      · simp only [CiMap.get?_cons, a1, a3, hk, h1, h3, eq_false h2, if_true, if_false,
          Bool.false_eq_true]
    · rcases ci_trichotomy key'.toList k0.toList with ⟨h1, h2, h3⟩ | ⟨h1, h2, h3⟩ | ⟨h1, h2, h3⟩
      · have hlt := ci_lt_trans h1 a3
        have hne : key'.toList.map toLowerByte ≠ key.toList.map toLowerByte := by
          rcases ci_trichotomy key'.toList key.toList with ⟨_, q, _⟩ | ⟨q, _, _⟩ | ⟨q, _, _⟩
          · exact q
          · rw [q] at hlt; cases hlt
          · rw [q] at hlt; cases hlt
        simp only [CiMap.get?_cons, a1, a3, h1, eq_false hne, if_true, if_false,
          Bool.false_eq_true]
      · have hne : key'.toList.map toLowerByte ≠ key.toList.map toLowerByte := by
          rw [h2]; exact fun h => a2 h.symm
        simp only [CiMap.get?_cons, a1, a3, h1, h3, eq_false hne, if_true, if_false,
          Bool.false_eq_true]
      · simp only [CiMap.get?_cons, a1, a3, h1, h3, ih, if_true, if_false, Bool.false_eq_true]

theorem get?_fillMapping_other (names subs : List String) (mapping : RouteParamMapping)
    (name : String)
    (h : ∀ j (h1 : j < names.length), j < subs.length →
      (names.get ⟨j, h1⟩).toList.map toLowerByte ≠ name.toList.map toLowerByte) :
    CiMap.get? (fillMapping names subs mapping) name = CiMap.get? mapping name := by
  induction names generalizing subs mapping with
  | nil => simp [fillMapping]
  | cons n ns ih =>
    cases subs with
    | nil => simp [fillMapping]
    | cons s ss =>
      simp only [fillMapping]
      rw [ih ss _ (fun j h1 h2 => h (j + 1) (by simpa using h1) (by simpa using h2)),
        CiMap.get?_after_set]
      have := h 0 (by simp) (by simp)
      simp only [List.get_eq_getElem, List.getElem_cons_zero] at this
      rw [if_neg (fun e => this e.symm)]

/-- The loop of `matchWhole` and `matchPartial` over the parameter names: the `k`-th name reads
the `k`-th of the sub-matches given, unless a later name assigned is the same key. -/
theorem get?_fillMapping (names subs : List String) (mapping : RouteParamMapping) (k : Nat)
    (hk : k < names.length) (hs : k < subs.length)
    (hlater : ∀ j (h1 : j < names.length), k < j → j < subs.length →
      (names.get ⟨j, h1⟩).toList.map toLowerByte
        ≠ (names.get ⟨k, hk⟩).toList.map toLowerByte) :
    CiMap.get? (fillMapping names subs mapping) (names.get ⟨k, hk⟩) = some (subs.get ⟨k, hs⟩) := by
  induction names generalizing subs mapping k with
  | nil => simp at hk
  | cons n ns ih =>
    cases subs with
    | nil => simp at hs
    | cons s ss =>
      simp only [fillMapping]
      cases k with
      | zero =>
        rw [get?_fillMapping_other ns ss _ _ (fun j h1 h2 =>
          hlater (j + 1) (by simpa using h1) (by omega) (by simpa using h2)), CiMap.get?_after_set]
        simp
      | succ k' =>
        exact ih ss _ k' (by simpa using hk) (by simpa using hs)
          (fun j h1 h2 h3 => hlater (j + 1) (by simpa using h1) (by omega) (by simpa using h3))

theorem matchWhole_of_match {engine : RegexEngine} {re : PathRegExp} {path : String}
    {matchResult : List String} (req : Request) (hw : re.canHandlePartial = false)
    (hm : engine re.wholeCheckRegex path = some matchResult) :
    PathRegExp.matchPath engine re path req
      = some { req with
          basePath := if matchResult.length > 1 then matchResult.getD 1 "" else req.basePath
          routeParams := fillMapping re.parameterNames (matchResult.drop 2) [] } := by
  unfold PathRegExp.matchPath PathRegExp.matchWhole
  rw [hw, hm]
  simp only [Bool.false_eq_true, if_false]
  split_ifs <;> rfl

theorem matchPartial_of_match {engine : RegexEngine} {re : PathRegExp} {path : String}
    {matchResult : List String} (req : Request) (hp : re.canHandlePartial = true)
    (hm : engine re.partialCheckRegex path = some matchResult) :
    PathRegExp.matchPath engine re path req
      = some { req with
          basePath := if matchResult.length > 1 then matchResult.getD 1 "" else req.basePath
          routeParams := fillMapping re.parameterNames (matchResult.drop 2) []
          relativePath := matchResult.getD (matchResult.length - 1) "" } := by
  unfold PathRegExp.matchPath PathRegExp.matchPartial
  rw [hp, hm]
  simp only [if_true]
  split_ifs <;> rfl

theorem Router.emit_of_configs {μ : Type} (env : Env) (engine : RegexEngine) (r : Router μ)
    (d : Dispatch μ) (middlewareList : List (MiddlewareConfig μ))
    (h : r.configs d.state.req.method = some middlewareList) :
    Router.emit env engine r d
      = some (Dispatch.next env engine
          { state :=
              { d.state with pipeline := { middlewareList := middlewareList, isBase := false } }
            enclosing := d.state.pipeline :: d.enclosing }) := by
  unfold Router.emit
  rw [h]

/-- C16: an application whose first entry for `GET` is a router mounted with a prefix pattern,
the first entry of that router for `GET` being an exact pattern with the parameter name `id`;
the regular expression of the mount reports for `/users/42` the sub-matches `/users` and
`/42`, that of the inner pattern for `/42` the sub-matches `/42` and `42`. A `GET` for
`/users/42` enters the router with base path `/users` and relative path `/42`; the nested
Pipeline enters the inner middleware, which reads `42` for the route parameter `id`. In
general an exact match replaces the route parameters of the request: the `k`-th parameter name
reads the sub-match of the `k`-th group of the pattern, unless a later name is the same key,
and a name that was not assigned reads nothing. -/
theorem mounted_router_binds_route_parameter (env : Env) (engine : RegexEngine)
    (mountPattern innerPattern : String) (app sub : Router Middleware) (handler : Middleware)
    (rest rest' : List (PathRegExp × Middleware)) (req : Request) (res : Response)
    (happ : app.configs .GET = some ((⟨mountPattern, [], true⟩, .router sub) :: rest))
    (hsub : sub.configs .GET = some ((⟨innerPattern, ["id"], false⟩, handler) :: rest'))
    (hmethod : req.method = .GET) (hpath : req.pathWithoutQueryString = "/users/42")
    (hreq : req.isAlive = true) (hres : res.isAlive = true)
    (hmount : engine (PathRegExp.partialCheckRegex ⟨mountPattern, [], true⟩) "/users/42"
      = some ["/users/42", "/users", "/42"])
    (hinner : engine (PathRegExp.wholeCheckRegex ⟨innerPattern, ["id"], false⟩) "/42"
      = some ["/42", "/42", "42"]) :
    (∃ d d', Router.process env engine app req res = (d, some (.router sub))
        ∧ d.state.req.basePath = "/users" ∧ d.state.req.relativePath = "/42"
        ∧ Router.emit env engine sub d = some (d', some handler)
        ∧ d'.state.pipeline.isBase = false ∧ d'.enclosing = [d.state.pipeline]
        ∧ d'.state.req.relativePath = "/42"
        ∧ CiMap.get? d'.state.req.routeParams "id" = some "42")
    ∧ (∀ (re : PathRegExp) (path : String) (request : Request) (matchResult : List String),
        re.canHandlePartial = false → engine re.wholeCheckRegex path = some matchResult →
        ∃ request', PathRegExp.matchPath engine re path request = some request'
          ∧ (∀ (k : Nat) (hk : k < re.parameterNames.length) (hg : k + 2 < matchResult.length),
              (∀ j (hj : j < re.parameterNames.length), k < j → j + 2 < matchResult.length →
                (re.parameterNames.get ⟨j, hj⟩).toList.map toLowerByte
                  ≠ (re.parameterNames.get ⟨k, hk⟩).toList.map toLowerByte) →
              CiMap.get? request'.routeParams (re.parameterNames.get ⟨k, hk⟩)
                = some (matchResult.get ⟨k + 2, hg⟩))
          ∧ (∀ name : String,
              (∀ j (hj : j < re.parameterNames.length), j + 2 < matchResult.length →
                (re.parameterNames.get ⟨j, hj⟩).toList.map toLowerByte
                  ≠ name.toList.map toLowerByte) →
              CiMap.get? request'.routeParams name = none)) := by
  constructor
  · have h1 : PathRegExp.matchPath engine ⟨mountPattern, [], true⟩ "/users/42" req
        = some { req with basePath := "/users", routeParams := [], relativePath := "/42" } := by
      rw [matchPartial_of_match req rfl hmount]
      simp [fillMapping]
    have g1 := getNext_found engine
      { middlewareList := (⟨mountPattern, [], true⟩, Middleware.router sub) :: rest
        isBase := true } req _ 0 (⟨mountPattern, [], true⟩, .router sub) (Nat.le_refl _) (by simp)
      (by show PathRegExp.matchPath engine _ (Pipeline.matchSubject true req) req = _
          unfold Pipeline.matchSubject
          rw [if_pos rfl, hpath]
          exact h1)
      (by intro j e h1 h2; omega)
    have hproc : Router.process env engine app req res
        = ({ state :=
              { pipeline :=
                  { middlewareList := (⟨mountPattern, [], true⟩, Middleware.router sub) :: rest
                    isBase := true, current := 1, isHandled := true }
                req := { req with basePath := "/users", routeParams := [], relativePath := "/42"
                                  error := "" }
                res := res.setStatus 200 } }, some (.router sub)) := by
      unfold Router.process Dispatch.next Pipeline.nextFunc Pipeline.isValid
      rw [hmethod, happ]
      simp only [Option.getD_some, hreq, hres, Bool.and_self, Bool.not_true, Bool.false_eq_true,
        if_false]
      rw [g1]
      simp [Dispatch.follow, Response.setStatus, hreq, hres, hmethod]
    have h2 : PathRegExp.matchPath engine ⟨innerPattern, ["id"], false⟩ "/42"
          { req with basePath := "/users", routeParams := [], relativePath := "/42", error := "" }
        = some { req with basePath := "/42", routeParams := [("id", "42")]
                          relativePath := "/42", error := "" } := by
      rw [matchWhole_of_match _ rfl hinner]
      simp [fillMapping, CiMap.set]
    have g2 := getNext_found engine
      { middlewareList := (⟨innerPattern, ["id"], false⟩, handler) :: rest'
        isBase := false }
      { req with basePath := "/users", routeParams := [], relativePath := "/42", error := "" }
      _ 0 (⟨innerPattern, ["id"], false⟩, handler) (Nat.le_refl _) (by simp) h2
      (by intro j e h1 h2; omega)
    have hemit : Router.emit env engine sub
          { state :=
              { pipeline :=
                  { middlewareList := (⟨mountPattern, [], true⟩, Middleware.router sub) :: rest
                    isBase := true, current := 1, isHandled := true }
                req := { req with basePath := "/users", routeParams := [], relativePath := "/42"
                                  error := "" }
                res := res.setStatus 200 } }
        = some ({ state :=
                    { pipeline :=
                        { middlewareList := (⟨innerPattern, ["id"], false⟩, handler) :: rest'
                          isBase := false, current := 1, isHandled := true }
                      req := { req with basePath := "/42", routeParams := [("id", "42")]
                                        relativePath := "/42", error := "" }
                      res := (res.setStatus 200).setStatus 200 }
                  enclosing :=
                    [{ middlewareList := (⟨mountPattern, [], true⟩, Middleware.router sub) :: rest
                       isBase := true, current := 1, isHandled := true }] },
                some handler) := by
      rw [Router.emit_of_configs env engine sub _ _
        (by show sub.configs req.method = _; rw [hmethod, hsub])]
      unfold Dispatch.next Pipeline.nextFunc
      dsimp only
      rw [g2]
      simp [Dispatch.follow, Pipeline.isValid, Response.setStatus, hreq, hres, hmethod]
    have hid : CiMap.get? [("id", "42")] "id" = some "42" := by decide
    exact ⟨_, _, hproc, rfl, rfl, hemit, rfl, rfl, rfl, hid⟩
  · intro re path request matchResult hw hm
    refine ⟨_, matchWhole_of_match request hw hm, ?_, ?_⟩
    · intro k hk hg hlater
      have hs : k < (matchResult.drop 2).length := by simp; omega
      have := get?_fillMapping re.parameterNames (matchResult.drop 2) [] k hk hs
        (fun j h1 h2 h3 => hlater j h1 h2 (by simp at h3; omega))
      simp only [List.get_eq_getElem, List.getElem_drop] at this ⊢
      simpa [Nat.add_comm] using this
    · intro name hname
      have := get?_fillMapping_other re.parameterNames (matchResult.drop 2) [] name
        (fun j h1 h2 => hname j h1 (by simp at h2; omega))
      simpa [CiMap.get?] using this

theorem mounted_router_binds_route_parameter_witness :
    ∃ d d', Router.process demoEnv demoUsersEngine demoIdApp
          { method := .GET, path := "/users/42", pathWithoutQueryString := "/users/42" }
          (Response.new demoEnv {} 1) = (d, some (.router demoIdRouter))
        ∧ d.state.req.basePath = "/users" ∧ d.state.req.relativePath = "/42"
        ∧ Router.emit demoEnv demoUsersEngine demoIdRouter d
            = some (d', some (.callback 1 false))
        ∧ d'.state.pipeline.isBase = false ∧ d'.enclosing = [d.state.pipeline]
        ∧ d'.state.req.relativePath = "/42"
        ∧ CiMap.get? d'.state.req.routeParams "id" = some "42" :=
  (mounted_router_binds_route_parameter demoEnv demoUsersEngine "/users" "\\/([^\\/]+?)"
    demoIdApp demoIdRouter (.callback 1 false) [] []
    { method := .GET, path := "/users/42", pathWithoutQueryString := "/users/42" }
    (Response.new demoEnv {} 1) rfl rfl rfl rfl rfl (by decide) (by decide) (by decide)).1

/-! ## Router::use -/

theorem NatMap.get?_of_set {α : Type} (m : List (Nat × α)) (key : Nat) (v : α) (key' : Nat) :
    NatMap.get? (NatMap.set m key v) key' = if key' = key then some v else NatMap.get? m key' := by
  induction m with
  | nil =>
    simp only [NatMap.set, NatMap.get?]
  | cons e rest ih =>
    obtain ⟨k, w⟩ := e
    simp only [NatMap.set]
    by_cases h1 : key < k
    · simp only [h1, if_true, NatMap.get?]
    · by_cases h2 : k < key
      · simp only [h1, h2, if_false, if_true, NatMap.get?, ih]
        by_cases h3 : key' = k
        · subst h3
          have hne : key' ≠ key := by omega
          simp [hne]
        · simp [h3]
      · have : key = k := by omega
        subst this
        simp only [h1, if_false, NatMap.get?]
        by_cases h3 : key' = key <;> simp [h3]

/-- The method values are pairwise different: as keys of `methodToConfigs`, methods are told
apart. -/
theorem HttpMethod.value_injective (a b : HttpMethod) (h : a.value = b.value) : a = b := by
  revert h
  cases a <;> cases b <;> first | (intro _; rfl) | (intro h; exact absurd h (by decide))

theorem Router.configs_fillConfig {μ : Type} (r : Router μ) (method : HttpMethod)
    (re : PathRegExp) (middleware : μ) (m : HttpMethod) :
    (Router.fillConfig r method re middleware).configs m
      = if m = method then some ((r.configs method).getD [] ++ [(re, middleware)])
        else r.configs m := by
  unfold Router.fillConfig Router.configs
  simp only [NatMap.get?_of_set]
  by_cases h : m = method
  · subst h; simp
  · have : m.value ≠ method.value := fun e => h (HttpMethod.value_injective _ _ e)
    simp [h, this]

theorem Router.configs_errorHandling {μ : Type} (r : Router μ) (flag : Bool) (m : HttpMethod) :
    ({ r with errorHandling := flag } : Router μ).configs m = r.configs m := rfl

theorem Router.configs_use_other {μ : Type} (isErrorHandling : μ → Bool) (r : Router μ)
    (method : HttpMethod) (canHandlePartial : Bool) (paramKeys : List String) (path : String)
    (middleware : μ) (m : HttpMethod) (hmethod : method ≠ .ALL) (hm : m ≠ method) :
    (Router.useWith isErrorHandling r method ⟨path, paramKeys, canHandlePartial⟩
        middleware).configs m
      = r.configs m := by
  have hv : method.value ≠ HttpMethod.ALL.value :=
    fun e => hmethod (HttpMethod.value_injective _ _ e)
  unfold Router.useWith
  dsimp only
  rw [if_neg hv]
  split
  · rw [Router.configs_errorHandling, Router.configs_fillConfig, if_neg hm]
  · rw [Router.configs_fillConfig, if_neg hm]

/-- The constructor of `PathRegExp` returns the pattern with the arguments it was given, or
does not return. -/
theorem PathRegExp.new_eq (compiles : RegexCompiler) (path : String) (paramKeys : List String)
    (canHandlePartial : Bool) :
    PathRegExp.new compiles path paramKeys canHandlePartial
      = if (PathRegExp.new compiles path paramKeys canHandlePartial).isSome then
          some ⟨path, paramKeys, canHandlePartial⟩
        else none := by
  unfold PathRegExp.new
  dsimp only
  split_ifs <;> simp_all

theorem Router.use_eq {μ : Type} (compiles : RegexCompiler) (isErrorHandling : μ → Bool)
    (r : Router μ) (method : HttpMethod) (canHandlePartial : Bool) (paramKeys : List String)
    (path : String) (middleware : μ) :
    Router.use compiles isErrorHandling r method canHandlePartial paramKeys path middleware
      = if (PathRegExp.new compiles path paramKeys canHandlePartial).isSome then
          some (Router.useWith isErrorHandling r method ⟨path, paramKeys, canHandlePartial⟩
            middleware)
        else none := by
  unfold Router.use
  rw [PathRegExp.new_eq]
  split <;> rfl

/-- The loop of `handleData` goes on parsing after a request was enqueued as long as
`isRequestLimitExceeded()` is false: on a persistent connection as long as the number of calls
of `parseRequest` is at most `maxRequestsPerConnection`. -/
theorem parseLoop_goes_on_at_cap (env : Env) (buffer : List Char) (fuel : Nat)
    (c : HttpConnection) (pos : Nat) (hpos : pos < buffer.length)
    (hok : (parseRequest env c buffer pos).2.2 = false)
    (hpersistent : (parseRequest env c buffer pos).1.config.persistentConnections = true)
    (hcount : (parseRequest env c buffer pos).1.requestsAccepted
      ≤ (parseRequest env c buffer pos).1.config.maxRequestsPerConnection) :
    parseLoop env buffer (fuel + 1) c pos
      = parseLoop env buffer fuel (parseRequest env c buffer pos).1
          (parseRequest env c buffer pos).2.1 := by
  rw [parseLoop_continue env buffer fuel c pos hpos hok, if_neg]
  unfold isRequestLimitExceeded
  rw [if_pos hpersistent]
  simp only [decide_eq_true_eq]
  omega

/-- C18: on a persistent connection with `maxRequestsPerConnection = 1`, one read that holds
three requests enqueues two of them. On a connection that is not persistent, a request whose
body is completed by the second read does not stop the reading, and the request that follows
the body in the second read is enqueued as well: two requests where one is permitted. -/
theorem request_cap_is_exceeded :
    (({ maxRequestsPerConnection := 1 } : HttpServerConfig).persistentConnections = true)
    ∧ ((run demoEnv (HttpConnection.new { maxRequestsPerConnection := 1 })
        [.data ("GET /a HTTP/1.1\r\n\r\nGET /b HTTP/1.1\r\n\r\n"
          ++ "GET /c HTTP/1.1\r\n\r\n").toList]).created = 2)
    ∧ ((run demoEnv (HttpConnection.new { maxRequestsPerConnection := 1 })
        [.data ("GET /a HTTP/1.1\r\n\r\nGET /b HTTP/1.1\r\n\r\n"
          ++ "GET /c HTTP/1.1\r\n\r\n").toList]).held.map Request.summary
        = [(0, .GET, "/a"), (0, .GET, "/b")])
    ∧ (Effect.stop ∉ (run demoEnv (HttpConnection.new { persistentConnections := false })
        [.data "POST /a HTTP/1.1\r\nContent-Length: 5\r\n\r\nhe".toList]).effects)
    ∧ ((run demoEnv (HttpConnection.new { persistentConnections := false })
        [.data "POST /a HTTP/1.1\r\nContent-Length: 5\r\n\r\nhe".toList,
         .data "lloGET /b HTTP/1.1\r\n\r\n".toList]).created = 2)
    ∧ ((run demoEnv (HttpConnection.new { persistentConnections := false })
        [.data "POST /a HTTP/1.1\r\nContent-Length: 5\r\n\r\nhe".toList,
         .data "lloGET /b HTTP/1.1\r\n\r\n".toList]).held.map Request.summary
        = [(0, .POST, "/a"), (0, .GET, "/b")]) := by
  refine ⟨by decide, by decide, by decide, by decide, by decide, by decide⟩

/-! ## HttpConnection::close -/

theorem Request.invalidate_twice (r : Request) :
    r.invalidate.invalidate = r.invalidate := by
  unfold Request.invalidate
  cases h : r.onDataEndCallback <;> simp [h]

theorem Response.invalidate_again (r : Response) :
    r.invalidate.invalidate = r.invalidate := rfl

/-- What `closeTimeouts` changes: the three closing flags and the calls made; a timer is closed
when it exists and is not closing yet, and then its flag is set. -/
theorem closeTimeouts_spec (c : HttpConnection) :
    closeTimeouts c
      = { c with
          requestTimeoutClosing := c.requestTimeoutClosing || c.requestTimeout
          responseTimeoutClosing := c.responseTimeoutClosing || c.responseTimeout
          keepAliveTimeoutClosing := c.keepAliveTimeoutClosing || c.keepAliveTimeout
          effects := c.effects
            ++ (if c.requestTimeout && !c.requestTimeoutClosing then [Effect.timerClose .request]
                else [])
            ++ (if c.responseTimeout && !c.responseTimeoutClosing then
                  [Effect.timerClose .response] else [])
            ++ (if c.keepAliveTimeout && !c.keepAliveTimeoutClosing then
                  [Effect.timerClose .keepAlive] else []) } := by
  obtain ⟨config, client, rt, st, kt, request, queue, response, acc, left, buf, active, n1, n2,
    har, sd, cl, rtc, stc, ktc, effects, created, dispatched, completed, deleted⟩ := c
  unfold closeTimeouts emit
  cases rt <;> cases st <;> cases kt <;> cases rtc <;> cases stc <;> cases ktc <;> simp

theorem Bool.and_not_or_self (a b : Bool) : (a && !(b || a)) = false := by
  cases a <;> cases b <;> rfl

theorem Bool.or_or_self (a b : Bool) : (b || a || a) = (b || a) := by
  cases a <;> cases b <;> rfl

/-- A second `closeTimeouts()` closes no timer. -/
theorem closeTimeouts_closeTimeouts (c : HttpConnection) :
    closeTimeouts (closeTimeouts c) = closeTimeouts c := by
  rw [closeTimeouts_spec (closeTimeouts c), closeTimeouts_spec c]
  simp only [Bool.and_not_or_self, Bool.or_or_self, Bool.false_eq_true, if_false,
    List.append_nil]

/-- C19: for every connection state, a second `close()` right after the first changes nothing
and makes no call: the state, with the list of calls made, is the state the first call left.
The calls one `close()` makes are closes of timers, each timer at most once, and then at most
one call on the socket, a shutdown or a close. -/
theorem close_is_idempotent (c : HttpConnection) :
    close (close c) = close c
    ∧ ∃ issued : List Effect, (close c).effects = c.effects ++ issued
        ∧ (close (close c)).effects = c.effects ++ issued
        ∧ issued.count .shutdown + issued.count .close ≤ 1
        ∧ (∀ timer, issued.count (.timerClose timer) ≤ 1)
        ∧ (∀ e ∈ issued, e = .shutdown ∨ e = .close ∨ ∃ timer, e = .timerClose timer) := by
  have hidem : close (close c) = close c := by
    obtain ⟨config, client, rt, st, kt, request, queue, response, acc, left, buf, active, n1, n2,
      har, sd, cl, rtc, stc, ktc, effects, created, dispatched, completed, deleted⟩ := c
    unfold close
    simp only [closeTimeouts_spec]
    cases cl <;> cases sd <;> cases client <;> cases active <;>
      simp [emit, Option.map_map, Function.comp_def, Request.invalidate_twice,
        Response.invalidate_again, Bool.and_not_or_self, Bool.or_or_self] <;>
      exact ⟨fun h _ => h, fun h _ => h, fun h _ => h⟩
  have heff : (close c).effects = c.effects
      ++ ((if c.requestTimeout && !c.requestTimeoutClosing then [Effect.timerClose .request]
            else [])
        ++ ((if c.responseTimeout && !c.responseTimeoutClosing then [Effect.timerClose .response]
              else [])
          ++ ((if c.keepAliveTimeout && !c.keepAliveTimeoutClosing then
                [Effect.timerClose .keepAlive] else [])
            ++ (if c.closing || c.shuttingDown then []
                else if c.client then (if c.active then [Effect.shutdown] else [Effect.close])
                else [])))) := by
    obtain ⟨config, client, rt, st, kt, request, queue, response, acc, left, buf, active, n1, n2,
      har, sd, cl, rtc, stc, ktc, effects, created, dispatched, completed, deleted⟩ := c
    unfold close
    simp only [closeTimeouts_spec]
    cases cl <;> cases sd <;> cases client <;> cases active <;> simp [emit]
  refine ⟨hidem, _, heff, by rw [hidem]; exact heff, ?_, ?_, ?_⟩
  · generalize (c.requestTimeout && !c.requestTimeoutClosing) = a1
    generalize (c.responseTimeout && !c.responseTimeoutClosing) = a2
    generalize (c.keepAliveTimeout && !c.keepAliveTimeoutClosing) = a3
    generalize (c.closing || c.shuttingDown) = a4
    cases a1 <;> cases a2 <;> cases a3 <;> cases a4 <;> cases c.client <;> cases c.active <;>
      decide
  · intro timer
    generalize (c.requestTimeout && !c.requestTimeoutClosing) = a1
    generalize (c.responseTimeout && !c.responseTimeoutClosing) = a2
    generalize (c.keepAliveTimeout && !c.keepAliveTimeoutClosing) = a3
    generalize (c.closing || c.shuttingDown) = a4
    cases timer <;> cases a1 <;> cases a2 <;> cases a3 <;> cases a4 <;> cases c.client <;>
      cases c.active <;> decide
  · intro e he
    generalize (c.requestTimeout && !c.requestTimeoutClosing) = a1 at he
    generalize (c.responseTimeout && !c.responseTimeoutClosing) = a2 at he
    generalize (c.keepAliveTimeout && !c.keepAliveTimeoutClosing) = a3 at he
    generalize (c.closing || c.shuttingDown) = a4 at he
    generalize c.client = a5 at he
    generalize c.active = a6 at he
    cases a1 <;> cases a2 <;> cases a3 <;> cases a4 <;> cases a5 <;> cases a6 <;>
      simp at he <;> rcases he with rfl | rfl | rfl | rfl <;> simp

/-! ## Operations on a response -/

theorem performAll_dead (env : Env) (cfg : HttpServerConfig) :
    ∀ (ops : List ResponseOp) (r : Response), r.isAlive = false →
      (Response.performAll env cfg r ops).2 = []
        ∧ (Response.performAll env cfg r ops).1.isAlive = false
        ∧ (Response.performAll env cfg r ops).1.headersSent = r.headersSent := by
  intro ops
  induction ops with
  | nil => intro r h; exact ⟨rfl, h, rfl⟩
  | cons op ops ih =>
    intro r h
    have hstep : (Response.perform env cfg r op).2 = []
        ∧ (Response.perform env cfg r op).1.isAlive = false
        ∧ (Response.perform env cfg r op).1.headersSent = r.headersSent := by
      cases op <;>
        simp [Response.perform, Response.setStatus, Response.setHeader, Response.write,
          Response.send, Response.sendStatus, Response.endResponse, h]
    obtain ⟨i1, i2, i3⟩ := ih _ hstep.2.1
    unfold Response.performAll
    exact ⟨by rw [hstep.1, i1]; rfl, i2, by rw [i3, hstep.2.2]⟩

theorem writeInternal_congr (r r' : Response) (data : String)
    (h : r'.isChunkedTransfer = r.isChunkedTransfer) :
    Response.writeInternal r' data = Response.writeInternal r data := by
  unfold Response.writeInternal
  rw [h]

/-- Operations on a live response whose headers are sent write body data only. -/
theorem performAll_sent (env : Env) (cfg : HttpServerConfig) :
    ∀ (ops : List ResponseOp) (r : Response), r.isAlive = true → r.headersSent = true →
      (Response.performAll env cfg r ops).2
          = (bodyData r.isChunkedTransfer ops).flatMap (Response.writeInternal r)
        ∧ (Response.performAll env cfg r ops).1.headersSent = true := by
  intro ops
  induction ops with
  | nil => intro r _ h; exact ⟨rfl, h⟩
  | cons op ops ih =>
    intro r ha hs
    unfold Response.performAll
    cases op with
    | setStatus code =>
      obtain ⟨i1, i2⟩ := ih (r.setStatus code) ha hs
      refine ⟨?_, i2⟩
      show [] ++ (Response.performAll env cfg (r.setStatus code) ops).2 = _
      rw [i1]
      rfl
    | setHeader name value =>
      obtain ⟨i1, i2⟩ := ih (r.setHeader name value) ha hs
      refine ⟨?_, i2⟩
      show [] ++ (Response.performAll env cfg (r.setHeader name value) ops).2 = _
      rw [i1]
      rfl
    | write data =>
      have hw : Response.perform env cfg r (.write data) = (r, Response.writeInternal r data) := by
        simp [Response.perform, Response.write, ha, hs]
      obtain ⟨i1, i2⟩ := ih r ha hs
      rw [hw]
      refine ⟨?_, i2⟩
      show Response.writeInternal r data ++ _ = _
      rw [i1]
      simp [bodyData, List.flatMap_cons]
    | send data =>
      have hw : Response.perform env cfg r (.send data)
          = (Response.invalidate r, Response.writeInternal r data
              ++ (if r.isChunkedTransfer then Response.writeInternal r "" else [])) := by
        simp [Response.perform, Response.send, ha, hs, endResponse_sent env r ha hs]
      obtain ⟨d1, d2, d3⟩ := performAll_dead env cfg ops (Response.invalidate r) rfl
      rw [hw]
      refine ⟨?_, by rw [d3]; exact hs⟩
      rw [d1]
      cases hc : r.isChunkedTransfer <;> simp [bodyData, List.flatMap_cons, hc]
    | sendStatus code =>
      have hw : Response.perform env cfg r (.sendStatus code) = (r, []) := by
        simp [Response.perform, Response.sendStatus, ha, hs]
      obtain ⟨i1, i2⟩ := ih r ha hs
      rw [hw]
      refine ⟨?_, i2⟩
      show [] ++ _ = _
      rw [i1]
      rfl
    | endResponse =>
      have hw : Response.perform env cfg r .endResponse
          = (Response.invalidate r,
              if r.isChunkedTransfer then Response.writeInternal r "" else []) := by
        simp [Response.perform, endResponse_sent env r ha hs]
      obtain ⟨d1, d2, d3⟩ := performAll_dead env cfg ops (Response.invalidate r) rfl
      rw [hw]
      refine ⟨?_, by rw [d3]; exact hs⟩
      rw [d1]
      cases hc : r.isChunkedTransfer <;> simp [bodyData, hc]

theorem performAll_append (env : Env) (cfg : HttpServerConfig) :
    ∀ (a b : List ResponseOp) (r : Response),
      Response.performAll env cfg r (a ++ b)
        = ((Response.performAll env cfg (Response.performAll env cfg r a).1 b).1,
            (Response.performAll env cfg r a).2
              ++ (Response.performAll env cfg (Response.performAll env cfg r a).1 b).2) := by
  intro a
  induction a with
  | nil => intro b r; simp [Response.performAll]
  | cons op ops ih =>
    intro b r
    have e1 : Response.performAll env cfg r (op :: (ops ++ b))
        = ((Response.performAll env cfg (Response.perform env cfg r op).1 (ops ++ b)).1,
            (Response.perform env cfg r op).2
              ++ (Response.performAll env cfg (Response.perform env cfg r op).1 (ops ++ b)).2) :=
      rfl
    have e2 : Response.performAll env cfg r (op :: ops)
        = ((Response.performAll env cfg (Response.perform env cfg r op).1 ops).1,
            (Response.perform env cfg r op).2
              ++ (Response.performAll env cfg (Response.perform env cfg r op).1 ops).2) := rfl
    rw [List.cons_append, e1, ih, e2]
    simp only [List.append_assoc]

/-- Operations that only set the status or a header write nothing and leave the response live,
with its headers unsent. -/
theorem performAll_unsent (env : Env) (cfg : HttpServerConfig) :
    ∀ (pre : List ResponseOp) (r : Response), (∀ o ∈ pre, o.sendsHeaders = false) →
      (Response.performAll env cfg r pre).2 = []
        ∧ (Response.performAll env cfg r pre).1.headersSent = r.headersSent
        ∧ (Response.performAll env cfg r pre).1.isAlive = r.isAlive
        ∧ (Response.performAll env cfg r pre).1.minorVersion = r.minorVersion
        ∧ (Response.performAll env cfg r pre).1.isChunkedTransfer = r.isChunkedTransfer := by
  intro pre
  induction pre with
  | nil => intro r _; exact ⟨rfl, rfl, rfl, rfl, rfl⟩
  | cons op ops ih =>
    intro r h
    have hop := h op (List.mem_cons_self _ _)
    have hrest : ∀ o ∈ ops, o.sendsHeaders = false :=
      fun o ho => h o (List.mem_cons_of_mem _ ho)
    cases op with
    | setStatus code =>
      obtain ⟨i1, i2, i3, i4, i5⟩ := ih (r.setStatus code) hrest
      exact ⟨by show [] ++ (Response.performAll env cfg (r.setStatus code) ops).2 = []
                rw [i1]; rfl, i2, i3, i4, i5⟩
    | setHeader name value =>
      obtain ⟨i1, i2, i3, i4, i5⟩ := ih (r.setHeader name value) hrest
      exact ⟨by show [] ++ (Response.performAll env cfg (r.setHeader name value) ops).2 = []
                rw [i1]; rfl, i2, i3, i4, i5⟩
    | write data => cases hop
    | send data => cases hop
    | sendStatus code => cases hop
    | endResponse => cases hop

theorem sendHeaders_unsent (env : Env) (r : Response) (ha : r.isAlive = true)
    (hs : r.headersSent = false) :
    Response.sendHeaders env r
      = ({ Response.updateHeadersBeforeSending env r with headersSent := true },
          [headerBlock env (Response.updateHeadersBeforeSending env r)]) := by
  unfold Response.sendHeaders
  rw [if_neg (by simp [ha, hs])]

/-- From the first operation that sends the headers of a live response on: the writes start
with the header block of the response as it is then, and what follows is body data. -/
theorem performAll_first_sending (env : Env) (cfg : HttpServerConfig) (r : Response)
    (op : ResponseOp) (post : List ResponseOp) (ha : r.isAlive = true)
    (hs : r.headersSent = false) (hop : op.sendsHeaders = true) :
    ∃ sent : Response,
      (Response.performAll env cfg r (op :: post)).2
          = headerBlock env sent
            :: (bodyData sent.isChunkedTransfer (op :: post)).flatMap
                (Response.writeInternal sent)
        ∧ sent.statusCode = r.statusCode ∧ sent.minorVersion = r.minorVersion
        ∧ (Response.performAll env cfg r (op :: post)).1.headersSent = true := by
  have e : Response.performAll env cfg r (op :: post)
      = ((Response.performAll env cfg (Response.perform env cfg r op).1 post).1,
          (Response.perform env cfg r op).2
            ++ (Response.performAll env cfg (Response.perform env cfg r op).1 post).2) := rfl
  rw [e]
  cases op with
  | setStatus code => cases hop
  | setHeader name value => cases hop
  | write data =>
    obtain ⟨u1, u2, u3, u4, u5⟩ := updateHeadersBeforeSending_fields env
      (if cfg.persistentConnections then { r with isChunkedTransfer := true } else r)
    have ha' : (if cfg.persistentConnections then { r with isChunkedTransfer := true }
        else r).isAlive = true := by split <;> exact ha
    have hs' : (if cfg.persistentConnections then { r with isChunkedTransfer := true }
        else r).headersSent = false := by split <;> exact hs
    have hc' : (if cfg.persistentConnections then { r with isChunkedTransfer := true }
        else r).statusCode = r.statusCode
          ∧ (if cfg.persistentConnections then { r with isChunkedTransfer := true }
              else r).minorVersion = r.minorVersion := by split <;> exact ⟨rfl, rfl⟩
    have hw : Response.perform env cfg r (.write data)
        = ({ Response.updateHeadersBeforeSending env
              (if cfg.persistentConnections then { r with isChunkedTransfer := true } else r)
              with headersSent := true },
            headerBlock env (Response.updateHeadersBeforeSending env
              (if cfg.persistentConnections then { r with isChunkedTransfer := true } else r))
            :: Response.writeInternal (Response.updateHeadersBeforeSending env
              (if cfg.persistentConnections then { r with isChunkedTransfer := true } else r))
              data) := by
      show Response.write env cfg r data = _
      unfold Response.write
      rw [if_neg (by rw [ha]; decide)]
      dsimp only
      rw [if_pos (by rw [hs]; rfl), sendHeaders_unsent env _ ha' hs']
      rfl
    obtain ⟨p1, p2⟩ := performAll_sent env cfg post
      { Response.updateHeadersBeforeSending env
          (if cfg.persistentConnections then { r with isChunkedTransfer := true } else r)
          with headersSent := true } (u3.trans ha') rfl
    rw [hw]
    refine ⟨_, ?_, by rw [u1, hc'.1], by rw [u2, hc'.2], p2⟩
    rw [p1]
    simp only [bodyData, List.flatMap_cons, List.cons_append]
    rfl
  | send data =>
    obtain ⟨u1, u2, u3, u4, u5⟩ := updateHeadersBeforeSending_fields env
      { r with contentLength := some (u32 data.length) }
    have hw : Response.perform env cfg r (.send data)
        = (Response.invalidate { Response.updateHeadersBeforeSending env
              { r with contentLength := some (u32 data.length) } with headersSent := true },
            headerBlock env (Response.updateHeadersBeforeSending env
              { r with contentLength := some (u32 data.length) })
            :: (Response.writeInternal (Response.updateHeadersBeforeSending env
                  { r with contentLength := some (u32 data.length) }) data
                ++ (if (Response.updateHeadersBeforeSending env
                      { r with contentLength := some (u32 data.length) }).isChunkedTransfer then
                    Response.writeInternal (Response.updateHeadersBeforeSending env
                      { r with contentLength := some (u32 data.length) }) "" else []))) := by
      have hend := endResponse_sent env
        { Response.updateHeadersBeforeSending env
            { r with contentLength := some (u32 data.length) } with headersSent := true }
        (u3.trans ha) rfl
      show ((Response.send env r data).1, (Response.send env r data).2.1) = _
      unfold Response.send
      rw [if_neg (by rw [ha]; decide)]
      dsimp only
      rw [if_pos (by rw [hs]; rfl),
        sendHeaders_unsent env { r with contentLength := some (u32 data.length) } ha hs]
      dsimp only
      rw [hend]
      rfl
    obtain ⟨d1, d2, d3⟩ := performAll_dead env cfg post
      (Response.invalidate { Response.updateHeadersBeforeSending env
        { r with contentLength := some (u32 data.length) } with headersSent := true }) rfl
    rw [hw]
    refine ⟨_, ?_, u1, u2, by rw [d3]; rfl⟩
    rw [d1]
    generalize (Response.updateHeadersBeforeSending env
      { r with contentLength := some (u32 data.length) }) = sent
    cases hc : sent.isChunkedTransfer <;> simp [bodyData, List.flatMap_cons, hc]
  | sendStatus code =>
    obtain ⟨u1, u2, u3, u4, u5⟩ := updateHeadersBeforeSending_fields env r
    have hw : Response.perform env cfg r (.sendStatus code)
        = ({ Response.updateHeadersBeforeSending env r with headersSent := true },
            [headerBlock env (Response.updateHeadersBeforeSending env r)]) := by
      show Response.sendStatus env r code = _
      unfold Response.sendStatus
      rw [if_neg (by rw [ha]; decide), if_pos (by rw [hs]; rfl), sendHeaders_unsent env _ ha hs]
    obtain ⟨p1, p2⟩ := performAll_sent env cfg post
      { Response.updateHeadersBeforeSending env r with headersSent := true }
      (u3.trans ha) rfl
    rw [hw]
    refine ⟨_, ?_, u1, u2, p2⟩
    rw [p1]
    simp only [bodyData, List.singleton_append]
    rfl
  | endResponse =>
    obtain ⟨u1, u2, u3, u4, u5⟩ := updateHeadersBeforeSending_fields env
      { r with contentLength := some 0 }
    have hw : Response.perform env cfg r .endResponse
        = (Response.invalidate { Response.updateHeadersBeforeSending env
              { r with contentLength := some 0 } with headersSent := true },
            headerBlock env (Response.updateHeadersBeforeSending env
              { r with contentLength := some 0 })
            :: (if (Response.updateHeadersBeforeSending env
                      { r with contentLength := some 0 }).isChunkedTransfer then
                  Response.writeInternal (Response.updateHeadersBeforeSending env
                    { r with contentLength := some 0 }) "" else [])) := by
      show ((Response.endResponse env r).1, (Response.endResponse env r).2.1) = _
      unfold Response.endResponse
      rw [if_neg (by rw [ha]; decide)]
      dsimp only
      rw [if_pos (by rw [hs]; rfl),
        sendHeaders_unsent env { r with contentLength := some 0 } ha hs]
      rfl
    obtain ⟨d1, d2, d3⟩ := performAll_dead env cfg post
      (Response.invalidate { Response.updateHeadersBeforeSending env
        { r with contentLength := some 0 } with headersSent := true }) rfl
    rw [hw]
    refine ⟨_, ?_, u1, u2, by rw [d3]; rfl⟩
    rw [d1]
    generalize (Response.updateHeadersBeforeSending env { r with contentLength := some 0 })
      = sent
    cases hc : sent.isChunkedTransfer <;> simp [bodyData, hc]

theorem ops_first_sending (ops : List ResponseOp) :
    (∀ o ∈ ops, o.sendsHeaders = false)
      ∨ ∃ pre op post, ops = pre ++ op :: post ∧ (∀ o ∈ pre, o.sendsHeaders = false)
          ∧ op.sendsHeaders = true := by
  induction ops with
  | nil => left; intro o ho; cases ho
  | cons x xs ih =>
    cases hx : x.sendsHeaders with
    | true => right; exact ⟨[], x, xs, rfl, (by intro o ho; cases ho), hx⟩
    | false =>
      rcases ih with h | ⟨pre, op, post, h1, h2, h3⟩
      · left
        intro o ho
        rcases List.mem_cons.1 ho with rfl | h'
        · exact hx
        · exact h o h'
      · right
        refine ⟨x :: pre, op, post, by rw [h1]; rfl, ?_, h3⟩
        intro o ho
        rcases List.mem_cons.1 ho with rfl | h'
        · exact hx
        · exact h2 o h'

/-- C20: operations on a live response whose headers are not sent. While the operations only
set the status or a header, nothing is written. From the first `write`, `send`, `sendStatus`
or `end` on, everything written is one header block followed by body data: the header block is
that of the response at that operation, so its status line carries the status code then in
force, and what follows, whatever the later operations are, is the data of the later `write`
and `send` calls up to the end of the response, chunk by chunk, with no further header block.
A response that has been ended has sent its headers. -/
theorem headers_sent_once (env : Env) (cfg : HttpServerConfig) (r : Response)
    (ha : r.isAlive = true) (hs : r.headersSent = false) :
    (∀ pre : List ResponseOp, (∀ o ∈ pre, o.sendsHeaders = false) →
        (Response.performAll env cfg r pre).2 = []
          ∧ (Response.performAll env cfg r pre).1.headersSent = false
          ∧ (Response.performAll env cfg r pre).1.isAlive = true)
    ∧ (∀ (pre : List ResponseOp) (op : ResponseOp) (post : List ResponseOp),
        (∀ o ∈ pre, o.sendsHeaders = false) → op.sendsHeaders = true →
        ∃ (sent : Response) (rest : String),
          (Response.performAll env cfg r (pre ++ op :: post)).2
              = headerBlock env sent
                :: (bodyData sent.isChunkedTransfer (op :: post)).flatMap
                    (Response.writeInternal sent)
            ∧ headerBlock env sent
                = statusLine env r.minorVersion
                    (Response.performAll env cfg r pre).1.statusCode ++ rest
            ∧ (Response.performAll env cfg r (pre ++ op :: post)).1.headersSent = true)
    ∧ (∀ ops : List ResponseOp, (Response.performAll env cfg r ops).1.isAlive = false →
        (Response.performAll env cfg r ops).1.headersSent = true) := by
  have hpart2 : ∀ (pre : List ResponseOp) (op : ResponseOp) (post : List ResponseOp),
      (∀ o ∈ pre, o.sendsHeaders = false) → op.sendsHeaders = true →
      ∃ (sent : Response) (rest : String),
        (Response.performAll env cfg r (pre ++ op :: post)).2
            = headerBlock env sent
              :: (bodyData sent.isChunkedTransfer (op :: post)).flatMap
                  (Response.writeInternal sent)
          ∧ headerBlock env sent
              = statusLine env r.minorVersion
                  (Response.performAll env cfg r pre).1.statusCode ++ rest
          ∧ (Response.performAll env cfg r (pre ++ op :: post)).1.headersSent = true := by
    intro pre op post hpre hop
    obtain ⟨q1, q2, q3, q4, _⟩ := performAll_unsent env cfg pre r hpre
    obtain ⟨sent, f1, f2, f3, f4⟩ := performAll_first_sending env cfg
      (Response.performAll env cfg r pre).1 op post (q3.trans ha) (q2.trans hs) hop
    obtain ⟨rest, hrest⟩ := headerBlock_statusLine env sent
    rw [f2, f3, q4] at hrest
    refine ⟨sent, rest, ?_, hrest, ?_⟩
    · rw [performAll_append, q1]
      exact f1
    · rw [performAll_append]
      exact f4
  refine ⟨?_, hpart2, ?_⟩
  · intro pre hpre
    obtain ⟨q1, q2, q3, _, _⟩ := performAll_unsent env cfg pre r hpre
    exact ⟨q1, q2.trans hs, q3.trans ha⟩
  · intro ops hdead
    rcases ops_first_sending ops with h | ⟨pre, op, post, h1, h2, h3⟩
    · obtain ⟨_, _, q3, _, _⟩ := performAll_unsent env cfg ops r h
      rw [q3, ha] at hdead
      cases hdead
    · obtain ⟨_, _, _, _, h4⟩ := hpart2 pre op post h2 h3
      rw [h1]
      exact h4

theorem headers_sent_once_witness :
    ∃ (sent : Response) (rest : String),
      (Response.performAll demoEnv {} (Response.new demoEnv {} 1)
          ([.setStatus 404] ++ .write "hi" :: [.setStatus 500, .endResponse])).2
          = headerBlock demoEnv sent
            :: (bodyData sent.isChunkedTransfer (.write "hi" :: [.setStatus 500, .endResponse])).flatMap
                (Response.writeInternal sent)
        ∧ headerBlock demoEnv sent
            = statusLine demoEnv (Response.new demoEnv {} 1).minorVersion
                (Response.performAll demoEnv {} (Response.new demoEnv {} 1)
                  [.setStatus 404]).1.statusCode ++ rest
        ∧ (Response.performAll demoEnv {} (Response.new demoEnv {} 1)
            ([.setStatus 404] ++ .write "hi" :: [.setStatus 500, .endResponse])).1.headersSent
            = true :=
  (headers_sent_once demoEnv {} (Response.new demoEnv {} 1) (by decide) (by decide)).2.1
    [.setStatus 404] (.write "hi") [.setStatus 500, .endResponse] (by decide) (by decide)

/-! ## The error continuation without a handler -/

theorem getNextLoop_index_ge {μ : Type} (engine : RegexEngine) (l : List (MiddlewareConfig μ))
    (isBase skip : Bool) :
    ∀ (fuel current : Nat) (changed : Bool) (req : Request),
      current ≤ (Pipeline.getNextLoop engine l isBase skip fuel current changed req).1 := by
  intro fuel
  induction fuel with
  | zero => intro current changed req; exact Nat.le_refl _
  | succ n ih =>
    intro current changed req
    unfold Pipeline.getNextLoop
    cases l[current]? with
    | none => exact Nat.le_refl _
    | some entry =>
      dsimp only
      split
      · exact Nat.le_trans (Nat.le_succ _) (ih _ _ _)
      · cases PathRegExp.matchPath engine entry.1 (Pipeline.matchSubject isBase req) req with
        | some r => exact Nat.le_refl _
        | none => exact Nat.le_trans (Nat.le_succ _) (ih _ _ _)

/-- A call of `getNext` that returns a middleware moves the cursor on, and not past the end of
the list; the list and the kind of the pipeline stay. -/
theorem getNext_moves_cursor {μ : Type} (engine : RegexEngine) (p : Pipeline μ) (req : Request)
    (skip : Bool) :
    (Pipeline.getNext engine p req skip).2.1.middlewareList = p.middlewareList
      ∧ ((Pipeline.getNext engine p req skip).1.isSome = true →
          p.current < (Pipeline.getNext engine p req skip).2.1.current
            ∧ (Pipeline.getNext engine p req skip).2.1.current ≤ p.middlewareList.length) := by
  have hge := getNextLoop_index_ge engine p.middlewareList p.isBase skip
    (p.middlewareList.length - p.current) p.current false req
  unfold Pipeline.getNext
  dsimp only
  cases h : p.middlewareList[(Pipeline.getNextLoop engine p.middlewareList p.isBase skip
      (p.middlewareList.length - p.current) p.current false req).1]? with
  | none => exact ⟨rfl, fun hs => by cases hs⟩
  | some entry =>
    refine ⟨rfl, fun _ => ⟨?_, ?_⟩⟩
    · show p.current < _ + 1
      omega
    · show _ + 1 ≤ p.middlewareList.length
      have hlt : (Pipeline.getNextLoop engine p.middlewareList p.isBase skip
          (p.middlewareList.length - p.current) p.current false req).1
            < p.middlewareList.length := by
        rcases Nat.lt_or_ge (Pipeline.getNextLoop engine p.middlewareList p.isBase skip
          (p.middlewareList.length - p.current) p.current false req).1
          p.middlewareList.length with h' | h'
        · exact h'
        · rw [List.getElem?_eq_none h'] at h; cases h
      omega

/-- The bound on the calls of `getNext` in `getNextErrorHandling` is enough: with any larger
bound the loop returns the same. -/
theorem getNextErrorHandlingLoop_fuel {μ : Type} (engine : RegexEngine)
    (isErrorHandling : μ → Bool) :
    ∀ (gap fuel : Nat) (p : Pipeline μ) (req : Request),
      p.middlewareList.length - p.current = gap → p.current ≤ p.middlewareList.length →
      gap + 1 ≤ fuel →
      Pipeline.getNextErrorHandlingLoop engine isErrorHandling fuel p req
        = Pipeline.getNextErrorHandling engine isErrorHandling p req := by
  intro gap
  induction gap using Nat.strong_induction_on with
  | _ gap ih =>
    intro fuel p req hgap hle hfuel
    obtain ⟨n, rfl⟩ : ∃ n, fuel = n + 1 := ⟨fuel - 1, by omega⟩
    obtain ⟨hlist, hmove⟩ := getNext_moves_cursor engine p req false
    unfold Pipeline.getNextErrorHandling
    rw [hgap]
    unfold Pipeline.getNextErrorHandlingLoop
    dsimp only
    cases hg : (Pipeline.getNext engine p req false).1 with
    | none => rfl
    | some m =>
      dsimp only
      split
      · rfl
      · have hm := hmove (by rw [hg]; rfl)
        have hlen : (Pipeline.getNext engine p req false).2.1.middlewareList.length
            = p.middlewareList.length := by rw [hlist]
        have h1 := ih (p.middlewareList.length
            - (Pipeline.getNext engine p req false).2.1.current) (by omega) n
          (Pipeline.getNext engine p req false).2.1 (Pipeline.getNext engine p req false).2.2
          (by rw [hlen]) (by rw [hlen]; exact hm.2) (by omega)
        have h2 := ih (p.middlewareList.length
            - (Pipeline.getNext engine p req false).2.1.current) (by omega) gap
          (Pipeline.getNext engine p req false).2.1 (Pipeline.getNext engine p req false).2.2
          (by rw [hlen]) (by rw [hlen]; exact hm.2) (by omega)
        rw [h1, h2]

theorem getNextErrorHandlingLoop_none {μ : Type} (engine : RegexEngine)
    (isErrorHandling : μ → Bool) (l : List (MiddlewareConfig μ)) (isBase : Bool)
    (path : String) :
    ∀ (fuel : Nat) (p : Pipeline μ) (req : Request), p.middlewareList = l → p.isBase = isBase →
      Pipeline.matchSubject isBase req = path → p.current ≤ l.length →
      l.length < p.current + fuel →
      (isBase = true ∨ ∀ j e, p.current ≤ j → l[j]? = some e →
        PathRegExp.accepts engine e.1 path = true → e.1.canHandlePartial = false) →
      (∀ j e, p.current ≤ j → l[j]? = some e →
        ¬ (PathRegExp.accepts engine e.1 path = true ∧ isErrorHandling e.2 = true)) →
      ∃ req', Pipeline.getNextErrorHandlingLoop engine isErrorHandling fuel p req
          = (none, { p with current := l.length }, req')
        ∧ req'.error = req.error ∧ req'.onDataCallback = req.onDataCallback
        ∧ req'.onDataEndCallback = req.onDataEndCallback ∧ req'.isAlive = req.isAlive := by
  intro fuel
  induction fuel with
  | zero => intro p req _ _ _ h1 h2; omega
  | succ n ih =>
    intro p req hl hb hsub hci hfuel hstable hnone
    subst hl
    subst hb
    by_cases hex : ∃ k, p.current ≤ k ∧ ∃ e, p.middlewareList[k]? = some e
        ∧ PathRegExp.accepts engine e.1 path = true
    · classical
      obtain ⟨hk1, e, hke, hka⟩ := Nat.find_spec hex
      have hmin := fun j (hj : j < Nat.find hex) => Nat.find_min hex hj
      generalize Nat.find hex = k at hk1 hke hmin
      have hklen : k < p.middlewareList.length := by
        rcases Nat.lt_or_ge k p.middlewareList.length with h | h
        · exact h
        · rw [List.getElem?_eq_none h] at hke; cases hke
      have hsome : ∃ req'', PathRegExp.matchPath engine e.1
          (Pipeline.matchSubject p.isBase req) req = some req'' := by
        cases hm : PathRegExp.matchPath engine e.1 (Pipeline.matchSubject p.isBase req) req with
        | none =>
          rw [matchPath_eq_none, hsub, hka] at hm
          cases hm
        | some r => exact ⟨r, rfl⟩
      obtain ⟨req'', hm⟩ := hsome
      have hg := getNext_found engine p req req'' k e hk1 hke hm (by
        intro j e' hj1 hj2 hje
        rw [matchPath_eq_none, hsub]
        cases ha : PathRegExp.accepts engine e'.1 path with
        | false => rfl
        | true => exact absurd ⟨hj1, e', hje, ha⟩ (hmin j hj2))
      have hneh : isErrorHandling e.2 = false := by
        cases h : isErrorHandling e.2 with
        | false => rfl
        | true => exact absurd ⟨hka, h⟩ (hnone k e hk1 hke)
      have hst : p.isBase = true ∨ e.1.canHandlePartial = false := by
        rcases hstable with h | h
        · exact Or.inl h
        · exact Or.inr (h k e hk1 hke hka)
      obtain ⟨_, k2, k3, k4, k5, _, _⟩ := matchPath_keeps hm
      obtain ⟨r, hr, r1, r2, r3, r4⟩ := ih { p with current := k + 1 } req'' rfl rfl
        (by rw [matchSubject_after_match hm hst]; exact hsub)
        (by show k + 1 ≤ p.middlewareList.length; omega)
        (by show p.middlewareList.length < k + 1 + n; omega)
        (hstable.imp id (fun h j e' hj1 hje =>
          h j e' (by have : k + 1 ≤ j := hj1; omega) hje))
        (fun j e' hj1 hje => hnone j e' (by have : k + 1 ≤ j := hj1; omega) hje)
      refine ⟨r, ?_, by rw [r1, k2], by rw [r2, k3], by rw [r3, k4], by rw [r4, k5]⟩
      unfold Pipeline.getNextErrorHandlingLoop
      rw [hg]
      dsimp only
      rw [hneh]
      simp only [Bool.false_eq_true, if_false]
      exact hr
    · have hg := getNext_selects_first_match_aux engine p req hci (by
        intro j e' hj1 hje
        rw [matchPath_eq_none, hsub]
        cases ha : PathRegExp.accepts engine e'.1 path with
        | false => rfl
        | true => exact absurd ⟨j, hj1, e', hje, ha⟩ hex)
      refine ⟨req, ?_, rfl, rfl, rfl, rfl⟩
      unfold Pipeline.getNextErrorHandlingLoop
      rw [hg]

/-- The continuation `error(message)` on a nested Pipeline with both models alive and no
error-handling entry at or after the cursor whose pattern accepts the path (no accepting entry
being a prefix pattern): no middleware is entered, and the Pipeline hands over with
`baseNext->next()`, the continuation `next()` of the enclosing Pipeline. -/
theorem error_without_handler_in_nested {μ : Type} (env : Env) (engine : RegexEngine)
    (isErrorHandling : μ → Bool) (message : String) (s : PipelineState μ)
    (hreq : s.req.isAlive = true) (hres : s.res.isAlive = true)
    (hnested : s.pipeline.isBase = false)
    (hc : s.pipeline.current ≤ s.pipeline.middlewareList.length)
    (hstable : ∀ j e, s.pipeline.current ≤ j → s.pipeline.middlewareList[j]? = some e →
      PathRegExp.accepts engine e.1 (Pipeline.matchSubject s.pipeline.isBase s.req) = true →
      e.1.canHandlePartial = false)
    (hnone : ∀ j e, s.pipeline.current ≤ j → s.pipeline.middlewareList[j]? = some e →
      ¬ (PathRegExp.accepts engine e.1 (Pipeline.matchSubject s.pipeline.isBase s.req) = true
          ∧ isErrorHandling e.2 = true)) :
    ∃ req', Pipeline.error env engine isErrorHandling message s
        = ({ s with
              pipeline := { s.pipeline with current := s.pipeline.middlewareList.length }
              req := req' }, .baseNext)
      ∧ req'.error = message := by
  have hsub : Pipeline.matchSubject s.pipeline.isBase
      { s.req with onDataCallback := false, onDataEndCallback := false, error := message }
      = Pipeline.matchSubject s.pipeline.isBase s.req := by
    unfold Pipeline.matchSubject
    split <;> rfl
  obtain ⟨req', hr, r1, _, _, _⟩ := getNextErrorHandlingLoop_none engine isErrorHandling
    s.pipeline.middlewareList s.pipeline.isBase (Pipeline.matchSubject s.pipeline.isBase s.req)
    (s.pipeline.middlewareList.length - s.pipeline.current + 1) s.pipeline
    { s.req with onDataCallback := false, onDataEndCallback := false, error := message }
    rfl rfl hsub hc (by omega) (Or.inr hstable) hnone
  refine ⟨req', ?_, r1⟩
  unfold Pipeline.error Pipeline.isValid
  rw [hreq, hres]
  simp only [Bool.and_self, Bool.not_true, Bool.false_eq_true, if_false]
  unfold Pipeline.getNextErrorHandling
  rw [hr]
  simp [hnested]

/-- Every middleware that `next()` enters is given a request with an empty error text. -/
theorem nextFunc_clears_error {μ : Type} (env : Env) (engine : RegexEngine)
    (s : PipelineState μ) (middleware : μ)
    (h : (Pipeline.nextFunc env engine s).2 = .emit middleware) :
    (Pipeline.nextFunc env engine s).1.req.error = "" := by
  unfold Pipeline.nextFunc at h ⊢
  by_cases hv : (!Pipeline.isValid s) = true
  · rw [if_pos hv] at h; cases h
  · rw [if_neg hv] at h ⊢
    dsimp only at h ⊢
    cases hg : (Pipeline.getNext engine s.pipeline s.req false).1 with
    | none =>
      rw [hg] at h
      dsimp only at h
      split_ifs at h
    | some m => rfl

/-! ## The chunked wire format -/

/-- C22: a connection is accepted and the first read brings the 8 bytes `GET / HT`, an
incomplete header block. `parseRequest` keeps the bytes and sets
`needMoreDataToParseHeaders`; no request is active and the queue is empty, so the
`processNextRequest` that follows in `handleData` calls `startKeepAliveTimer`, which starts the
keep-alive timer while the engine waits for the rest of the header block; the request timer is
started right after it. The same happens while a body is awaited: the response of a request
with 2 of 5 body bytes received is ended, and `HttpConnection::end` goes on to
`processNextRequest`, which starts the keep-alive timer with `needMoreDataToGetBody` set.
Whenever `startKeepAliveTimer` starts the timer, persistent connections are enabled. -/
theorem keep_alive_timer_started_while_waiting :
    ((fun c : HttpConnection =>
        (c.needMoreDataToParseHeaders, c.hasActiveRequest, c.requestQueue.length, c.headerBuffer,
          c.effects))
        (parseLoop demoEnv "GET / HT".toList 8
          (stopRequestTimer (stopKeepAliveTimer
            { HttpConnection.new {} with headerBuffer := [], needMoreDataToParseHeaders := false }))
          0)
      = (true, false, 0, "GET / HT".toList,
          [.timerStart .keepAlive 5000, .timerStop .keepAlive]))
    ∧ ((processNextRequest demoEnv
          (parseLoop demoEnv "GET / HT".toList 8
            (stopRequestTimer (stopKeepAliveTimer
              { HttpConnection.new {} with
                headerBuffer := [], needMoreDataToParseHeaders := false }))
            0))
        = startKeepAliveTimer
          (parseLoop demoEnv "GET / HT".toList 8
            (stopRequestTimer (stopKeepAliveTimer
              { HttpConnection.new {} with
                headerBuffer := [], needMoreDataToParseHeaders := false }))
            0))
    ∧ ((fun c : HttpConnection =>
        (c.needMoreDataToParseHeaders, c.hasActiveRequest, c.requestQueue.length, c.effects))
        (handleData demoEnv (HttpConnection.new {}) "GET / HT".toList)
      = (true, false, 0,
          [.timerStart .keepAlive 5000, .timerStop .keepAlive, .timerStart .keepAlive 5000,
           .timerStart .request 5000]))
    ∧ ((fun c : HttpConnection =>
        (c.needMoreDataToGetBody, c.hasActiveRequest, c.requestQueue.length,
          c.effects.getLast?))
        (run demoEnv (HttpConnection.new {})
          [.data "POST /a HTTP/1.1\r\nContent-Length: 5\r\n\r\nhe".toList, .resEnd])
      = (true, false, 0, some (.timerStart .keepAlive 5000)))
    ∧ (∀ c : HttpConnection, startKeepAliveTimer c ≠ c →
        c.config.persistentConnections = true ∧ c.config.keepAliveTimeout ≠ 0
          ∧ startKeepAliveTimer c
            = HttpConnection.emit { c with keepAliveTimeout := true }
                (.timerStart .keepAlive c.config.keepAliveTimeout)) := by
  refine ⟨by decide, by decide, by decide, by decide, ?_⟩
  intro c hc
  unfold startKeepAliveTimer at hc ⊢
  by_cases h : (c.config.keepAliveTimeout = 0 || !c.config.persistentConnections) = true
  · rw [if_pos h] at hc
    exact absurd rfl hc
  · rw [if_neg h]
    simp at h
    exact ⟨h.2, h.1, rfl⟩

/-! ## The preset of status 200 -/

/-- The first middleware a Pipeline that has not yet entered one finds: its continuation
`next()` sets the status 200, whatever the status of the response was. -/
theorem nextFunc_first_sets_200 {μ : Type} (env : Env) (engine : RegexEngine)
    (s : PipelineState μ) (middleware : μ) (hvalid : Pipeline.isValid s = true)
    (hfresh : s.pipeline.isHandled = false)
    (hnext : (Pipeline.getNext engine s.pipeline s.req false).1 = some middleware) :
    (Pipeline.nextFunc env engine s).1.res.statusCode = 200
      ∧ (Pipeline.nextFunc env engine s).2.middleware? = some middleware := by
  have hh : (Pipeline.getNext engine s.pipeline s.req false).2.1.isHandled = false := by
    unfold Pipeline.getNext
    dsimp only
    split <;> exact hfresh
  unfold Pipeline.nextFunc
  rw [if_neg (by rw [hvalid]; decide)]
  dsimp only
  rw [hnext]
  dsimp only
  rw [if_pos (by rw [hh]; rfl)]
  exact ⟨rfl, rfl⟩

theorem nextFunc_first_sets_200_witness :
    (Pipeline.nextFunc demoEnv literalEngine
        { pipeline := { middlewareList := [(⟨"/a", [], false⟩, 10)], isBase := false }
          req := { relativePath := "/a" }
          res := (Response.new demoEnv {} 1).setStatus 404 }).1.res.statusCode = 200
      ∧ (Pipeline.nextFunc demoEnv literalEngine
        { pipeline := { middlewareList := [(⟨"/a", [], false⟩, 10)], isBase := false }
          req := { relativePath := "/a" }
          res := (Response.new demoEnv {} 1).setStatus 404 }).2.middleware? = some 10 :=
  nextFunc_first_sets_200 demoEnv literalEngine _ 10 (by decide) (by decide) (by decide)

/-- C23: an application has a callback for the prefix `/users` in front of a router mounted at
`/users`. For `GET /users/42` the top-level Pipeline sets status 200 and enters the callback;
the callback sets the status 404 (or 201) and calls `next()`, which enters the router with that status
still set; `Router::emit` makes a nested Pipeline, whose first `next()` finds the callback of
the router and sets status 200 again, so the status the first callback set is lost. -/
theorem nested_pipeline_sets_200_again :
    ((Router.process demoEnv demoUsersEngine demoStatusApp
        { method := .GET, path := "/users/42", pathWithoutQueryString := "/users/42" }
        (Response.new demoEnv {} 1)).1.state.res.statusCode = 200)
    ∧ ((Router.process demoEnv demoUsersEngine demoStatusApp
        { method := .GET, path := "/users/42", pathWithoutQueryString := "/users/42" }
        (Response.new demoEnv {} 1)).2.bind Middleware.name? = some 7)
    ∧ ((statusAcrossMount demoEnv demoUsersEngine demoStatusApp
          { method := .GET, path := "/users/42", pathWithoutQueryString := "/users/42" }
          (Response.new demoEnv {} 1) 404).map
          (fun x => (x.1.state.res.statusCode, x.1.state.res.headersSent,
            x.2.bind Middleware.name?))
        = some (200, false, some 1))
    ∧ ((statusAcrossMount demoEnv demoUsersEngine demoStatusApp
          { method := .GET, path := "/users/42", pathWithoutQueryString := "/users/42" }
          (Response.new demoEnv {} 1) 201).map (fun x => x.1.state.res.statusCode)
        = some 200)
    ∧ ((Dispatch.next demoEnv demoUsersEngine
        { (Router.process demoEnv demoUsersEngine demoStatusApp
            { method := .GET, path := "/users/42", pathWithoutQueryString := "/users/42" }
            (Response.new demoEnv {} 1)).1 with
          state := { (Router.process demoEnv demoUsersEngine demoStatusApp
            { method := .GET, path := "/users/42", pathWithoutQueryString := "/users/42" }
            (Response.new demoEnv {} 1)).1.state with
            res := (Response.new demoEnv {} 1).setStatus 404 } }).1.state.res.statusCode
        = 404) := by
  refine ⟨by decide, by decide, by decide, by decide, by decide⟩

/-! ## An incomplete header block -/

/-- What `parseRequest` does when the parser reports an incomplete header block at `pos`: the
test for the limit of 16 KiB is made on `(length - pos) - pos` in `uint32_t` arithmetic. -/
theorem parseRequest_incomplete (env : Env) (c : HttpConnection) (buffer : List Char)
    (pos : Nat) (hlen : buffer.length < 4294967296) (hpos : pos < buffer.length)
    (hinc : env.phr_parse_request (parserInput buffer pos) = .incomplete) :
    parseRequest env c buffer pos
      = if subU32 (buffer.length - pos) pos > 1024 * 16 then
          (push (counted c) (createErrorRequest 413 1), pos, true)
        else
          ({ counted c with
              needMoreDataToParseHeaders := true
              headerBuffer := buffer.drop pos }, buffer.length, false) := by
  have h1 : toU32 ((buffer.length : Int) - pos) = buffer.length - pos := by
    have : ((buffer.length : Int) - pos) = ((buffer.length - pos : Nat) : Int) := by omega
    rw [this]
    exact toU32_natCast (by omega)
  have hp : parseHeaders env buffer pos (toU32 ((buffer.length : Int) - pos))
      = if subU32 (buffer.length - pos) pos > 1024 * 16 then .RequestHeadersTooLargeError
        else .NeedMoreDataError := by
    unfold parseHeaders
    unfold parserInput at hinc
    rw [hinc]
    dsimp only
    rw [h1]
  have hu : u32 buffer.length = buffer.length := Nat.mod_eq_of_lt hlen
  by_cases hbig : subU32 (buffer.length - pos) pos > 1024 * 16
  · rw [if_pos hbig] at hp
    rw [if_pos hbig]
    unfold parseRequest
    dsimp only
    rw [hp]
    rfl
  · rw [if_neg hbig] at hp
    rw [if_neg hbig]
    unfold parseRequest
    dsimp only
    rw [hp]
    dsimp only
    rw [if_pos hpos, hu]
    rfl

/-- C24: the test `bufferLength - bufferStart > 16 KiB` of `parseHeaders` is made with
`bufferLength` already the length of the tail, so the cursor is subtracted twice. At the start
of the buffer the tail is kept when it is at most 16 KiB long and refused when it is longer.
At a cursor past the middle of the buffer the subtraction wraps around and every incomplete
tail is refused with a request of error status 413, however short it is; at a cursor before the
middle a tail longer than 16 KiB is kept when it exceeds the cursor by at most 16 KiB. After
the complete request of 19 bytes `GET /a HTTP/1.1` CRLF CRLF the 9 bytes `GET /b HT` are
refused with 413, while the same 9 bytes at the start of a buffer are kept. -/
theorem incomplete_header_block_after_request :
    (∀ (env : Env) (c : HttpConnection) (buffer : List Char),
        buffer.length < 4294967296 → 0 < buffer.length →
        env.phr_parse_request (parserInput buffer 0) = .incomplete →
        parseRequest env c buffer 0
          = if buffer.length > 16384 then (push (counted c) (createErrorRequest 413 1), 0, true)
            else ({ counted c with
                    needMoreDataToParseHeaders := true
                    headerBuffer := buffer }, buffer.length, false))
    ∧ (∀ (env : Env) (c : HttpConnection) (buffer : List Char) (pos : Nat),
        buffer.length + 16384 < 4294967296 → pos < buffer.length → buffer.length - pos < pos →
        env.phr_parse_request (parserInput buffer pos) = .incomplete →
        parseRequest env c buffer pos = (push (counted c) (createErrorRequest 413 1), pos, true))
    ∧ (∀ (env : Env) (c : HttpConnection) (buffer : List Char) (pos : Nat),
        buffer.length < 4294967296 → pos ≤ buffer.length - pos →
        16384 < buffer.length - pos → buffer.length - pos - pos ≤ 16384 →
        env.phr_parse_request (parserInput buffer pos) = .incomplete →
        parseRequest env c buffer pos
          = ({ counted c with
                needMoreDataToParseHeaders := true
                headerBuffer := buffer.drop pos }, buffer.length, false))
    ∧ demoEnv.phr_parse_request (parserInput "GET /a HTTP/1.1\r\n\r\nGET /b HT".toList 19)
        = .incomplete
    ∧ ("GET /a HTTP/1.1\r\n\r\nGET /b HT".toList.drop 19 = "GET /b HT".toList)
    ∧ ((fun r : HttpConnection × Nat × Bool =>
          (r.1.requestQueue.map Request.summary, r.1.headerBuffer,
            r.1.needMoreDataToParseHeaders, r.2))
        (parseRequest demoEnv (HttpConnection.new {})
          "GET /a HTTP/1.1\r\n\r\nGET /b HT".toList 19)
      = ([(413, .GET, "")], [], false, 19, true))
    ∧ ((fun r : HttpConnection × Nat × Bool =>
          (r.1.requestQueue.map Request.summary, r.1.headerBuffer,
            r.1.needMoreDataToParseHeaders, r.2))
        (parseRequest demoEnv (HttpConnection.new {}) "GET /b HT".toList 0)
      = ([], "GET /b HT".toList, true, 9, false)) := by
  refine ⟨?_, ?_, ?_, by decide, by decide, by decide, by decide⟩
  · intro env c buffer hlen hpos hinc
    rw [parseRequest_incomplete env c buffer 0 hlen hpos hinc]
    have e : subU32 (buffer.length - 0) 0 = buffer.length := by
      unfold subU32
      simpa using toU32_natCast hlen
    rw [e]
    rfl
  · intro env c buffer pos hlen hpos hmid hinc
    rw [parseRequest_incomplete env c buffer pos (by omega) hpos hinc, if_pos]
    rw [subU32_wrap hmid (by omega)]
    omega
  · intro env c buffer pos hlen hmid hlong hshort hinc
    rw [parseRequest_incomplete env c buffer pos hlen (by omega) hinc, if_neg]
    have e : subU32 (buffer.length - pos) pos = buffer.length - pos - pos := by
      unfold subU32
      have : ((buffer.length - pos : Nat) : Int) - (pos : Int)
          = ((buffer.length - pos - pos : Nat) : Int) := by omega
      rw [this]
      exact toU32_natCast (by omega)
    rw [e]
    omega

/-! ## Routers without a list for a method -/

theorem emit_null_list {μ : Type} (env : Env) (engine : RegexEngine) (r : Router μ)
    (d : Dispatch μ) (hlist : r.configs d.state.req.method = none)
    (hvalid : Pipeline.isValid d.state = true) : Router.emit env engine r d = none := by
  unfold Router.emit
  rw [hlist]
  dsimp only
  rw [if_neg (by rw [hvalid]; decide)]

/-- C25: a router that has entries for `GET` only has no entry list for `POST`: the map
`methodToConfigs` holds a null pointer there. `Router::emit` on a router without a list for the
method of a live request makes the nested Pipeline over that null pointer, and the first
`getNext` dereferences it. A `POST` for `/users/42` to an application with such a router mounted
at `/users` enters the router and fails so; the `GET` for the same path enters the callback of
the router. -/
theorem emit_without_list_for_method :
    (∀ (env : Env) (engine : RegexEngine) (r : Router Middleware) (d : Dispatch Middleware),
        r.configs d.state.req.method = none → Pipeline.isValid d.state = true →
        Router.emit env engine r d = none)
    ∧ (∀ (compiles : RegexCompiler) (r r' : Router Middleware) (m : HttpMethod)
        (canHandlePartial : Bool) (paramKeys : List String) (path : String)
        (middleware : Middleware),
        m ≠ .GET → r.configs m = none →
        Router.use compiles Middleware.isErrorHandling r .GET canHandlePartial paramKeys path
          middleware = some r' →
        r'.configs m = none)
    ∧ (demoUsersRouter.configs .POST).isSome = false
    ∧ (demoUsersRouter.configs .GET).isSome = true
    ∧ (enterMountedRouter demoEnv demoUsersEngine demoApp
        { method := .POST, path := "/users/42", pathWithoutQueryString := "/users/42" }
        (Response.new demoEnv {} 1)).map (fun x => x.isSome) = some false
    ∧ (enterMountedRouter demoEnv demoUsersEngine demoApp
        { method := .GET, path := "/users/42", pathWithoutQueryString := "/users/42" }
        (Response.new demoEnv {} 1)).map (fun x => x.map (fun y => y.2.bind Middleware.name?))
      = some (some (some 1)) := by
  refine ⟨emit_null_list, ?_, by decide, by decide, by decide, by decide⟩
  intro compiles r r' m canHandlePartial paramKeys path middleware hm hnone huse
  rw [Router.use_eq] at huse
  split at huse
  · cases huse
    rw [Router.configs_use_other _ _ _ _ _ _ _ _ (by decide) hm]
    exact hnone
  · cases huse

/-! ## The path a nested Pipeline matches against -/

/-- A match never changes `pathWithoutQueryString`, so a top-level Pipeline matches every entry
against the same string; a successful prefix match overwrites `relativePath`, the string a
nested Pipeline matches its entries against. -/
theorem matchSubject_after_matchPath (engine : RegexEngine) (re : PathRegExp) (path : String)
    (req req' : Request) (h : PathRegExp.matchPath engine re path req = some req') :
    Pipeline.matchSubject true req' = Pipeline.matchSubject true req
      ∧ (re.canHandlePartial = true →
          ∃ matchResult, engine re.partialCheckRegex path = some matchResult
            ∧ Pipeline.matchSubject false req'
                = matchResult.getD (matchResult.length - 1) "") := by
  refine ⟨(matchPath_keeps h).1, ?_⟩
  intro hp
  unfold PathRegExp.matchPath at h
  rw [if_pos hp] at h
  obtain ⟨matchResult, h1, h2, -⟩ := matchPartial_remainder h
  exact ⟨matchResult, h1, h2⟩

theorem matchSubject_after_matchPath_witness :
    Pipeline.matchSubject true
        { relativePath := "/42", basePath := "/users", pathWithoutQueryString := "/users/42" }
      = Pipeline.matchSubject true { pathWithoutQueryString := "/users/42" }
      ∧ ((⟨"/users", [], true⟩ : PathRegExp).canHandlePartial = true →
          ∃ matchResult,
            demoUsersEngine (⟨"/users", [], true⟩ : PathRegExp).partialCheckRegex "/users/42"
                = some matchResult
              ∧ Pipeline.matchSubject false
                  { relativePath := "/42", basePath := "/users"
                    pathWithoutQueryString := "/users/42" }
                = matchResult.getD (matchResult.length - 1) "") :=
  matchSubject_after_matchPath demoUsersEngine ⟨"/users", [], true⟩ "/users/42"
    { pathWithoutQueryString := "/users/42" }
    { relativePath := "/42", basePath := "/users", pathWithoutQueryString := "/users/42" }
    (by decide)

/-- C26: the router `A` is mounted at `/a`; its entries are the router `B` mounted at `/b` and
then a callback for `/b`; `B` has one callback, for `/zzz`. For `GET /a/b` the nested Pipeline of
`A` is given the relative path `/b`; the prefix match of its first entry overwrites the
relative path with the empty remainder and `B` is entered; `B` finds no entry and calls
`next()` of `A`, and `A` matches its second entry against the empty string, not against `/b`:
the callback for `/b`, whose pattern accepts `/b`, is not entered, `A` delegates to the top
level and the response is ended with status 404. With the same two entries at the top level
the callback is entered for `GET /b`. -/
theorem nested_parent_matches_overwritten_path :
    ((throughTwoMounts demoEnv demoNestedEngine demoNestedApp
        { method := .GET, path := "/a/b", pathWithoutQueryString := "/a/b" }
        (Response.new demoEnv {} 1)).map
        (fun x => (Pipeline.matchSubject false x.1, Pipeline.matchSubject false x.2.1,
          Pipeline.matchSubject false x.2.2.1.state.req, x.2.2.2.isSome,
          x.2.2.1.state.res.statusCode, x.2.2.1.state.res.isAlive))
      = some ("/b", "", "", false, 404, false))
    ∧ PathRegExp.accepts demoNestedEngine ⟨"/b", [], false⟩ "/b" = true
    ∧ PathRegExp.accepts demoNestedEngine ⟨"/b", [], false⟩ "" = false
    ∧ ((demoMiddleRouter.configs .GET).map
        (fun l => l.map (fun e => (e.1, e.2.name?, e.2.router?.isSome)))
      = some [(⟨"/b", [], true⟩, none, true), (⟨"/b", [], false⟩, some 2, false)])
    ∧ ((enterMountedRouter demoEnv demoNestedEngine demoFlatApp
        { method := .GET, path := "/b", pathWithoutQueryString := "/b" }
        (Response.new demoEnv {} 1)).map
        (fun x => x.map (fun y => (Pipeline.matchSubject true y.1.state.req,
          y.2.bind Middleware.name?)))
      = some (some ("/b", some 2))) := by
  refine ⟨by decide, by decide, by decide, by decide, by decide⟩

/-! ## The data-end callback -/

/-- A read that completes the body of a live request with both callbacks registered: the
data-end callback is invoked by `Request::handleData` and again by `Request::handleDataEnd`,
which `updateRequestBodyBuffer` calls next. -/
theorem handleData_handleDataEnd_log (r : Request) (data : List Char)
    (halive : r.isAlive = true) (hdata : r.onDataCallback = true)
    (hend : r.onDataEndCallback = true)
    (hfull : r.contentLength ≤ u32 (r.bodyOctetsReceived + data.length)) :
    ((r.handleData data).handleDataEnd).callbackLog
      = r.callbackLog ++ [.data data, .dataEnd, .dataEnd] := by
  simp [Request.handleData, Request.handleDataEnd, halive, hdata, hend, hfull]

theorem handleData_handleDataEnd_log_witness :
    (((({ contentLength := 1, onDataCallback := true, onDataEndCallback := true } : Request)
        ).handleData ['x']).handleDataEnd).callbackLog
      = [] ++ [.data ['x'], .dataEnd, .dataEnd] :=
  handleData_handleDataEnd_log _ _ rfl rfl rfl (by decide)

/-- C27: a request with `Content-Length: 1` is dispatched with no body byte received, the
middleware registers a data callback and a data-end callback, and the next read delivers the
byte: the data-end callback is invoked twice. A request without a body whose middleware
registers a data-end callback has it invoked at the registration, and once more by
`Request::invalidate`, which runs when the connection is shut down while the request is active
and which `HttpConnection::end` calls on the request when its response is ended. -/
theorem data_end_callback_runs_twice :
    ((run demoEnv (HttpConnection.new {})
        [.data "POST /a HTTP/1.1\r\nContent-Length: 1\r\n\r\n".toList, .reqOnData, .reqOnDataEnd,
         .data "x".toList]).request.map (fun r => r.callbackLog)
      = some [.data ['x'], .dataEnd, .dataEnd])
    ∧ ((run demoEnv (HttpConnection.new {})
        [.data "POST /a HTTP/1.1\r\nContent-Length: 1\r\n\r\n".toList, .reqOnData,
         .reqOnDataEnd]).request.map
          (fun r => (r.callbackLog, r.isAlive, r.onDataCallback, r.onDataEndCallback))
      = some ([], true, true, true))
    ∧ ((run demoEnv (HttpConnection.new {})
        [.data "GET /a HTTP/1.1\r\n\r\n".toList, .reqOnDataEnd,
         .shutdown]).request.map (fun r => r.callbackLog)
      = some [.dataEnd, .dataEnd])
    ∧ ((run demoEnv (HttpConnection.new {})
        [.data "GET /a HTTP/1.1\r\n\r\n".toList, .reqOnDataEnd]).request.map
          (fun r => (r.callbackLog, (Request.invalidate r).callbackLog))
      = some ([.dataEnd], [.dataEnd, .dataEnd]))
    ∧ ((run demoEnv (HttpConnection.new {})
        [.data "GET /a HTTP/1.1\r\n\r\n".toList, .reqOnDataEnd, .resEnd]).released.map
          (fun r => r.callbackLog)
      = [[.dataEnd, .dataEnd]]) := by
  refine ⟨by decide, by decide, by decide, by decide, by decide⟩

/-! ## Response::sendStatus -/

/-- C28: `sendStatus(code)` does not use its argument: what it does to a response and what it
writes are the same for every code, and the status of the response stays what it was. On a live
response with unsent headers it writes the header block of the response, whose status line
carries the status the response had. A new response has status 500, and `sendStatus(404)` on
it writes the status line `HTTP/1.1 500`; after the Pipeline has set 200 it writes
`HTTP/1.1 200`. -/
theorem sendStatus_keeps_old_status :
    (∀ (env : Env) (r : Response) (code code' : Nat),
        Response.sendStatus env r code = Response.sendStatus env r code')
    ∧ (∀ (env : Env) (r : Response) (code : Nat),
        (Response.sendStatus env r code).1.statusCode = r.statusCode)
    ∧ (∀ (env : Env) (r : Response) (code : Nat), r.isAlive = true → r.headersSent = false →
        (Response.sendStatus env r code).2
            = [statusLine env r.minorVersion r.statusCode
                ++ String.join ((Response.updateHeadersBeforeSending env r).headers.map
                    (fun e => headerLines e.1 e.2)) ++ CRLF])
    ∧ ((Response.sendStatus demoEnv (Response.new demoEnv {} 1) 404).2.map
          (fun data => data.toList.take 13) = ["HTTP/1.1 500 ".toList])
    ∧ (Response.sendStatus demoEnv (Response.new demoEnv {} 1) 404).1.statusCode = 500
    ∧ ((Response.sendStatus demoEnv ((Response.new demoEnv {} 1).setStatus 200) 404).2.map
          (fun data => data.toList.take 13) = ["HTTP/1.1 200 ".toList]) := by
  refine ⟨fun _ _ _ _ => rfl, ?_, ?_, by decide, by decide, by decide⟩
  · intro env r code
    obtain ⟨u1, -, -, -, -⟩ := updateHeadersBeforeSending_fields env r
    unfold Response.sendStatus Response.sendHeaders
    split_ifs <;> first | rfl | exact u1
  · intro env r code ha hs
    obtain ⟨u1, u2, -, -, -⟩ := updateHeadersBeforeSending_fields env r
    unfold Response.sendStatus
    rw [if_neg (by rw [ha]; decide), if_pos (by rw [hs]; rfl), sendHeaders_unsent env r ha hs]
    unfold headerBlock
    rw [u1, u2]

/-! ## Request::prepare -/

/-- C29: for the path `/a#b?c` the first loop of `Request::prepare` stops at the `'?'`, index 4,
without having seen the `'#'`, because it tests `path[0]`; the second loop stops at the `'#'`,
index 2. The range `[4, 2)` the query string is built from is inverted. When the construction
throws, the constructor of `Request` is left by the exception and there are no fields at all.
When it yields a string, whatever that string is, `pathWithoutQueryString` is `/a#b` and the
anchor is `#b?c`: the three fields together are longer than the path and do not spell it. With
the `'#'` behind the `'?'`, at the start, or alone, the three fields do partition the path. -/
theorem prepare_with_anchor_before_query :
    prepareQueryStart "/a#b?c".toList "/a#b?c".toList 0 = (4, false)
    ∧ prepareAnchorStart "/a#b?c".toList 0 = 2
    ∧ Request.new .GET "/a#b?c" 1 = none
    ∧ (∀ queryString : String,
        (Request.prepare (some queryString)
            { method := .GET, path := "/a#b?c", minorVersion := 1 }).map
          (fun r => (r.pathWithoutQueryString, r.queryString, r.anchor))
        = some ("/a#b", queryString, "#b?c"))
    ∧ (∀ (queryString : String) (r : Request),
        Request.prepare (some queryString)
            { method := .GET, path := "/a#b?c", minorVersion := 1 } = some r →
        r.pathWithoutQueryString ++ r.queryString ++ r.anchor ≠ "/a#b?c")
    ∧ ((Request.new .GET "/a?b#c" 1).map
          (fun r => (r.pathWithoutQueryString, r.queryString, r.anchor))
        = some ("/a", "?b", "#c"))
    ∧ ((Request.new .GET "#a?b" 1).map
          (fun r => (r.pathWithoutQueryString, r.queryString, r.anchor))
        = some ("", "", "#a?b"))
    ∧ ((Request.new .GET "/a#b" 1).map
          (fun r => (r.pathWithoutQueryString, r.queryString, r.anchor))
        = some ("/a#b", "", "")) := by
  have h1 : ∀ queryString : String,
      Request.prepare (some queryString) { method := .GET, path := "/a#b?c", minorVersion := 1 }
        = some { method := .GET, path := "/a#b?c", minorVersion := 1
                 pathWithoutQueryString := "/a#b", queryString := queryString
                 anchor := "#b?c" } := fun _ => rfl
  refine ⟨by decide, by decide, by decide, ?_, ?_, by decide, by decide, by decide⟩
  · intro queryString
    rw [h1]
    rfl
  · intro queryString r hr
    rw [h1] at hr
    cases hr
    intro h
    have hl := congrArg String.length h
    rw [String.length_append, String.length_append] at hl
    have e1 : "/a#b".length = 4 := by decide
    have e2 : "#b?c".length = 4 := by decide
    have e3 : "/a#b?c".length = 6 := by decide
    change "/a#b".length + queryString.length + "#b?c".length = "/a#b?c".length at hl
    omega

/-! ## parseMethod and methodToString -/

theorem cstr_of_nul_free (s : List Char) (h : ∀ c ∈ s, c.toNat ≠ 0) : cstr s = s := by
  unfold cstr
  rw [List.takeWhile_eq_self_iff]
  intro c hc
  simpa using h c hc

theorem mem_ALL_HTTP_METHODS (m : HttpMethod) : m ∈ ALL_HTTP_METHODS ↔ m ≠ .ALL := by
  cases m <;> decide

theorem parseMethod_methodToString (m : HttpMethod) (hm : m ≠ .ALL) :
    parseMethod (methodToString m) = some m := by
  cases m <;> first | exact absurd rfl hm | decide

/-- What a successful `parseMethod` tells: the method is one `ALL_HTTP_METHODS` lists and its
name is the argument up to the first NUL. -/
theorem parseMethod_some (s : String) (m : HttpMethod) (h : parseMethod s = some m) :
    m ∈ ALL_HTTP_METHODS ∧ (methodToString m).toList = cstr s.toList := by
  unfold parseMethod at h
  cases hf : ALL_HTTP_METHODS.find? (fun m => m.value == str2int (cstr s.toList)) with
  | none => rw [hf] at h; cases h
  | some m' =>
    rw [hf] at h
    dsimp only at h
    split_ifs at h with hs
    cases h
    exact ⟨List.mem_of_find?_eq_some hf, hs⟩

/-- C30: `parseMethod` gives each of the 34 methods back from its name. For a string without a
NUL byte, `parseMethod` succeeds exactly if the string is the name of one of the 34 methods,
letter case included; the method it returns then has the string as its name, and every other
string fails, also one whose hash `str2int` is the value of a method. The 34 methods are all
enumerators but `ALL`, each listed once. -/
theorem parseMethod_inverts_methodToString :
    (∀ m : HttpMethod, m ≠ .ALL → parseMethod (methodToString m) = some m)
    ∧ (∀ s : String, (∀ c ∈ s.toList, c.toNat ≠ 0) →
        ((∃ m, parseMethod s = some m) ↔ ∃ m ∈ ALL_HTTP_METHODS, s = methodToString m)
        ∧ (∀ m, parseMethod s = some m → m ≠ .ALL ∧ methodToString m = s)
        ∧ ((∀ m ∈ ALL_HTTP_METHODS, s ≠ methodToString m) → parseMethod s = none)
        ∧ (∀ m ∈ ALL_HTTP_METHODS, str2int s.toList = m.value → s ≠ methodToString m →
            parseMethod s = none))
    ∧ ALL_HTTP_METHODS.length = 34 ∧ ALL_HTTP_METHODS.Nodup
    ∧ (∀ m : HttpMethod, m ∈ ALL_HTTP_METHODS ↔ m ≠ .ALL)
    ∧ parseMethod "get" = none ∧ parseMethod "Get" = none ∧ parseMethod "" = none := by
  refine ⟨parseMethod_methodToString, ?_, by decide, by decide, mem_ALL_HTTP_METHODS,
    by decide, by decide, by decide⟩
  intro s hs
  have hc : cstr s.toList = s.toList := cstr_of_nul_free _ hs
  have hback : ∀ m, parseMethod s = some m → m ≠ .ALL ∧ methodToString m = s := by
    intro m hm
    obtain ⟨h1, h2⟩ := parseMethod_some s m hm
    rw [hc] at h2
    exact ⟨(mem_ALL_HTTP_METHODS m).1 h1, String.ext h2⟩
  have hnone : (∀ m ∈ ALL_HTTP_METHODS, s ≠ methodToString m) → parseMethod s = none := by
    intro hall
    cases hp : parseMethod s with
    | none => rfl
    | some m =>
      obtain ⟨h1, h2⟩ := hback m hp
      exact absurd h2.symm (hall m ((mem_ALL_HTTP_METHODS m).2 h1))
  refine ⟨⟨?_, ?_⟩, hback, hnone, ?_⟩
  · rintro ⟨m, hm⟩
    obtain ⟨h1, h2⟩ := hback m hm
    exact ⟨m, (mem_ALL_HTTP_METHODS m).2 h1, h2.symm⟩
  · rintro ⟨m, hm, rfl⟩
    exact ⟨m, parseMethod_methodToString m ((mem_ALL_HTTP_METHODS m).1 hm)⟩
  · intro m hm hcol hne
    apply hnone
    intro m' hm' he
    have hv : m'.value = str2int (methodToString m').toList := by
      cases m' <;> first | exact absurd hm' (by decide) | rfl
    have hmm : m = m' := HttpMethod.value_injective m m' (by rw [hv, ← he]; exact hcol.symm)
    exact hne (hmm ▸ he)

end Nex
